import Mathlib

/-!
Verification of the segmentation SOP module (`highdicom/seg/sop.py`).

This file gives a shallow embedding of the data model and operations of the
module: pixel arrays are total functions out of `ℕ` indices together with
explicit shape data (values outside the shape are irrelevant and never read by
in-range statements), integer ("uint/bool") pixels are `ℕ`, floating point
pixels are modelled exactly as `ℚ`, fallible code returns `Except PyError`,
and the sqlite-backed frame index is modelled as explicit lists with the SQL
operations (group-by counting, inner joins, temporary tables with UNIQUE
constraints) spelled out as list programs.  The external frame codec
(`encode_frame` / `pack_bits` and the pydicom pixel decoder) is an external
collaborator of the module and is modelled as the identity on planes.
-/

/-- Decidable equality for `Except`, used to evaluate the embedded operations
on concrete inputs. -/
instance exceptDecEq {ε α : Type _} [DecidableEq ε] [DecidableEq α] :
    DecidableEq (Except ε α) := fun x y =>
  match x, y with
  | .ok a, .ok b =>
    if h : a = b then .isTrue (by rw [h]) else .isFalse (by simp [h])
  | .ok _, .error _ => .isFalse (by simp)
  | .error _, .ok _ => .isFalse (by simp)
  | .error e, .error e' =>
    if h : e = e' then .isTrue (by rw [h]) else .isFalse (by simp [h])

/-- Python exception kinds raised by the module (and by the libraries it sits
on).  `integrityError` is sqlite3.IntegrityError (UNIQUE/PRIMARY KEY
violations), `operationalError` is sqlite3.OperationalError (e.g. a query
naming an absent column), `nameError` is a Python NameError from evaluating an
undefined identifier. -/
inductive PyError where
  | valueError
  | typeError
  | keyError
  | attributeError
  | runtimeError
  | indexError
  | integrityError
  | operationalError
  | nameError
deriving DecidableEq, Repr

/-- `highdicom.seg.enum.SegmentationTypeValues`. -/
inductive SegmentationTypeValues where
  | BINARY
  | FRACTIONAL
  | LABELMAP
deriving DecidableEq, Repr

/-- `highdicom.seg.enum.SegmentsOverlapValues`. -/
inductive SegmentsOverlapValues where
  | YES
  | UNDEFINED
  | NO
deriving DecidableEq, Repr

/-- `highdicom.seg.enum.SpatialLocationsPreservedValues`. -/
inductive SpatialLocationsPreservedValues where
  | YES
  | NO
deriving DecidableEq, Repr

/-- The caller-supplied segmentation pixel array (`pixel_array` argument of
`Segmentation.__init__` after the 2D → 3D rank promotion of line 1105: a 2D
array is exactly the case `f = 1`).  The constructors record the numpy dtype
dichotomy of `_check_and_cast_pixel_array` (bool/unsigned-int vs float) and
the rank (3D vs 4D).  Shapes are explicit; the payload is a total function
and only indices below the shape are meaningful. -/
inductive PixelArray where
  | int3 (f r c : ℕ) (a : ℕ → ℕ → ℕ → ℕ)
  | int4 (f r c s : ℕ) (a : ℕ → ℕ → ℕ → ℕ → ℕ)
  | float3 (f r c : ℕ) (a : ℕ → ℕ → ℕ → ℚ)
  | float4 (f r c s : ℕ) (a : ℕ → ℕ → ℕ → ℕ → ℚ)

namespace PixelArray

/-- Size of the first array dimension (`pixel_array.shape[0]`). -/
def numFrames : PixelArray → ℕ
  | int3 f _ _ _ => f
  | int4 f _ _ _ _ => f
  | float3 f _ _ _ => f
  | float4 f _ _ _ _ => f

/-- Number of rows (`pixel_array.shape[1]`). -/
def numRows : PixelArray → ℕ
  | int3 _ r _ _ => r
  | int4 _ r _ _ _ => r
  | float3 _ r _ _ => r
  | float4 _ r _ _ _ => r

/-- Number of columns (`pixel_array.shape[2]`). -/
def numCols : PixelArray → ℕ
  | int3 _ _ c _ => c
  | int4 _ _ c _ _ => c
  | float3 _ _ c _ => c
  | float4 _ _ c _ _ => c

end PixelArray

/-- The floor of a rational number, written out on the numerator/denominator
representation so that it evaluates by kernel reduction. -/
def ratFloor (q : ℚ) : ℤ :=
  q.num.fdiv (q.den : ℤ)

/-- `np.uint8(q)` for a float value `q`: C-style truncation toward zero
followed by reduction modulo 2^8.  In the module it is only ever applied to
values in `[0, 1]` that already passed the binary-values check (truncation
toward zero and floor agree there). -/
def npUint8OfRat (q : ℚ) : ℕ :=
  (Int.toNat (ratFloor q)) % 256

/-- `Segmentation._check_and_cast_pixel_array` (sop.py lines 1808-1942),
specialised to its overlap-classification result.  The function also returns
the pixel array itself (cast to uint8 in the float BINARY/LABELMAP branch);
that cast is value-preserving on the only values that survive the checks
(exactly 0.0 and 1.0), so the returned array is recovered downstream by
`npUint8OfRat` and is not duplicated in the return type here.

Faithful translation notes:
* `max_pixel > n` for a (nonempty) numpy array is the bounded existential
  `∃ index in range, value > n`; `max_pixel == 0` is the bounded universal.
* the float branch computes `unique_values` of the array once; the tests
  `min < 0 ∨ max > 1`, `any (0 < v < 1)` and `len(unique) == 1 ∧ unique[0] == 0`
  are the corresponding bounded quantifications over the array.
* in the float BINARY/LABELMAP branch the overlap test is applied to the
  uint8-cast array: `pixel_array.shape[-1]` is the *last* axis of the array as
  given — the segment axis for a 4D array but the column axis for a 3D array —
  and `pixel_array.sum(axis=-1)` sums over that same last axis. -/
def checkAndCastPixelArray (pixelArray : PixelArray) (numberOfSegments : ℕ)
    (segmentationType : SegmentationTypeValues) :
    Except PyError SegmentsOverlapValues := do
  -- lines 1837-1845: a 4D array must stack exactly the described segments
  match pixelArray with
  | .int4 _ _ _ s _ | .float4 _ _ _ s _ =>
    if s ≠ numberOfSegments then throw .valueError
  | _ => pure ()
  let overlap : SegmentsOverlapValues ←
    match pixelArray with
    | .int3 f r c a =>
      -- lines 1850-1864: label-map style array
      if ∃ i < f, ∃ j < r, ∃ k < c, a i j k > numberOfSegments then
        throw .valueError
      else
        pure SegmentsOverlapValues.NO
    | .int4 f r c s a =>
      -- lines 1865-1888: 4D stack of binary segments
      if ∃ i < f, ∃ j < r, ∃ k < c, ∃ l < s, a i j k l > 1 then
        throw .valueError
      else if ∀ i < f, ∀ j < r, ∀ k < c, ∀ l < s, a i j k l = 0 then
        pure SegmentsOverlapValues.NO
      else if s = 1 then
        pure SegmentsOverlapValues.NO
      else if ∃ i < f, ∃ j < r, ∃ k < c, (∑ l ∈ Finset.range s, a i j k l) > 1 then
        pure SegmentsOverlapValues.YES
      else
        pure SegmentsOverlapValues.NO
    | .float3 f r c a =>
      -- lines 1890-1931, 3D float array: note shape[-1] is the column count
      if ∃ i < f, ∃ j < r, ∃ k < c, (a i j k < 0 ∨ a i j k > 1) then
        throw .valueError
      else if segmentationType = .BINARY ∨ segmentationType = .LABELMAP then
        if ∃ i < f, ∃ j < r, ∃ k < c, (0 < a i j k ∧ a i j k < 1) then
          throw .valueError
        else if ∀ i < f, ∀ j < r, ∀ k < c, a i j k = 0 then
          pure SegmentsOverlapValues.NO
        else if c = 1 then
          pure SegmentsOverlapValues.NO
        else if ∃ i < f, ∃ j < r,
            (∑ k ∈ Finset.range c, npUint8OfRat (a i j k)) > 1 then
          pure SegmentsOverlapValues.YES
        else
          pure SegmentsOverlapValues.NO
      else
        -- FRACTIONAL: `ndim == 3` always lands in the single-segment arm
        pure SegmentsOverlapValues.NO
    | .float4 f r c s a =>
      -- lines 1890-1931, 4D float array: shape[-1] is the segment count
      if ∃ i < f, ∃ j < r, ∃ k < c, ∃ l < s, (a i j k l < 0 ∨ a i j k l > 1) then
        throw .valueError
      else if segmentationType = .BINARY ∨ segmentationType = .LABELMAP then
        if ∃ i < f, ∃ j < r, ∃ k < c, ∃ l < s, (0 < a i j k l ∧ a i j k l < 1) then
          throw .valueError
        else if ∀ i < f, ∀ j < r, ∀ k < c, ∀ l < s, a i j k l = 0 then
          pure SegmentsOverlapValues.NO
        else if s = 1 then
          pure SegmentsOverlapValues.NO
        else if ∃ i < f, ∃ j < r, ∃ k < c,
            (∑ l ∈ Finset.range s, npUint8OfRat (a i j k l)) > 1 then
          pure SegmentsOverlapValues.YES
        else
          pure SegmentsOverlapValues.NO
      else if s = 1 then
        -- FRACTIONAL, `shape[-1] == 1`
        pure SegmentsOverlapValues.NO
      else
        -- lines 1928-1931: truly fractional with multiple segments
        pure SegmentsOverlapValues.UNDEFINED
  -- lines 1935-1941: LABELMAP forbids overlapping segments
  if segmentationType = .LABELMAP ∧ overlap = .YES then
    throw .valueError
  return overlap

/-- `Segmentation._check_segment_numbers` (sop.py lines 1607-1638).  The
numpy test `(np.diff(arr) == 1).all()` runs first; on an empty description
list the subsequent subscript `described_segment_numbers[0]` raises an
IndexError. -/
def checkSegmentNumbers (describedSegmentNumbers : List ℤ) :
    Except PyError Unit :=
  if ¬ (describedSegmentNumbers.zip describedSegmentNumbers.tail).all
      (fun p => p.2 - p.1 = 1) then
    throw .valueError
  else
    match describedSegmentNumbers with
    | [] => throw .indexError
    | x :: _ => if x ≠ 1 then throw .valueError else pure ()

/-- The segment-number re-validation of `Segmentation.from_dataset`
(sop.py lines 2388-2393): `for i, segment in enumerate(seg.SegmentSequence, 1)`
raising AttributeError at the first item whose SegmentNumber differs from its
1-based position.  (The duplicate loop at lines 2395-2400 raising ValueError is
unreachable: the first loop already rejected every sequence it would reject.) -/
def fromDatasetCheckSegmentNumbers : List ℤ → ℤ → Except PyError Unit
  | [], _ => pure ()
  | x :: xs, i =>
    if x ≠ i then throw .attributeError
    else fromDatasetCheckSegmentNumbers xs (i + 1)

/-- The canonical contiguous segment numbering 1..n. -/
def oneToN (n : ℕ) : List ℤ :=
  (List.range n).map (fun i : ℕ => (i : ℤ) + 1)

example : checkSegmentNumbers [1, 2, 3] = Except.ok () := by decide
example : checkSegmentNumbers [2, 3] = Except.error .valueError := by decide
example : checkSegmentNumbers [1, 3] = Except.error .valueError := by decide
example : checkSegmentNumbers [] = Except.error .indexError := by decide
example : fromDatasetCheckSegmentNumbers [1, 2] 1 = Except.ok () := by decide
example : fromDatasetCheckSegmentNumbers [1, 3] 1 = Except.error .attributeError := by
  decide

example :
    checkAndCastPixelArray (.float3 1 1 2 (fun _ _ _ => 1)) 1 .BINARY =
      Except.ok .YES := by decide
example :
    checkAndCastPixelArray (.float4 1 1 1 2 (fun _ _ _ _ => 0)) 2 .FRACTIONAL =
      Except.ok .UNDEFINED := by decide
example :
    checkAndCastPixelArray
      (.int4 1 4 4 2 (fun _ j k _ => if j = 1 ∧ k = 1 then 1 else 0)) 2 .BINARY =
      Except.ok .YES := by decide
example :
    checkAndCastPixelArray
      (.int4 1 4 4 2 (fun _ j _ l => if j = l then 1 else 0)) 2 .BINARY =
      Except.ok .NO := by decide
example :
    checkAndCastPixelArray
      (.int4 1 4 4 2 (fun _ j k _ => if j = 1 ∧ k = 1 then 1 else 0)) 2 .LABELMAP =
      Except.error .valueError := by decide

/-- Exact multiplication of a rational by an integer, written on the
numerator/denominator representation so that it evaluates by kernel
reduction (`ratScaleInt_eq` below identifies it with `q * m`). -/
def ratScaleInt (q : ℚ) (m : ℤ) : ℚ :=
  mkRat (q.num * m) q.den

theorem ratScaleInt_eq (q : ℚ) (m : ℤ) : ratScaleInt q m = q * m := by
  rw [ratScaleInt, Rat.mkRat_eq_div]
  calc ((q.num * m : ℤ) : ℚ) / (q.den : ℚ) = (q.num : ℚ) / q.den * m := by
        push_cast; ring
    _ = q * m := by rw [Rat.num_div_den]

theorem ratDivInt_eq (n m : ℤ) : Rat.divInt n m = (n : ℚ) / (m : ℚ) := by
  rw [Rat.divInt_eq_div]

/-- `np.around` for a scalar: round half to even.  A (reduced) rational has
fractional part exactly one half iff its denominator is 2; any other value
rounds to the nearest integer, `floor (q + 1/2)`, computed on the
numerator/denominator representation. -/
def npAround (q : ℚ) : ℤ :=
  if q.den = 2 then
    (if ratFloor q % 2 = 0 then ratFloor q else ratFloor q + 1)
  else (2 * q.num + q.den).fdiv (2 * q.den)

/-- `ratFloor` agrees with the mathematical floor. -/
theorem ratFloor_eq_floor (q : ℚ) : ratFloor q = ⌊q⌋ := by
  rw [ratFloor, Rat.floor_def, Int.fdiv_eq_ediv _ (by positivity)]

/-- `ratFloor` of an integer. -/
theorem ratFloor_intCast (n : ℤ) : ratFloor (n : ℚ) = n := by
  rw [ratFloor_eq_floor, Int.floor_intCast]

/-- `np.around` of an integer value. -/
theorem npAround_intCast (n : ℤ) : npAround (n : ℚ) = n := by
  rw [npAround]
  rw [Rat.den_intCast, Rat.num_intCast]
  rw [if_neg (by norm_num)]
  rw [Int.fdiv_eq_ediv _ (by norm_num)]
  omega

example : npAround ((5 : ℤ) : ℚ) = 5 := npAround_intCast 5
example : npAround (mkRat 1 2) = 0 := by decide
example : npAround (mkRat 3 2) = 2 := by decide
example : npAround (mkRat 5 2) = 2 := by decide
example : npAround (mkRat 51 10) = 5 := by decide

/-- The uint8 cast of a float pixel array performed at sop.py line 1911 for
BINARY/LABELMAP output (`pixel_array = pixel_array.astype(np.uint8)` inside
`_check_and_cast_pixel_array`, whose result is the array used by the rest of
the constructor).  Integer arrays pass through unchanged. -/
def castPixelArrayUint8 : PixelArray → PixelArray
  | .float3 f r c a => .int3 f r c (fun i j k => npUint8OfRat (a i j k))
  | .float4 f r c s a => .int4 f r c s (fun i j k l => npUint8OfRat (a i j k l))
  | a => a

/-- A source image, as far as the encode pipeline consumes it.  Modelled from
the spec: §4.2/§4.5 — a source instance contributes its SOP Instance UID (for
derivation references and the frame index) and its plane position in the
three-dimensional coordinate system (used for the canonical sort order and
the dimension index ranks).  Positions are compared as scalars, realising the
slide-coordinate comparison of §4.2; the claims settled here do not depend on
the arity of the position tuples.  (`DimensionIndexSequence` and its
`get_plane_positions_of_series` / `get_index_values` helpers live in
`highdicom/seg/content.py`, which is not part of the packaged source.) -/
structure SourceImage where
  uid : String
  pos : ℤ
deriving DecidableEq, Repr

instance : Inhabited SourceImage := ⟨⟨"", 0⟩⟩

/-- `Segmentation._get_segment_array` (sop.py lines 2037-2107) as the map from
(plane index, row, column) to the stored 8-bit value for one segment.  The
float branch scales through `np.around(arr * max_fractional_value)` and casts
to uint8; the integer branch extracts the segment as a binary mask (label-map
equality test for 3D multi-segment arrays, identity for single-segment label
maps, slice of the last axis for 4D stacks) and, for FRACTIONAL output,
multiplies by the maximum fractional value in uint8 arithmetic. -/
def getSegmentArray (pixelArray : PixelArray) (segmentNumber : ℕ)
    (numberOfSegments : ℕ) (segmentationType : SegmentationTypeValues)
    (maxFractionalValue : ℤ) : ℕ → ℕ → ℕ → ℕ :=
  match pixelArray with
  | .float3 _ _ _ a =>
    fun i b c => Int.toNat (npAround (ratScaleInt (a i b c) maxFractionalValue)) % 256
  | .float4 _ _ _ _ a =>
    fun i b c =>
      Int.toNat (npAround
        (ratScaleInt (a i b c (segmentNumber - 1)) maxFractionalValue)) % 256
  | .int3 _ _ _ a =>
    let segmentArray : ℕ → ℕ → ℕ → ℕ :=
      if numberOfSegments = 1 then a
      else fun i b c => if a i b c = segmentNumber then 1 else 0
    if segmentationType = .FRACTIONAL ∧ maxFractionalValue ≠ 1 then
      fun i b c => segmentArray i b c * Int.toNat maxFractionalValue % 256
    else segmentArray
  | .int4 _ _ _ _ a =>
    let segmentArray : ℕ → ℕ → ℕ → ℕ := fun i b c => a i b c (segmentNumber - 1)
    if segmentationType = .FRACTIONAL ∧ maxFractionalValue ≠ 1 then
      fun i b c => segmentArray i b c * Int.toNat maxFractionalValue % 256
    else segmentArray

/-- `np.any(pixel_array[i])`: whether plane `i` of the input array holds any
nonzero value (used by `_omit_empty_frames`, sop.py line 2023). -/
def frameNonEmpty (pixelArray : PixelArray) (i : ℕ) : Bool :=
  match pixelArray with
  | .int3 _ r c a => decide (∃ b < r, ∃ k < c, a i b k ≠ 0)
  | .int4 _ r c s a => decide (∃ b < r, ∃ k < c, ∃ l < s, a i b k l ≠ 0)
  | .float3 _ r c a => decide (∃ b < r, ∃ k < c, a i b k ≠ 0)
  | .float4 _ r c s a => decide (∃ b < r, ∃ k < c, ∃ l < s, a i b k l ≠ 0)

/-- `np.any(segment_array[i])` for a single-segment array produced by
`getSegmentArray` (sop.py line 1510). -/
def segArrayNonEmpty (segArray : ℕ → ℕ → ℕ → ℕ) (r c : ℕ) (i : ℕ) : Bool :=
  decide (∃ b < r, ∃ k < c, segArray i b k ≠ 0)

/-- `Segmentation._omit_empty_frames` (sop.py lines 1988-2035), reduced to the
data consumed downstream: the list of indices of retained planes in the
original array, and the `is_empty` flag (the retained plane positions equal
the original positions re-indexed by these indices).  When every plane is
empty, all planes are kept and `is_empty` is `True` (the constructor then
disables empty-frame omission). -/
def omitEmptyFrames (pixelArray : PixelArray) : List ℕ × Bool :=
  let kept := (List.range pixelArray.numFrames).filter
    (fun i => frameNonEmpty pixelArray i)
  if kept.isEmpty then (List.range pixelArray.numFrames, true) else (kept, false)

/-- Insert a value into a sorted list (ascending). -/
def insertSortedInt (x : ℤ) : List ℤ → List ℤ
  | [] => [x]
  | y :: ys => if x ≤ y then x :: y :: ys else y :: insertSortedInt x ys

/-- Insertion sort on integer lists (ascending). -/
def insertionSortInt : List ℤ → List ℤ
  | [] => []
  | x :: xs => insertSortedInt x (insertionSortInt xs)

/-- `np.unique(values, axis=0)`: the distinct values in ascending order. -/
def npUniqueValues (l : List ℤ) : List ℤ :=
  insertionSortInt l.dedup

/-- `np.unique(values, axis=0, return_index=True)[1]`: the index of the first
occurrence of each distinct value, listed in ascending order of the values
themselves.  Note that planes sharing a position contribute a *single* index:
duplicates are silently dropped (sop.py lines 1441-1445). -/
def npUniqueReturnIndex (l : List ℤ) : List ℕ :=
  (npUniqueValues l).map (fun v => l.indexOf v)

example : npUniqueValues [7, 5, 7, 6] = [5, 6, 7] := by decide

example : npUniqueReturnIndex [7, 5, 7, 6] = [1, 3, 0] := by decide

/-- One item of a per-frame SourceImageSequence (inside
DerivationImageSequence): the referenced SOP Instance UID, the Referenced
Frame Number attribute (`[]` models the absent attribute; a multi-valued
attribute is a longer list), and the optional Spatial Locations Preserved
flag. -/
structure SourceImageRef where
  referencedSOPInstanceUID : String
  referencedFrameNumber : List ℤ
  spatialLocationsPreserved : Option SpatialLocationsPreservedValues
deriving DecidableEq, Repr

/-- One item of the PerFrameFunctionalGroupsSequence, as far as the module
reads it back (`_build_luts`): the DimensionIndexValues tuple (segment number
first, then one value per non-segment dimension index pointer, the layout
produced by `_get_pffg_item`, sop.py line 2230), the nested
DerivationImageSequence → SourceImageSequence items, and the
ReferencedSegmentNumber from the SegmentIdentificationSequence. -/
structure PffgItem where
  dimensionIndexValues : List ℤ
  derivationImageSequence : List (List SourceImageRef)
  referencedSegmentNumber : ℤ
deriving DecidableEq, Repr

/-- The data element tag of Image Position (Patient), the non-segment
dimension index pointer of the modelled encode pipeline. -/
def imagePositionPatientTag : ℕ := 0x00200032

/-- The parts of an encoded Segmentation object that the decode/query path
reads: stored pixel planes (the external frame codec and bit-packing are
modelled as the identity on planes), the per-frame functional group items,
the referenced source instance UIDs, and the image-level attributes. -/
structure EncodedSeg where
  h : ℕ
  w : ℕ
  frames : List (ℕ → ℕ → ℕ)
  pffg : List PffgItem
  sourceUids : List String
  segmentationType : SegmentationTypeValues
  maximumFractionalValue : ℤ
  numberOfSegments : ℕ
  dimIndPointers : List ℕ

/-- `Segmentation._combine_segments` (sop.py lines 1944-1986).  Its first
executable statement (line 1967) is
`if segments_overlap == SegmentsOverlapValue.YES:` — but `segments_overlap`
is not defined in the static method's scope (it is a local of `__init__`),
and the module imports `SegmentsOverlapValues`, not `SegmentsOverlapValue`.
Evaluating the condition therefore raises `NameError` unconditionally, before
the argmax-based combination of lines 1973-1984 can run. -/
def combineSegments (_pixelArray : PixelArray) : Except PyError PixelArray :=
  throw .nameError

/-- One frame emitted by the encode loop (sop.py lines 1485-1558), bundling
the stored plane with the per-frame metadata. -/
structure EmittedFrame where
  segmentNumber : ℤ
  sourceImageIndex : ℕ
  dimensionIndexValues : List ℤ
  refUid : String
  plane : ℕ → ℕ → ℕ

/-- The PerFrameFunctionalGroupsSequence item for an emitted frame
(`Segmentation._get_pffg_item`, sop.py lines 2181-2288) in the
spatial-locations-preserved, single-frame-source-images configuration: the
derivation sequence holds the single contributing source instance with
`SpatialLocationsPreserved = 'YES'` and no Referenced Frame Number. -/
def EmittedFrame.toPffg (e : EmittedFrame) : PffgItem :=
  { dimensionIndexValues := e.dimensionIndexValues
    derivationImageSequence := [[⟨e.refUid, [], some .YES⟩]]
    referencedSegmentNumber := e.segmentNumber }

/-- The frame-emission loop of the constructor (sop.py lines 1485-1558) for a
BINARY/FRACTIONAL segmentation: for every described segment number, extract
its segment array, then walk the planes in canonical sorted order
(`plane_sort_index`), skipping planes empty for this segment when omission is
active. -/
def encodePlaneLoop (sources : List SourceImage) (pixelArray : PixelArray)
    (describedSegmentNumbers : List ℤ) (segmentationType : SegmentationTypeValues)
    (maxFractionalValue : ℤ) (sourceImageIndices : List ℕ)
    (planeSortIndex : List ℕ) (dimensionPositionValues : List ℤ)
    (omitActive : Bool) : List EmittedFrame :=
  describedSegmentNumbers.flatMap (fun segmentNumber =>
    let segmentArray := getSegmentArray pixelArray segmentNumber.toNat
      describedSegmentNumbers.length segmentationType maxFractionalValue
    planeSortIndex.filterMap (fun planeIndex =>
      let sourceImageIndex := sourceImageIndices.getD planeIndex 0
      if omitActive ∧
          ¬ segArrayNonEmpty segmentArray pixelArray.numRows pixelArray.numCols
            sourceImageIndex then
        none
      else
        let pos := (sources.getD sourceImageIndex default).pos
        let rank : ℤ := (dimensionPositionValues.indexOf pos : ℤ) + 1
        some { segmentNumber := segmentNumber
               sourceImageIndex := sourceImageIndex
               dimensionIndexValues := [segmentNumber, rank]
               refUid := (sources.getD sourceImageIndex default).uid
               plane := fun b c => segmentArray sourceImageIndex b c }))

/-- The encode constructor `Segmentation.__init__` (sop.py lines 860-1585) in
the configuration the claims exercise: single-frame source images in a
patient-style coordinate system, default pixel measures / plane orientation /
plane positions (all derived from the sources, hence spatial locations
preserved), a non-encapsulated transfer syntax, and segment descriptions
represented by their segment numbers.  Checks on attributes outside this
model (source homogeneity, transfer-syntax support, person names, ...) always
pass for the modelled sources.  The result stops before `_build_luts`, which
is modelled separately by `buildLuts`. -/
def encodeSegmentation (sources : List SourceImage) (pixelArray : PixelArray)
    (segmentationType : SegmentationTypeValues)
    (describedSegmentNumbers : List ℤ) (maxFractionalValue : ℤ)
    (omitEmpty : Bool) : Except PyError EncodedSeg := do
  -- line 1066: at least one source image
  if sources.isEmpty then throw .valueError
  -- line 1361
  checkSegmentNumbers describedSegmentNumbers
  let numberOfSegments := describedSegmentNumbers.length
  -- line 1366
  let _overlap ← checkAndCastPixelArray pixelArray numberOfSegments
    segmentationType
  -- line 1911 (returned cast array)
  let pixelArray :=
    if segmentationType = .BINARY ∨ segmentationType = .LABELMAP then
      castPixelArrayUint8 pixelArray
    else pixelArray
  -- lines 1374-1380
  let pixelArray ← match pixelArray with
    | .int4 _ _ _ _ _ | .float4 _ _ _ _ _ =>
      if segmentationType = .LABELMAP then combineSegments pixelArray
      else pure pixelArray
    | _ => pure pixelArray
  -- lines 1383-1390: default plane positions from the source images
  let sourcePlanePositions := sources.map SourceImage.pos
  if pixelArray.numFrames ≠ sourcePlanePositions.length then throw .valueError
  -- lines 1429-1437
  let (sourceImageIndices, isEmpty) :=
    if omitEmpty then omitEmptyFrames pixelArray
    else (List.range pixelArray.numFrames, false)
  let omitActive := omitEmpty && !isEmpty
  -- lines 1439-1456: canonical plane order and per-dimension unique values
  let filteredPositions :=
    sourceImageIndices.map (fun i => sourcePlanePositions.getD i 0)
  let planeSortIndex := npUniqueReturnIndex filteredPositions
  let dimensionPositionValues := npUniqueValues filteredPositions
  -- lines 1485-1558
  let emitted := encodePlaneLoop sources pixelArray describedSegmentNumbers
    segmentationType maxFractionalValue sourceImageIndices planeSortIndex
    dimensionPositionValues omitActive
  return { h := pixelArray.numRows
           w := pixelArray.numCols
           frames := emitted.map EmittedFrame.plane
           pffg := emitted.map EmittedFrame.toPffg
           sourceUids := sources.map SourceImage.uid
           segmentationType := segmentationType
           maximumFractionalValue := maxFractionalValue
           numberOfSegments := numberOfSegments
           dimIndPointers := [imagePositionPatientTag] }

/-- The in-memory frame index of `_SegDBManager` (sop.py lines 136-235):
the InstanceUIDs table (kept as the list of referenced SOP Instance UIDs; the
study/series components play no role in the modelled operations) and the
FrameLUT table with one row per stored frame — segment number, one integer
per non-segment dimension index pointer, and the optional referenced source
instance / source frame columns, present only when every frame has exactly
one source reference. -/
structure SegDB where
  referencedUids : List String
  segmentNumbers : List ℤ
  dimIndPointers : List ℕ
  dimIndexValues : List (List ℤ)
  referencedInstances : Option (List String)
  referencedFrames : Option (List ℤ)

/-- `_SegDBManager.__init__` (sop.py lines 140-235).  Inserting the referenced
UIDs into InstanceUIDs (SOPInstanceUID is the PRIMARY KEY) fails on
duplicates with sqlite3.IntegrityError; providing exactly one of
`referenced_instances` / `referenced_frames` raises TypeError (line 209). -/
def mkSegDBManager (referencedUids : List String) (segmentNumbers : List ℤ)
    (dimIndPointers : List ℕ) (dimIndexValues : List (List ℤ))
    (referencedInstances : Option (List String))
    (referencedFrames : Option (List ℤ)) : Except PyError SegDB := do
  if ¬ referencedUids.Nodup then throw .integrityError
  if (referencedFrames = none) ≠ (referencedInstances = none) then
    throw .typeError
  return { referencedUids := referencedUids
           segmentNumbers := segmentNumbers
           dimIndPointers := dimIndPointers
           dimIndexValues := dimIndexValues
           referencedInstances := referencedInstances
           referencedFrames := referencedFrames }

/-- The grouping key of row `j` of FrameLUT for
`are_dimension_indices_unique`: the segment number together with the values
of the selected dimension-index columns. -/
def dimIndexKey (db : SegDB) (dimensionIndexPointers : List ℕ) (j : ℕ) :
    ℤ × List ℤ :=
  (db.segmentNumbers.getD j 0,
   dimensionIndexPointers.map (fun p =>
     (db.dimIndexValues.getD j []).getD (db.dimIndPointers.indexOf p) 0))

/-- `_SegDBManager.are_dimension_indices_unique` (sop.py lines 292-323):
`SELECT COUNT(*) FROM (SELECT 1 FROM FrameLUT GROUP BY SegmentNumber, cols)`
compared with the number of frames — the number of distinct grouping keys
equals the number of rows. -/
def areDimensionIndicesUnique (db : SegDB)
    (dimensionIndexPointers : List ℕ) : Bool :=
  ((List.range db.segmentNumbers.length).map
      (dimIndexKey db dimensionIndexPointers)).dedup.length =
    db.segmentNumbers.length

/-- `_SegDBManager.are_referenced_sop_instances_unique` (sop.py lines
325-347): group FrameLUT by (ReferencedSOPInstanceUID, SegmentNumber).  When
the optional columns are absent the underlying query would fail
(sqlite3.OperationalError); that state is unreachable behind
`_check_indexing_with_source_frames` and is rendered as `false` here. -/
def areReferencedSopInstancesUnique (db : SegDB) : Bool :=
  match db.referencedInstances with
  | none => false
  | some ris =>
    ((ris.zip db.segmentNumbers).dedup.length = db.segmentNumbers.length : Bool)

/-- `_SegDBManager.are_referenced_frames_unique` (sop.py lines 349-366). -/
def areReferencedFramesUnique (db : SegDB) : Bool :=
  match db.referencedFrames with
  | none => false
  | some rfs =>
    ((rfs.zip db.segmentNumbers).dedup.length = db.segmentNumbers.length : Bool)

/-- `_SegDBManager.get_max_frame_number` (sop.py lines 385-401):
`SELECT MAX(ReferencedFrameNumber) FROM FrameLUT`; `none` models the NULL
result on an empty table (and the absent column). -/
def getMaxFrameNumber (db : SegDB) : Option ℤ :=
  match db.referencedFrames with
  | none => none
  | some rfs => rfs.max?

/-- `_SegDBManager._generate_temp_segment_table` (sop.py lines 481-550): the
rows `(OutputSegmentNumber, SegmentNumber)` of TemporarySegmentNumbers.
Combined+relabel enumerates the requested segments from 1; combined without
relabel maps each segment to itself; stacked mode enumerates from 0 (the
output array's segment axis). -/
def tempSegmentTable (segmentNumbers : List ℤ) (combineSegments relabel : Bool) :
    List (ℤ × ℤ) :=
  if combineSegments then
    if relabel then
      segmentNumbers.enum.map (fun p => ((p.1 : ℤ) + 1, p.2))
    else
      segmentNumbers.map (fun s => (s, s))
  else
    segmentNumbers.enum.map (fun p => ((p.1 : ℤ), p.2))

/-- Both columns of TemporarySegmentNumbers carry a UNIQUE constraint;
inserting duplicates raises sqlite3.IntegrityError. -/
def tempSegmentTableOk (table : List (ℤ × ℤ)) : Bool :=
  (table.map Prod.fst).Nodup ∧ (table.map Prod.snd).Nodup

/-- The three-way inner join of the by-source-instance query (sop.py lines
625-636): for each enumerated requested UID, each FrameLUT row with a
matching ReferencedSOPInstanceUID, and each TemporarySegmentNumbers row with
a matching SegmentNumber, emit
`(OutputFrameIndex, FrameNumber - 1, OutputSegmentNumber)`, ordered by
OutputFrameIndex. -/
def joinBySourceInstance (ris : List String) (sns : List ℤ)
    (uids : List String) (table : List (ℤ × ℤ)) : List (ℕ × ℕ × ℤ) :=
  uids.enum.flatMap (fun iu =>
    (List.range sns.length).flatMap (fun j =>
      if ris.getD j "" = iu.2 then
        table.filterMap (fun row =>
          if sns.getD j 0 = row.2 then some (iu.1, j, row.1) else none)
      else []))

/-- The analogous join of the by-source-frame query (sop.py lines 726-737),
matching on ReferencedFrameNumber. -/
def joinBySourceFrame (rfs : List ℤ) (sns : List ℤ)
    (frameNumbers : List ℤ) (table : List (ℤ × ℤ)) : List (ℕ × ℕ × ℤ) :=
  frameNumbers.enum.flatMap (fun ifn =>
    (List.range sns.length).flatMap (fun j =>
      if rfs.getD j 0 = ifn.2 then
        table.filterMap (fun row =>
          if sns.getD j 0 = row.2 then some (ifn.1, j, row.1) else none)
      else []))

/-- `_SegDBManager.iterate_indices_by_source_instance` (sop.py lines
552-648): build TemporarySOPInstanceUIDs from the enumerated requested UIDs
(SourceSOPInstanceUID is UNIQUE) and TemporarySegmentNumbers from the
requested segments, then run the three-way inner join, ordered by
OutputFrameIndex. -/
def iterateIndicesBySourceInstance (db : SegDB)
    (sourceSopInstanceUids : List String) (segmentNumbers : List ℤ)
    (combineSegments relabel : Bool) : Except PyError (List (ℕ × ℕ × ℤ)) := do
  if ¬ sourceSopInstanceUids.Nodup then throw .integrityError
  let table := tempSegmentTable segmentNumbers combineSegments relabel
  if ¬ tempSegmentTableOk table then throw .integrityError
  match db.referencedInstances with
  | none => throw .operationalError
  | some ris =>
    return joinBySourceInstance ris db.segmentNumbers sourceSopInstanceUids
      table

/-- `_SegDBManager.iterate_indices_by_source_frame` (sop.py lines 650-749).
The join matches `L.ReferencedFrameNumber = F.SourceFrameNumber` only — the
`source_sop_instance_uid` parameter is not used by the query. -/
def iterateIndicesBySourceFrame (db : SegDB) (sourceFrameNumbers : List ℤ)
    (segmentNumbers : List ℤ) (combineSegments relabel : Bool) :
    Except PyError (List (ℕ × ℕ × ℤ)) := do
  if ¬ sourceFrameNumbers.Nodup then throw .integrityError
  let table := tempSegmentTable segmentNumbers combineSegments relabel
  if ¬ tempSegmentTableOk table then throw .integrityError
  match db.referencedFrames with
  | none => throw .operationalError
  | some rfs =>
    return joinBySourceFrame rfs db.segmentNumbers sourceFrameNumbers table

/-- The queryable Segmentation object: the stored pixel planes (one function
per frame; when the object holds a single frame, pydicom exposes a 2D array
and `_get_pixels_by_seg_frame` special-cases it — value-wise that is exactly
the singleton list here), the image-level attributes, the frame index, and
the two decode-time summaries computed by `_build_luts`. -/
structure SegImage where
  h : ℕ
  w : ℕ
  frames : List (ℕ → ℕ → ℕ)
  numberOfSegments : ℕ
  segmentationType : SegmentationTypeValues
  maximumFractionalValue : ℤ
  db : SegDB
  locationsPreserved : Option SpatialLocationsPreservedValues
  singleSourceFramePerSegFrame : Bool

/-- Accumulator state of the per-frame loop of `_build_luts` (sop.py lines
2507-2606). -/
structure LutsAcc where
  segmentNumbers : List ℤ
  dimRows : List (List ℤ)
  locations : List (Option SpatialLocationsPreservedValues)
  single : Bool
  refInstances : List String
  refFrames : List ℤ

/-- One iteration of the `_build_luts` frame loop (sop.py lines 2533-2606):
read the segment number and dimension index values (their count must be one
more than the number of non-segment pointers, else RuntimeError), flatten the
derivation references (an absent Referenced Frame Number contributes the
sentinel `-1`, a multi-valued one contributes all its values), record the
spatial-locations-preserved votes, and classify the frame: if it does not
have exactly one distinct source instance and exactly one distinct source
frame, the whole index loses its source columns; otherwise the single
referenced instance must appear among the referenced UIDs (else
AttributeError — an object-integrity failure). -/
def buildLutsStep (referencedSops : List String) (numPointers : ℕ)
    (acc : LutsAcc) (item : PffgItem) : Except PyError LutsAcc := do
  let segNum := item.referencedSegmentNumber
  if item.dimensionIndexValues.length ≠ numPointers + 1 then
    throw .runtimeError
  let dimRow := (List.range numPointers).map
    (fun k => item.dimensionIndexValues.getD (k + 1) 0)
  let refs := item.derivationImageSequence.flatten
  let frameSourceInstances := refs.map SourceImageRef.referencedSOPInstanceUID
  let frameSourceFrames := refs.flatMap (fun ref =>
    if ref.referencedFrameNumber.isEmpty then [(-1 : ℤ)]
    else ref.referencedFrameNumber)
  let locs := refs.map SourceImageRef.spatialLocationsPreserved
  if frameSourceInstances.dedup.length ≠ 1 ∨
      frameSourceFrames.dedup.length ≠ 1 then
    return { segmentNumbers := acc.segmentNumbers ++ [segNum]
             dimRows := acc.dimRows ++ [dimRow]
             locations := acc.locations ++ locs
             single := false
             refInstances := acc.refInstances
             refFrames := acc.refFrames }
  else
    let refUid := frameSourceInstances.headD ""
    if refUid ∉ referencedSops then throw .attributeError
    return { segmentNumbers := acc.segmentNumbers ++ [segNum]
             dimRows := acc.dimRows ++ [dimRow]
             locations := acc.locations ++ locs
             single := acc.single
             refInstances := acc.refInstances ++ [refUid]
             refFrames := acc.refFrames ++ [frameSourceFrames.headD 0] }

/-- `Segmentation._build_luts` (sop.py lines 2490-2635): run the frame loop,
summarise the spatial-locations-preserved classification (NO if any explicit
NO; YES if every vote is an explicit YES — vacuously YES with no votes;
unknown otherwise), drop both source columns entirely unless every frame had
a single source reference, and build the frame index. -/
def buildLuts (encoded : EncodedSeg) : Except PyError SegImage := do
  let referencedSops := encoded.sourceUids
  let start : LutsAcc := ⟨[], [], [], true, [], []⟩
  let acc ← encoded.pffg.foldlM
    (buildLutsStep referencedSops encoded.dimIndPointers.length) start
  let locationsPreserved :=
    if acc.locations.any (fun v => v = some SpatialLocationsPreservedValues.NO)
      then some SpatialLocationsPreservedValues.NO
    else if acc.locations.all
        (fun v => v = some SpatialLocationsPreservedValues.YES)
      then some SpatialLocationsPreservedValues.YES
    else none
  let refInstances := if acc.single then some acc.refInstances else none
  let refFrames := if acc.single then some acc.refFrames else none
  let db ← mkSegDBManager referencedSops acc.segmentNumbers
    encoded.dimIndPointers acc.dimRows refInstances refFrames
  return { h := encoded.h
           w := encoded.w
           frames := encoded.frames
           numberOfSegments := encoded.numberOfSegments
           segmentationType := encoded.segmentationType
           maximumFractionalValue := encoded.maximumFractionalValue
           db := db
           locationsPreserved := locationsPreserved
           singleSourceFramePerSegFrame := acc.single }

/-- `Segmentation._check_indexing_with_source_frames` (sop.py lines
3225-3274): reject indexing by source frames/instances when spatial
locations are not known to be preserved (overridable) or when some frame has
multiple (or no) source references (not overridable). -/
def checkIndexingWithSourceFrames (seg : SegImage)
    (ignoreSpatialLocations : Bool) : Except PyError Unit := do
  match seg.locationsPreserved with
  | none => if ¬ ignoreSpatialLocations then throw .runtimeError
  | some .NO => if ¬ ignoreSpatialLocations then throw .runtimeError
  | some .YES => pure ()
  if ¬ seg.singleSourceFramePerSegFrame then throw .runtimeError

/-- The reconstructed output of `_get_pixels_by_seg_frame`: a stacked 4D
array of raw unsigned-integer values, a stacked 4D array of rescaled float
values, or a combined 3D label map. -/
inductive SegPixels where
  | intStacked (a : ℕ → ℕ → ℕ → ℕ → ℕ)
  | floatStacked (a : ℕ → ℕ → ℕ → ℕ → ℚ)
  | labelMap (a : ℕ → ℕ → ℕ → ℕ)

/-- The stacked copy loop of `_get_pixels_by_seg_frame` (sop.py lines
3113-3129): starting from a zero array, each instruction assigns the stored
plane `fi` to the output slice `[fo, :, :, seg_n]` (later instructions
overwrite earlier ones). -/
def stackedCopy (frames : List (ℕ → ℕ → ℕ)) (instructions : List (ℕ × ℕ × ℤ)) :
    ℕ → ℕ → ℕ → ℕ → ℕ :=
  instructions.foldl
    (fun out ins => fun a b c d =>
      if a = ins.1 ∧ (d : ℤ) = ins.2.2 then
        (frames.getD ins.2.1 (fun _ _ => 0)) b c
      else out a b c d)
    (fun _ _ _ _ => 0)

/-- The combination loop of `_get_pixels_by_seg_frame` (sop.py lines
3094-3111): for each instruction, unless overlap checks are skipped, fail
with RuntimeError if the stored plane is positive somewhere the output frame
is already positive; then assign the pixel-wise maximum of
`plane * output_segment_number` and the current output (the cast
`intermediate_dtype.type(seg_n)` is value-preserving for the dtype chosen
from the maximum output value, hence `Int.toNat` here). -/
def combineLoop (frames : List (ℕ → ℕ → ℕ)) (h w : ℕ) (skipOverlapChecks : Bool) :
    (ℕ → ℕ → ℕ → ℕ) → List (ℕ × ℕ × ℤ) → Except PyError (ℕ → ℕ → ℕ → ℕ)
  | out, [] => pure out
  | out, ins :: rest => do
    let plane := frames.getD ins.2.1 (fun _ _ => 0)
    if ¬ skipOverlapChecks ∧
        (∃ b < h, ∃ c < w, plane b c > 0 ∧ out ins.1 b c > 0) then
      throw .runtimeError
    else
      combineLoop frames h w skipOverlapChecks
        (fun a b c =>
          if a = ins.1 then max (plane b c * ins.2.2.toNat) (out a b c)
          else out a b c)
        rest

/-- Whether the stored array contains only the values 0 and
MaximumFractionalValue (`np.isin(np.unique(self.pixel_array), [0, max]).all()`,
sop.py lines 3068-3072). -/
def storedIsBinary (seg : SegImage) : Prop :=
  ∀ fi < seg.frames.length, ∀ b < seg.h, ∀ c < seg.w,
    ((seg.frames.getD fi (fun _ _ => 0)) b c = 0 ∨
     ((seg.frames.getD fi (fun _ _ => 0)) b c : ℤ) = seg.maximumFractionalValue)

instance (seg : SegImage) : Decidable (storedIsBinary seg) := by
  unfold storedIsBinary; infer_instance

/-- `Segmentation._get_pixels_by_seg_frame` (sop.py lines 2934-3142).  The
dtype bookkeeping (lines 3013-3048) always selects a type wide enough for
the maximum output value on the automatic path modelled here, so values are
carried exactly.  The `segment_numbers.min()/.max()` validity check fails on
an empty array with ValueError (numpy reduction of a zero-size array). -/
def getPixelsBySegFrame (seg : SegImage) (numOutputFrames : ℕ)
    (instructions : List (ℕ × ℕ × ℤ)) (segmentNumbers : List ℤ)
    (combineSegments _relabel rescaleFractional skipOverlapChecks : Bool) :
    Except PyError SegPixels := do
  -- lines 3005-3011
  if segmentNumbers.isEmpty then throw .valueError
  if segmentNumbers.any (fun s => s < 1) ∨
      segmentNumbers.any (fun s => (s : ℤ) > (seg.numberOfSegments : ℤ)) then
    throw .valueError
  let willBeRescaled := rescaleFractional ∧
    seg.segmentationType = .FRACTIONAL ∧ ¬ combineSegments
  if combineSegments then
    -- lines 3056-3111
    let frames ← do
      if seg.segmentationType = .FRACTIONAL then
        if ¬ rescaleFractional then throw .valueError
        if ¬ storedIsBinary seg then throw .valueError
        pure (seg.frames.map (fun p => fun b c =>
          p b c / seg.maximumFractionalValue.toNat))
      else
        pure seg.frames
    let out ← combineLoop frames seg.h seg.w skipOverlapChecks
      (fun _ _ _ => 0) instructions
    return SegPixels.labelMap out
  else
    -- lines 3113-3141
    let out := stackedCopy seg.frames instructions
    if willBeRescaled then
      if ∃ a < numOutputFrames, ∃ b < seg.h, ∃ c < seg.w,
          ∃ d < segmentNumbers.length,
          (out a b c d : ℤ) > seg.maximumFractionalValue then
        throw .runtimeError
      -- `out_array.astype(dtype) / max_val`
      return SegPixels.floatStacked (fun a b c d =>
        Rat.divInt (out a b c d) seg.maximumFractionalValue)
    else
      return SegPixels.intStacked out

/-- `Segmentation.get_pixels_by_source_instance` (sop.py lines 3276-3487):
gate on source-frame indexability, default the segment list to all segments,
reject empty requests, require (ReferencedSOPInstanceUID, SegmentNumber) to
be a key, reject requested UIDs outside the referenced-instance set unless
`assert_missing_frames_are_empty` (KeyError — a Python LookupError), then
join and reconstruct. -/
def getPixelsBySourceInstance (seg : SegImage)
    (sourceSopInstanceUids : List String)
    (segmentNumbers : Option (List ℤ) := none)
    (combineSegments : Bool := false) (relabel : Bool := false)
    (ignoreSpatialLocations : Bool := false)
    (assertMissingFramesAreEmpty : Bool := false)
    (rescaleFractional : Bool := true) (skipOverlapChecks : Bool := false) :
    Except PyError SegPixels := do
  checkIndexingWithSourceFrames seg ignoreSpatialLocations
  let segs := match segmentNumbers with
    | none => oneToN seg.numberOfSegments
    | some l => l
  if segs.isEmpty then throw .valueError
  if sourceSopInstanceUids.isEmpty then throw .valueError
  if ¬ areReferencedSopInstancesUnique seg.db then throw .runtimeError
  if ¬ assertMissingFramesAreEmpty ∧
      sourceSopInstanceUids.any (fun u => u ∉ seg.db.referencedUids) then
    throw .keyError
  let instructions ← iterateIndicesBySourceInstance seg.db
    sourceSopInstanceUids segs combineSegments relabel
  getPixelsBySegFrame seg sourceSopInstanceUids.length instructions segs
    combineSegments relabel rescaleFractional skipOverlapChecks

/-- `Segmentation.get_pixels_by_source_frame` (sop.py lines 3489-3741):
like the by-instance query, but over frame numbers of a single multi-frame
source; frame numbers must be positive, and, unless
`assert_missing_frames_are_empty`, no requested frame number may exceed the
maximum referenced frame number (comparing against a NULL maximum — empty
FrameLUT — raises TypeError in Python). -/
def getPixelsBySourceFrame (seg : SegImage) (_sourceSopInstanceUid : String)
    (sourceFrameNumbers : List ℤ) (segmentNumbers : Option (List ℤ) := none)
    (combineSegments : Bool := false) (relabel : Bool := false)
    (ignoreSpatialLocations : Bool := false)
    (assertMissingFramesAreEmpty : Bool := false)
    (rescaleFractional : Bool := true) (skipOverlapChecks : Bool := false) :
    Except PyError SegPixels := do
  checkIndexingWithSourceFrames seg ignoreSpatialLocations
  let segs := match segmentNumbers with
    | none => oneToN seg.numberOfSegments
    | some l => l
  if segs.isEmpty then throw .valueError
  if sourceFrameNumbers.isEmpty then throw .valueError
  if ¬ sourceFrameNumbers.all (fun fnum => fnum > 0) then throw .valueError
  if ¬ areReferencedFramesUnique seg.db then throw .runtimeError
  if ¬ assertMissingFramesAreEmpty then
    match getMaxFrameNumber seg.db with
    | none => throw .typeError
    | some m =>
      if sourceFrameNumbers.any (fun fnum => fnum > m) then throw .valueError
  let instructions ← iterateIndicesBySourceFrame seg.db sourceFrameNumbers
    segs combineSegments relabel
  getPixelsBySegFrame seg sourceFrameNumbers.length instructions segs
    combineSegments relabel rescaleFractional skipOverlapChecks

/-- `Segmentation.are_dimension_indices_unique` (sop.py lines 3178-3223):
an empty pointer list is rejected with ValueError, a pointer that is not a
dimension index of the image with KeyError; otherwise defer to the frame
index. -/
def segAreDimensionIndicesUnique (seg : SegImage)
    (dimensionIndexPointers : List ℕ) : Except PyError Bool := do
  if dimensionIndexPointers.isEmpty then throw .valueError
  if dimensionIndexPointers.any (fun p => p ∉ seg.db.dimIndPointers) then
    throw .keyError
  return areDimensionIndicesUnique seg.db dimensionIndexPointers

/-- Encode a segmentation and build its frame index: the two halves of
`Segmentation.__init__` (lines 860-1585, the final statement of which is
`self._build_luts()`). -/
def encodeAndBuild (sources : List SourceImage) (pixelArray : PixelArray)
    (segmentationType : SegmentationTypeValues)
    (describedSegmentNumbers : List ℤ) (maxFractionalValue : ℤ)
    (omitEmpty : Bool) : Except PyError SegImage :=
  encodeSegmentation sources pixelArray segmentationType
    describedSegmentNumbers maxFractionalValue omitEmpty >>= buildLuts

/-- Read one pixel out of a stacked integer query result. -/
def intPixel (result : Except PyError SegPixels) (i b c d : ℕ) : Option ℕ :=
  match result with
  | .ok (.intStacked a) => some (a i b c d)
  | _ => none

/-- Read one pixel out of a stacked rescaled-float query result. -/
def ratPixel (result : Except PyError SegPixels) (i b c d : ℕ) : Option ℚ :=
  match result with
  | .ok (.floatStacked a) => some (a i b c d)
  | _ => none

/-- Read one pixel out of a combined label-map query result. -/
def labelPixel (result : Except PyError SegPixels) (i b c : ℕ) : Option ℕ :=
  match result with
  | .ok (.labelMap a) => some (a i b c)
  | _ => none

theorem dedup_length_eq_iff {α : Type _} [DecidableEq α] (l : List α) :
    l.dedup.length = l.length ↔ l.Nodup := by
  constructor
  · intro h
    have hs : l.dedup = l := l.dedup_sublist.eq_of_length h
    rw [← hs]
    exact l.nodup_dedup
  · intro h
    rw [List.dedup_eq_self.mpr h]

theorem diffsOne_iff (x : ℤ) (l : List ℤ) :
    ((x :: l).zip l).all (fun p => p.2 - p.1 = 1) = true ↔
      x :: l = (List.range (l.length + 1)).map (fun k : ℕ => x + (k : ℤ)) := by
  induction l generalizing x with
  | nil => simp [List.range_succ]
  | cons y ys ih =>
    simp only [List.zip_cons_cons, List.all_cons, Bool.and_eq_true,
      decide_eq_true_eq]
    rw [ih y]
    have hlen : (y :: ys).length = ys.length + 1 := rfl
    constructor
    · rintro ⟨h1, h2⟩
      have hy : y = x + 1 := by omega
      rw [List.range_succ_eq_map, List.map_cons, List.map_map]
      refine List.cons_eq_cons.mpr ⟨by simp, ?_⟩
      rw [hlen, h2]
      apply List.map_congr_left
      intro k _
      simp only [Function.comp_apply, hy]
      push_cast
      ring
    · intro h
      rw [List.range_succ_eq_map, List.map_cons, List.map_map, hlen] at h
      obtain ⟨hx0, hrest⟩ := List.cons_eq_cons.mp h
      have hy : y = x + 1 := by
        rw [List.range_succ_eq_map, List.map_cons] at hrest
        have := (List.cons_eq_cons.mp hrest).1
        simpa using this
      refine ⟨by omega, ?_⟩
      rw [hrest]
      apply List.map_congr_left
      intro k _
      simp only [Function.comp_apply, hy]
      push_cast
      ring

theorem oneToN_eq_map_add (n : ℕ) :
    oneToN n = (List.range n).map (fun k : ℕ => 1 + (k : ℤ)) := by
  unfold oneToN
  apply List.map_congr_left
  intro k _
  ring

theorem oneToN_head (n : ℕ) : (oneToN (n + 1)).headD 0 = 1 := by
  simp [oneToN, List.range_succ_eq_map]

theorem checkSegmentNumbers_ok_iff (l : List ℤ) :
    checkSegmentNumbers l = .ok () ↔ (l ≠ [] ∧ l = oneToN l.length) := by
  cases l with
  | nil => simp [checkSegmentNumbers]
  | cons x xs =>
    rw [checkSegmentNumbers]
    simp only [List.tail_cons]
    by_cases hall : ((x :: xs).zip xs).all (fun p => p.2 - p.1 = 1) = true
    · rw [if_neg (by simpa using hall)]
      rw [diffsOne_iff] at hall
      by_cases hx : x = 1
      · subst hx
        rw [if_neg (by simp)]
        simp only [true_iff, List.cons_ne_nil, ne_eq, not_false_eq_true,
          true_and]
        constructor
        · intro _
          rw [oneToN_eq_map_add]
          simpa using hall
        · intro _
          rfl
      · rw [if_pos (by simpa using hx)]
        simp only [false_iff, not_and, reduceCtorEq]
        intro _ habs
        rw [oneToN_eq_map_add] at habs
        have h1 : x = 1 := by
          have := congrArg (fun t => t.headD 0) habs
          simpa [List.range_succ_eq_map] using this
        exact hx h1
    · rw [if_pos (by simpa using hall)]
      simp only [false_iff, not_and, reduceCtorEq]
      intro _ habs
      apply hall
      rw [diffsOne_iff]
      have h1 : x = 1 := by
        rw [oneToN_eq_map_add] at habs
        have := congrArg (fun t => t.headD 0) habs
        simpa [List.range_succ_eq_map] using this
      rw [oneToN_eq_map_add] at habs
      subst h1
      simpa using habs

theorem fromDatasetCheckSegmentNumbers_ok_iff (l : List ℤ) (i : ℤ) :
    fromDatasetCheckSegmentNumbers l i = .ok () ↔
      l = (List.range l.length).map (fun k : ℕ => i + (k : ℤ)) := by
  induction l generalizing i with
  | nil =>
    constructor
    · intro _
      rfl
    · intro _
      rfl
  | cons x xs ih =>
    rw [fromDatasetCheckSegmentNumbers]
    by_cases hx : x = i
    · rw [if_neg (by simpa using hx)]
      rw [ih (i + 1)]
      subst hx
      simp only [List.length_cons]
      rw [List.range_succ_eq_map, List.map_cons, List.map_map]
      constructor
      · intro h
        refine List.cons_eq_cons.mpr ⟨by simp, ?_⟩
        conv_lhs => rw [h]
        apply List.map_congr_left
        intro k _
        simp only [Function.comp_apply]
        push_cast
        ring
      · intro h
        obtain ⟨_, hrest⟩ := List.cons_eq_cons.mp h
        conv_lhs => rw [hrest]
        apply List.map_congr_left
        intro k _
        simp only [Function.comp_apply]
        push_cast
        ring
    · rw [if_pos (by simpa using hx)]
      simp only [false_iff, reduceCtorEq]
      intro habs
      apply hx
      have := congrArg (fun t => t.headD 0) habs
      simp only [List.length_cons, List.range_succ_eq_map, List.map_cons] at this
      simpa using this

theorem fromDatasetCheckSegmentNumbers_ok_or_error (l : List ℤ) (i : ℤ) :
    fromDatasetCheckSegmentNumbers l i = .ok () ∨
      fromDatasetCheckSegmentNumbers l i = .error .attributeError := by
  induction l generalizing i with
  | nil => left; rfl
  | cons x xs ih =>
    rw [fromDatasetCheckSegmentNumbers]
    by_cases hx : x = i
    · rw [if_neg (by simpa using hx)]
      exact ih (i + 1)
    · rw [if_pos (by simpa using hx)]
      right
      rfl

/-- C4: the encode constructor rejects (ValueError, the library's
configuration-error kind, raised by `_check_segment_numbers`) every
segment-description list whose segment numbers are not exactly 1..N
contiguous and increasing, and `from_dataset` rejects (AttributeError) every
dataset whose SegmentSequence numbers are not exactly 1..N in order; both
accept the exact numbering (the encode check also needs the list to be
nonempty — on an empty description list it fails with IndexError instead). -/
theorem C4_segment_numbering_invariant (l : List ℤ) :
    (l ≠ oneToN l.length →
      checkSegmentNumbers l = .error .valueError ∧
      fromDatasetCheckSegmentNumbers l 1 = .error .attributeError) ∧
    (l = oneToN l.length →
      (l ≠ [] → checkSegmentNumbers l = .ok ()) ∧
      fromDatasetCheckSegmentNumbers l 1 = .ok ()) := by
  constructor
  · intro hne
    constructor
    · cases l with
      | nil => exact absurd rfl hne
      | cons x xs =>
        rw [checkSegmentNumbers]
        simp only [List.tail_cons]
        by_cases hall : ((x :: xs).zip xs).all (fun p => p.2 - p.1 = 1) = true
        · rw [if_neg (by simpa using hall)]
          by_cases hx : x = 1
          · exfalso
            apply hne
            have hok : checkSegmentNumbers (x :: xs) = .ok () := by
              rw [checkSegmentNumbers]
              simp only [List.tail_cons]
              rw [if_neg (by simpa using hall), if_neg (by simpa using hx)]
              rfl
            exact ((checkSegmentNumbers_ok_iff _).mp hok).2
          · rw [if_pos (by simpa using hx)]
            rfl
        · rw [if_pos (by simpa using hall)]
          rfl
    · rcases fromDatasetCheckSegmentNumbers_ok_or_error l 1 with hok | herr
      · exfalso
        apply hne
        have := (fromDatasetCheckSegmentNumbers_ok_iff l 1).mp hok
        rw [oneToN_eq_map_add]
        exact this
      · exact herr
  · intro heq
    refine ⟨fun hne => (checkSegmentNumbers_ok_iff l).mpr ⟨hne, heq⟩, ?_⟩
    rw [fromDatasetCheckSegmentNumbers_ok_iff]
    rw [← oneToN_eq_map_add]
    exact heq

/-- Witness for C4: concrete applications of the invariant — the list `[2]`
(wrong start) is rejected by both checks, and the list `[1, 2]` is accepted
by both. -/
theorem C4_segment_numbering_invariant_witness :
    (checkSegmentNumbers [2] = .error .valueError ∧
      fromDatasetCheckSegmentNumbers [2] 1 = .error .attributeError) ∧
    (checkSegmentNumbers [1, 2] = .ok () ∧
      fromDatasetCheckSegmentNumbers [1, 2] 1 = .ok ()) := by
  refine ⟨(C4_segment_numbering_invariant [2]).1 (by decide), ?_, ?_⟩
  · exact ((C4_segment_numbering_invariant [1, 2]).2 (by decide)).1 (by decide)
  · exact ((C4_segment_numbering_invariant [1, 2]).2 (by decide)).2

theorem npUint8OfRat_zero : npUint8OfRat 0 = 0 := by decide

theorem npUint8OfRat_one : npUint8OfRat 1 = 1 := by decide

theorem npUint8OfRat_le_one_of_binary {v : ℚ} (h : v = 0 ∨ v = 1) :
    npUint8OfRat v ≤ 1 := by
  rcases h with h | h <;> subst h <;> decide

/-- C2 counterexample: a 3D float array (two columns, both 1.0) represents a
single segment, yet under the BINARY segmentation type the computed overlap
classification is YES, not NO as the claim requires for every single-segment
input. -/
theorem C2_overlap_counterexample :
    checkAndCastPixelArray (.float3 1 1 2 (fun _ _ _ => 1)) 1 .BINARY =
        .ok .YES ∧
      SegmentsOverlapValues.YES ≠ SegmentsOverlapValues.NO := by
  constructor
  · decide
  · decide

/-- C2 (amended): the overlap classification of
`_check_and_cast_pixel_array` satisfies: (a) a 4D binary integer stack is YES
exactly when some pixel's sum across the segment axis exceeds 1 (in
particular NO for a single segment or an all-zero array); (b) a 3D integer
label map is always NO; (c) a 4D binary-valued float stack under BINARY
follows the same sum rule; (d) a 4D multi-segment float array under
FRACTIONAL is UNDEFINED regardless of its values — including all-zero and
binary-valued arrays; (e) for a 3D float array under BINARY the sum rule is
applied across the last (column) axis, so a single-segment 3D float input
can be classified YES. -/
theorem C2_overlap_classification :
    (∀ f r c s : ℕ, ∀ a : ℕ → ℕ → ℕ → ℕ → ℕ,
      (∀ i < f, ∀ j < r, ∀ k < c, ∀ l < s, a i j k l ≤ 1) →
      checkAndCastPixelArray (.int4 f r c s a) s .BINARY =
        .ok (if ∃ i < f, ∃ j < r, ∃ k < c,
              1 < ∑ l ∈ Finset.range s, a i j k l then .YES else .NO)) ∧
    (∀ f r c n : ℕ, ∀ a : ℕ → ℕ → ℕ → ℕ, ∀ ty : SegmentationTypeValues,
      (∀ i < f, ∀ j < r, ∀ k < c, a i j k ≤ n) →
      checkAndCastPixelArray (.int3 f r c a) n ty = .ok .NO) ∧
    (∀ f r c s : ℕ, ∀ a : ℕ → ℕ → ℕ → ℕ → ℚ,
      (∀ i < f, ∀ j < r, ∀ k < c, ∀ l < s, a i j k l = 0 ∨ a i j k l = 1) →
      checkAndCastPixelArray (.float4 f r c s a) s .BINARY =
        .ok (if ∃ i < f, ∃ j < r, ∃ k < c,
              1 < ∑ l ∈ Finset.range s, npUint8OfRat (a i j k l)
             then .YES else .NO)) ∧
    (∀ f r c s : ℕ, ∀ a : ℕ → ℕ → ℕ → ℕ → ℚ, 2 ≤ s →
      (∀ i < f, ∀ j < r, ∀ k < c, ∀ l < s, 0 ≤ a i j k l ∧ a i j k l ≤ 1) →
      checkAndCastPixelArray (.float4 f r c s a) s .FRACTIONAL =
        .ok .UNDEFINED) ∧
    (∀ f r c : ℕ, ∀ a : ℕ → ℕ → ℕ → ℚ,
      (∀ i < f, ∀ j < r, ∀ k < c, a i j k = 0 ∨ a i j k = 1) →
      checkAndCastPixelArray (.float3 f r c a) 1 .BINARY =
        .ok (if ∀ i < f, ∀ j < r, ∀ k < c, a i j k = 0 then .NO
             else if c = 1 then .NO
             else if ∃ i < f, ∃ j < r,
                1 < ∑ k ∈ Finset.range c, npUint8OfRat (a i j k) then .YES
             else .NO)) := by
  refine ⟨?_, ?_, ?_, ?_, ?_⟩
  · intro f r c s a hbin
    rw [checkAndCastPixelArray]
    rw [if_neg (by simp)]
    rw [if_neg (show ¬ ∃ i < f, ∃ j < r, ∃ k < c, ∃ l < s, a i j k l > 1 by
      push_neg
      intro i hi j hj k hk l hl
      exact hbin i hi j hj k hk l hl)]
    by_cases hz : ∀ i < f, ∀ j < r, ∀ k < c, ∀ l < s, a i j k l = 0
    · rw [if_pos hz]
      have hno : ¬ ∃ i < f, ∃ j < r, ∃ k < c,
          1 < ∑ l ∈ Finset.range s, a i j k l := by
        push_neg
        intro i hi j hj k hk
        have hzero : ∑ l ∈ Finset.range s, a i j k l = 0 :=
          Finset.sum_eq_zero (fun l hl =>
            hz i hi j hj k hk l (Finset.mem_range.mp hl))
        omega
      rw [if_neg hno]
      rfl
    · rw [if_neg hz]
      by_cases hs1 : s = 1
      · rw [if_pos hs1]
        have hno : ¬ ∃ i < f, ∃ j < r, ∃ k < c,
            1 < ∑ l ∈ Finset.range s, a i j k l := by
          push_neg
          intro i hi j hj k hk
          subst hs1
          simpa using hbin i hi j hj k hk 0 (by omega)
        rw [if_neg hno]
        rfl
      · rw [if_neg hs1]
        by_cases hy : ∃ i < f, ∃ j < r, ∃ k < c,
            1 < ∑ l ∈ Finset.range s, a i j k l
        · rw [if_pos hy, if_pos hy]
          rfl
        · rw [if_neg hy, if_neg hy]
          rfl
  · intro f r c n a ty hle
    rw [checkAndCastPixelArray]
    dsimp only
    rw [if_neg (show ¬ ∃ i < f, ∃ j < r, ∃ k < c, a i j k > n by
      push_neg
      intro i hi j hj k hk
      exact hle i hi j hj k hk)]
    simp only [pure_bind]
    rw [if_neg (show ¬ (ty = .LABELMAP ∧ SegmentsOverlapValues.NO = .YES) by
      simp)]
    rfl
    all_goals exact fun _ _ _ _ _ h => PixelArray.noConfusion h
  · intro f r c s a hbin
    rw [checkAndCastPixelArray]
    rw [if_neg (by simp)]
    rw [if_neg (show ¬ ∃ i < f, ∃ j < r, ∃ k < c, ∃ l < s,
        (a i j k l < 0 ∨ a i j k l > 1) by
      push_neg
      intro i hi j hj k hk l hl
      rcases hbin i hi j hj k hk l hl with h | h <;> rw [h] <;>
        exact ⟨by norm_num, by norm_num⟩)]
    rw [if_pos (show SegmentationTypeValues.BINARY = .BINARY ∨
        SegmentationTypeValues.BINARY = .LABELMAP from Or.inl rfl)]
    rw [if_neg (show ¬ ∃ i < f, ∃ j < r, ∃ k < c, ∃ l < s,
        (0 < a i j k l ∧ a i j k l < 1) by
      push_neg
      intro i hi j hj k hk l hl h0
      rcases hbin i hi j hj k hk l hl with h | h
      · exact absurd h0 (by rw [h]; norm_num)
      · rw [h])]
    by_cases hz : ∀ i < f, ∀ j < r, ∀ k < c, ∀ l < s, a i j k l = 0
    · rw [if_pos hz]
      have hno : ¬ ∃ i < f, ∃ j < r, ∃ k < c,
          1 < ∑ l ∈ Finset.range s, npUint8OfRat (a i j k l) := by
        push_neg
        intro i hi j hj k hk
        have hzero : ∑ l ∈ Finset.range s, npUint8OfRat (a i j k l) = 0 :=
          Finset.sum_eq_zero (fun l hl => by
            rw [hz i hi j hj k hk l (Finset.mem_range.mp hl)]
            exact npUint8OfRat_zero)
        omega
      rw [if_neg hno]
      rfl
    · rw [if_neg hz]
      by_cases hs1 : s = 1
      · rw [if_pos hs1]
        have hno : ¬ ∃ i < f, ∃ j < r, ∃ k < c,
            1 < ∑ l ∈ Finset.range s, npUint8OfRat (a i j k l) := by
          push_neg
          intro i hi j hj k hk
          subst hs1
          simpa using npUint8OfRat_le_one_of_binary
            (hbin i hi j hj k hk 0 (by omega))
        rw [if_neg hno]
        rfl
      · rw [if_neg hs1]
        by_cases hy : ∃ i < f, ∃ j < r, ∃ k < c,
            1 < ∑ l ∈ Finset.range s, npUint8OfRat (a i j k l)
        · rw [if_pos hy, if_pos hy]
          rfl
        · rw [if_neg hy, if_neg hy]
          rfl
  · intro f r c s a hs2 hrange
    rw [checkAndCastPixelArray]
    rw [if_neg (by simp)]
    rw [if_neg (show ¬ ∃ i < f, ∃ j < r, ∃ k < c, ∃ l < s,
        (a i j k l < 0 ∨ a i j k l > 1) by
      push_neg
      intro i hi j hj k hk l hl
      obtain ⟨h0, h1⟩ := hrange i hi j hj k hk l hl
      exact ⟨by linarith, by linarith⟩)]
    rw [if_neg (show ¬ (SegmentationTypeValues.FRACTIONAL = .BINARY ∨
        SegmentationTypeValues.FRACTIONAL = .LABELMAP) by simp)]
    rw [if_neg (by omega)]
    rfl
  · intro f r c a hbin
    rw [checkAndCastPixelArray]
    dsimp only
    rw [if_neg (show ¬ ∃ i < f, ∃ j < r, ∃ k < c,
        (a i j k < 0 ∨ a i j k > 1) by
      push_neg
      intro i hi j hj k hk
      rcases hbin i hi j hj k hk with h | h <;> rw [h] <;>
        exact ⟨by norm_num, by norm_num⟩)]
    rw [if_pos (show SegmentationTypeValues.BINARY = .BINARY ∨
        SegmentationTypeValues.BINARY = .LABELMAP from Or.inl rfl)]
    rw [if_neg (show ¬ ∃ i < f, ∃ j < r, ∃ k < c,
        (0 < a i j k ∧ a i j k < 1) by
      push_neg
      intro i hi j hj k hk h0
      rcases hbin i hi j hj k hk with h | h
      · exact absurd h0 (by rw [h]; norm_num)
      · rw [h])]
    by_cases hz : ∀ i < f, ∀ j < r, ∀ k < c, a i j k = 0
    · rw [if_pos hz, if_pos hz]
      rfl
    · rw [if_neg hz, if_neg hz]
      by_cases hc1 : c = 1
      · rw [if_pos hc1, if_pos hc1]
        rfl
      · rw [if_neg hc1, if_neg hc1]
        by_cases hy : ∃ i < f, ∃ j < r,
            1 < ∑ k ∈ Finset.range c, npUint8OfRat (a i j k)
        · rw [if_pos hy, if_pos hy]
          rfl
        · rw [if_neg hy, if_neg hy]
          rfl
    all_goals exact fun _ _ _ _ _ h => PixelArray.noConfusion h

/-- Witness for C2: the 4×4 two-segment masks of the spec — overlapping at
pixel (1,1) classifies YES, and an all-zero two-segment FRACTIONAL float
stack classifies UNDEFINED. -/
theorem C2_overlap_classification_witness :
    checkAndCastPixelArray
        (.int4 1 4 4 2 (fun _ j k _ => if j = 1 ∧ k = 1 then 1 else 0)) 2
        .BINARY = .ok .YES ∧
      checkAndCastPixelArray (.float4 1 1 1 2 (fun _ _ _ _ => 0)) 2
        .FRACTIONAL = .ok .UNDEFINED := by
  constructor
  · have h := C2_overlap_classification.1 1 4 4 2
      (fun _ j k _ => if j = 1 ∧ k = 1 then 1 else 0) (by decide)
    rw [if_pos (by decide)] at h
    exact h
  · exact C2_overlap_classification.2.2.2.1 1 1 1 2 (fun _ _ _ _ => 0)
      (by omega) (by intro i _ j _ k _ l _; norm_num)

/-- The error component of a fallible result, when it is an error. -/
def errOf {α : Type _} (x : Except PyError α) : Option PyError :=
  match x with
  | .error e => some e
  | .ok _ => none

/-- C9: the rejection half of the claim holds — a 4D input whose overlap
classification is YES is rejected with ValueError under the LABELMAP
segmentation type — but the combination half does not: for an accepted 4D
binary non-overlapping input the encode constructor crashes with NameError
inside `_combine_segments` (line 1967 reads the undefined names
`segments_overlap` / `SegmentsOverlapValue`), so no label-map array is ever
built and no frame is emitted. -/
theorem C9_labelmap_combine_crashes :
    checkAndCastPixelArray
        (.int4 1 4 4 2 (fun _ j k _ => if j = 1 ∧ k = 1 then 1 else 0)) 2
        .LABELMAP = .error .valueError ∧
      errOf (encodeSegmentation [⟨"A", 0⟩]
        (.int4 1 1 1 2 (fun _ _ _ l => if l = 0 then 1 else 0)) .LABELMAP
        [1, 2] 255 true) = some .nameError := by
  constructor
  · decide
  · decide

/-- C7: `are_dimension_indices_unique` returns True exactly when the grouping
key (segment number plus the values of the requested dimension index
pointers) identifies rows of the frame index uniquely — one row per group —
and an empty pointer list is rejected with ValueError. -/
theorem C7_dimension_indices_unique (seg : SegImage) (ptrs : List ℕ) :
    segAreDimensionIndicesUnique seg [] = .error .valueError ∧
    (ptrs ≠ [] → (∀ p ∈ ptrs, p ∈ seg.db.dimIndPointers) →
      (segAreDimensionIndicesUnique seg ptrs = .ok true ↔
        ∀ j < seg.db.segmentNumbers.length,
          ∀ j' < seg.db.segmentNumbers.length,
            dimIndexKey seg.db ptrs j = dimIndexKey seg.db ptrs j' →
              j = j')) := by
  constructor
  · rw [segAreDimensionIndicesUnique]
    rfl
  · intro hne hmem
    rw [segAreDimensionIndicesUnique]
    rw [if_neg (by simpa using hne)]
    rw [if_neg (by
      simp only [List.any_eq_true, decide_eq_true_eq, not_exists, not_and,
        not_not]
      exact hmem)]
    show Except.ok (areDimensionIndicesUnique seg.db ptrs) = .ok true ↔ _
    rw [Except.ok.injEq]
    rw [show areDimensionIndicesUnique seg.db ptrs =
        decide (((List.range seg.db.segmentNumbers.length).map
          (dimIndexKey seg.db ptrs)).dedup.length =
            seg.db.segmentNumbers.length) from rfl]
    rw [decide_eq_true_iff]
    have hlen : ((List.range seg.db.segmentNumbers.length).map
        (dimIndexKey seg.db ptrs)).length = seg.db.segmentNumbers.length := by
      simp
    have key_iff : ((List.range seg.db.segmentNumbers.length).map
        (dimIndexKey seg.db ptrs)).Nodup ↔
        (∀ j < seg.db.segmentNumbers.length,
          ∀ j' < seg.db.segmentNumbers.length,
            dimIndexKey seg.db ptrs j = dimIndexKey seg.db ptrs j' →
              j = j') := by
      rw [List.nodup_map_iff_inj_on (List.nodup_range _)]
      constructor
      · intro h j hj j' hj' hk
        exact h j (List.mem_range.mpr hj) j' (List.mem_range.mpr hj') hk
      · intro h j hj j' hj' hk
        exact h j (List.mem_range.mp hj) j' (List.mem_range.mp hj') hk
    constructor
    · intro h
      exact key_iff.mp ((dedup_length_eq_iff _).mp (h.trans hlen.symm))
    · intro h
      exact ((dedup_length_eq_iff _).mpr (key_iff.mpr h)).trans hlen

/-- A two-frame, one-segment image whose single dimension index pointer
takes distinct values on the two frames. -/
def twoPlaneSeg : SegImage :=
  { h := 1
    w := 1
    frames := [fun _ _ => 1, fun _ _ => 1]
    numberOfSegments := 1
    segmentationType := .BINARY
    maximumFractionalValue := 1
    db := { referencedUids := ["A", "B"]
            segmentNumbers := [1, 1]
            dimIndPointers := [7, 8]
            dimIndexValues := [[1, 5], [2, 5]]
            referencedInstances := some ["A", "B"]
            referencedFrames := some [-1, -1] }
    locationsPreserved := some .YES
    singleSourceFramePerSegFrame := true }

/-- Witness for C7: on the two-plane object, indexing by the distinct-valued
pointer is unique (True) and indexing by the constant-valued pointer is not
(the uniqueness test cannot return True). -/
theorem C7_dimension_indices_unique_witness :
    segAreDimensionIndicesUnique twoPlaneSeg [7] = .ok true ∧
      segAreDimensionIndicesUnique twoPlaneSeg [8] ≠ .ok true := by
  constructor
  · exact ((C7_dimension_indices_unique twoPlaneSeg [7]).2 (by decide)
      (by decide)).mpr (by decide)
  · intro habs
    have h := ((C7_dimension_indices_unique twoPlaneSeg [8]).2 (by decide)
      (by decide)).mp habs
    have := h 0 (by decide) 1 (by decide) (by decide)
    exact absurd this (by decide)

/-- The condition under which `_build_luts` marks a frame as not having a
single source reference (sop.py lines 2590-2594): the frame's derivation
references do not contain exactly one distinct source instance UID and
exactly one distinct source frame number (zero references also qualify). -/
def frameRefsMultiple (item : PffgItem) : Prop :=
  ((item.derivationImageSequence.flatten).map
      SourceImageRef.referencedSOPInstanceUID).dedup.length ≠ 1 ∨
    ((item.derivationImageSequence.flatten).flatMap (fun ref =>
        if ref.referencedFrameNumber.isEmpty then [(-1 : ℤ)]
        else ref.referencedFrameNumber)).dedup.length ≠ 1

instance (item : PffgItem) : Decidable (frameRefsMultiple item) := by
  unfold frameRefsMultiple
  infer_instance

theorem buildLutsStep_single (sops : List String) (np : ℕ) (acc : LutsAcc)
    (item : PffgItem) (acc' : LutsAcc)
    (h : buildLutsStep sops np acc item = .ok acc') :
    (acc.single = false → acc'.single = false) ∧
    (frameRefsMultiple item → acc'.single = false) := by
  simp only [buildLutsStep, throw, throwThe, MonadExceptOf.throw, bind,
    Except.bind, pure, Except.pure] at h
  split_ifs at h with h1 h2 h3
  · simp only [Except.ok.injEq] at h
    constructor
    · intro _
      rw [← h]
    · intro _
      rw [← h]
  · simp only [Except.ok.injEq] at h
    constructor
    · intro hf
      rw [← h]
      exact hf
    · intro hm
      exact absurd hm h2

theorem foldlM_buildLuts_single (sops : List String) (np : ℕ)
    (items : List PffgItem) (acc accF : LutsAcc)
    (h : items.foldlM (buildLutsStep sops np) acc = .ok accF) :
    (acc.single = false → accF.single = false) ∧
    ((∃ it ∈ items, frameRefsMultiple it) → accF.single = false) := by
  induction items generalizing acc with
  | nil =>
    simp only [List.foldlM_nil, pure, Except.pure, Except.ok.injEq] at h
    subst h
    exact ⟨id, by rintro ⟨it, hit, _⟩; cases hit⟩
  | cons it its ih =>
    rw [List.foldlM_cons] at h
    cases hstep : buildLutsStep sops np acc it with
    | error e =>
      rw [hstep] at h
      exact absurd h (by simp [bind, Except.bind])
    | ok acc1 =>
      rw [hstep] at h
      simp only [bind, Except.bind] at h
      obtain ⟨hmono, hbad⟩ := buildLutsStep_single sops np acc it acc1 hstep
      obtain ⟨ihmono, ihbad⟩ := ih acc1 h
      constructor
      · intro hf
        exact ihmono (hmono hf)
      · rintro ⟨x, hx, hmul⟩
        rcases List.mem_cons.mp hx with rfl | hx'
        · exact ihmono (hbad hmul)
        · exact ihbad ⟨x, hx', hmul⟩

theorem checkIndexing_error_of_not_single (seg : SegImage)
    (hs : seg.singleSourceFramePerSegFrame = false)
    (ignoreSpatialLocations : Bool) :
    checkIndexingWithSourceFrames seg ignoreSpatialLocations =
      .error .runtimeError := by
  rw [checkIndexingWithSourceFrames]
  rcases hl : seg.locationsPreserved with _ | v
  · by_cases hi : ignoreSpatialLocations
    · simp only [hi, not_true_eq_false, if_neg, ite_false]
      simp only [bind, Except.bind, pure, Except.pure, hs]
      rfl
    · simp only [hi, Bool.not_false, ite_true, bind, Except.bind]
      rfl
  · cases v
    · simp only [bind, Except.bind, pure, Except.pure, hs]
      rfl
    · by_cases hi : ignoreSpatialLocations
      · simp only [hi, not_true_eq_false, if_neg, ite_false, bind,
          Except.bind, pure, Except.pure, hs]
        rfl
      · simp only [hi, Bool.not_false, ite_true, bind, Except.bind]
        rfl

theorem mkSegDBManager_ok (u : List String) (sn : List ℤ) (dp : List ℕ)
    (dv : List (List ℤ)) (ri : Option (List String)) (rf : Option (List ℤ))
    (db : SegDB) (h : mkSegDBManager u sn dp dv ri rf = .ok db) :
    db = ⟨u, sn, dp, dv, ri, rf⟩ := by
  simp only [mkSegDBManager, throw, throwThe, MonadExceptOf.throw, bind,
    Except.bind, pure, Except.pure] at h
  split_ifs at h
  simp only [Except.ok.injEq] at h
  exact h.symm

theorem buildLuts_fields (encoded : EncodedSeg) (seg : SegImage)
    (h : buildLuts encoded = .ok seg) :
    ∃ acc : LutsAcc,
      encoded.pffg.foldlM
        (buildLutsStep encoded.sourceUids encoded.dimIndPointers.length)
        ⟨[], [], [], true, [], []⟩ = .ok acc ∧
      seg.singleSourceFramePerSegFrame = acc.single ∧
      seg.db.referencedInstances =
        (if acc.single then some acc.refInstances else none) ∧
      seg.db.referencedFrames =
        (if acc.single then some acc.refFrames else none) := by
  rw [buildLuts] at h
  cases hacc : encoded.pffg.foldlM
      (buildLutsStep encoded.sourceUids encoded.dimIndPointers.length)
      ⟨[], [], [], true, [], []⟩ with
  | error e =>
    rw [hacc] at h
    exact absurd h (by simp [bind, Except.bind])
  | ok acc =>
    rw [hacc] at h
    simp only [bind, Except.bind] at h
    refine ⟨acc, rfl, ?_⟩
    cases hdb : mkSegDBManager encoded.sourceUids acc.segmentNumbers
        encoded.dimIndPointers acc.dimRows
        (if acc.single then some acc.refInstances else none)
        (if acc.single then some acc.refFrames else none) with
    | error e =>
      rw [hdb] at h
      exact absurd h (by simp)
    | ok db =>
      rw [hdb] at h
      have hdb' := mkSegDBManager_ok _ _ _ _ _ _ _ hdb
      simp only [pure, Except.pure, Except.ok.injEq] at h
      subst h
      subst hdb'
      exact ⟨rfl, rfl, rfl⟩

/-- C6: if any frame of a segmentation has zero source references or more
than one distinct source instance / source frame reference, then after
`_build_luts` the source-instance and source-frame columns are absent from
the frame index for all frames, and every call to
`get_pixels_by_source_instance` or `get_pixels_by_source_frame` — whatever
its arguments — fails immediately with RuntimeError in
`_check_indexing_with_source_frames`, before any pixel data is touched. -/
theorem C6_multiple_source_refs_not_indexable (encoded : EncodedSeg)
    (seg : SegImage) (h : buildLuts encoded = .ok seg)
    (hbad : ∃ it ∈ encoded.pffg, frameRefsMultiple it) :
    seg.singleSourceFramePerSegFrame = false ∧
    seg.db.referencedInstances = none ∧
    seg.db.referencedFrames = none ∧
    (∀ (uids : List String) (sn : Option (List ℤ)) (cs rl isl amfe rf soc : Bool),
      getPixelsBySourceInstance seg uids sn cs rl isl amfe rf soc =
        .error .runtimeError) ∧
    (∀ (uid : String) (fns : List ℤ) (sn : Option (List ℤ))
        (cs rl isl amfe rf soc : Bool),
      getPixelsBySourceFrame seg uid fns sn cs rl isl amfe rf soc =
        .error .runtimeError) := by
  obtain ⟨acc, hacc, hsingle, hri, hrf⟩ := buildLuts_fields encoded seg h
  have hsf : acc.single = false :=
    (foldlM_buildLuts_single _ _ _ _ _ hacc).2 hbad
  have h1 : seg.singleSourceFramePerSegFrame = false := by rw [hsingle, hsf]
  refine ⟨h1, ?_, ?_, ?_, ?_⟩
  · rw [hri, hsf]
    rfl
  · rw [hrf, hsf]
    rfl
  · intro uids sn cs rl isl amfe rf soc
    rw [getPixelsBySourceInstance.eq_def]
    rw [checkIndexing_error_of_not_single seg h1 isl]
    rfl
  · intro uid fns sn cs rl isl amfe rf soc
    rw [getPixelsBySourceFrame.eq_def]
    rw [checkIndexing_error_of_not_single seg h1 isl]
    rfl

/-- An encoded object with a single frame that lists two distinct source
instances in its derivation references. -/
def twoSourceEncoded : EncodedSeg :=
  { h := 1
    w := 1
    frames := [fun _ _ => 1]
    pffg := [{ dimensionIndexValues := [1, 1]
               derivationImageSequence :=
                 [[⟨"A", [], some .YES⟩, ⟨"B", [], some .YES⟩]]
               referencedSegmentNumber := 1 }]
    sourceUids := ["A", "B"]
    segmentationType := .BINARY
    maximumFractionalValue := 1
    numberOfSegments := 1
    dimIndPointers := [7] }

/-- The object `buildLuts` constructs from `twoSourceEncoded`. -/
def twoSourceSeg : SegImage :=
  { h := 1
    w := 1
    frames := [fun _ _ => 1]
    numberOfSegments := 1
    segmentationType := .BINARY
    maximumFractionalValue := 1
    db := { referencedUids := ["A", "B"]
            segmentNumbers := [1]
            dimIndPointers := [7]
            dimIndexValues := [[1]]
            referencedInstances := none
            referencedFrames := none }
    locationsPreserved := some .YES
    singleSourceFramePerSegFrame := false }

/-- Witness for C6: the two-source object loses its source columns and both
query modes fail with RuntimeError. -/
theorem C6_multiple_source_refs_not_indexable_witness :
    twoSourceSeg.db.referencedInstances = none ∧
      getPixelsBySourceInstance twoSourceSeg ["A"] none false false false
        false true false = .error .runtimeError ∧
      getPixelsBySourceFrame twoSourceSeg "A" [1] none false false false
        false true false = .error .runtimeError := by
  have h := C6_multiple_source_refs_not_indexable twoSourceEncoded
    twoSourceSeg rfl
    ⟨twoSourceEncoded.pffg.headD ⟨[], [], 0⟩, by decide, by decide⟩
  exact ⟨h.2.1, h.2.2.2.1 ["A"] none false false false false true false,
    h.2.2.2.2 "A" [1] none false false false false true false⟩

theorem oneToN_nodup (n : ℕ) : (oneToN n).Nodup := by
  unfold oneToN
  refine (List.nodup_range n).map ?_
  intro a b hab
  simp only at hab
  omega

theorem oneToN_length (n : ℕ) : (oneToN n).length = n := by
  unfold oneToN
  simp

theorem oneToN_isEmpty_eq_false (n : ℕ) (h : 0 < n) :
    (oneToN n).isEmpty = false := by
  rw [List.isEmpty_eq_false]
  intro hc
  have hl := oneToN_length n
  rw [hc] at hl
  simp only [List.length_nil] at hl
  omega

theorem mem_oneToN {n : ℕ} {s : ℤ} : s ∈ oneToN n ↔ 1 ≤ s ∧ s ≤ (n : ℤ) := by
  unfold oneToN
  simp only [List.mem_map, List.mem_range]
  constructor
  · rintro ⟨i, hi, rfl⟩
    omega
  · rintro ⟨h1, h2⟩
    exact ⟨(s - 1).toNat, by omega, by omega⟩

/-- Neither validity test of `_get_pixels_by_seg_frame` fires on the default
all-segments request. -/
theorem oneToN_no_out_of_range (n : ℕ) :
    ¬((oneToN n).any (fun s => s < 1) = true ∨
      (oneToN n).any (fun s => (s : ℤ) > (n : ℤ)) = true) := by
  rintro (h | h) <;>
  · rw [List.any_eq_true] at h
    obtain ⟨s, hs, hlt⟩ := h
    rw [mem_oneToN] at hs
    simp only [decide_eq_true_eq] at hlt
    omega

theorem tempSegmentTable_stacked (segs : List ℤ) :
    tempSegmentTable segs false false =
      segs.enum.map (fun p => ((p.1 : ℤ), p.2)) := rfl

/-- In stacked mode the temporary segment table satisfies both UNIQUE
constraints as soon as the requested segment numbers are distinct. -/
theorem tempSegmentTableOk_stacked (segs : List ℤ) (h : segs.Nodup) :
    tempSegmentTableOk (tempSegmentTable segs false false) = true := by
  rw [tempSegmentTable_stacked]
  simp only [tempSegmentTableOk, decide_eq_true_eq]
  constructor
  · rw [List.map_map]
    have hc : (Prod.fst ∘ fun p : ℕ × ℤ => ((p.1 : ℤ), p.2)) =
        (fun i : ℕ => (i : ℤ)) ∘ Prod.fst := rfl
    rw [hc, ← List.map_map, List.enum_map_fst]
    refine (List.nodup_range _).map ?_
    intro a b hab
    simp only at hab
    omega
  · rw [List.map_map]
    have hc : (Prod.snd ∘ fun p : ℕ × ℤ => ((p.1 : ℤ), p.2)) =
        (Prod.snd : ℕ × ℤ → ℤ) := rfl
    rw [hc, List.enum_map_snd]
    exact h

/-- Folding the stacked copy step never changes a cell that no instruction
targets. -/
theorem stackedCopy_foldl_apply (frames : List (ℕ → ℕ → ℕ))
    (instrs : List (ℕ × ℕ × ℤ)) (init : ℕ → ℕ → ℕ → ℕ → ℕ) (a b c d : ℕ)
    (h : ∀ ins ∈ instrs, ¬(a = ins.1 ∧ (d : ℤ) = ins.2.2)) :
    instrs.foldl
      (fun out ins => fun (a b c d : ℕ) =>
        if a = ins.1 ∧ (d : ℤ) = ins.2.2 then
          (frames.getD ins.2.1 (fun _ _ => 0)) b c
        else out a b c d)
      init a b c d = init a b c d := by
  induction instrs generalizing init with
  | nil => rfl
  | cons x xs ih =>
    rw [List.foldl_cons]
    rw [ih _ (fun ins hins => h ins (List.mem_cons_of_mem _ hins))]
    exact if_neg (h x (List.mem_cons_self x xs))

theorem stackedCopy_eq_zero_of_no_match (frames : List (ℕ → ℕ → ℕ))
    (instrs : List (ℕ × ℕ × ℤ)) (a b c d : ℕ)
    (h : ∀ ins ∈ instrs, a ≠ ins.1) :
    stackedCopy frames instrs a b c d = 0 := by
  rw [stackedCopy]
  exact stackedCopy_foldl_apply frames instrs _ a b c d
    (fun ins hins hc => h ins hins hc.1)

/-- Every row emitted by the by-instance join points at a requested UID that
matches some FrameLUT ReferencedSOPInstanceUID. -/
theorem joinBySourceInstance_fst (ris : List String) (sns : List ℤ)
    (uids : List String) (table : List (ℤ × ℤ)) (ins : ℕ × ℕ × ℤ)
    (h : ins ∈ joinBySourceInstance ris sns uids table) :
    ins.1 < uids.length ∧
      ∃ j < sns.length, ris.getD j "" = uids.getD ins.1 "" := by
  rw [joinBySourceInstance] at h
  obtain ⟨iu, hiu, h⟩ := List.mem_flatMap.mp h
  obtain ⟨j, hj, h⟩ := List.mem_flatMap.mp h
  rw [List.mem_range] at hj
  by_cases hc : ris.getD j "" = iu.2
  · rw [if_pos hc] at h
    obtain ⟨row, _hrow, h2⟩ := List.mem_filterMap.mp h
    by_cases hs : sns.getD j 0 = row.2
    · rw [if_pos hs] at h2
      obtain rfl := Option.some_inj.mp h2
      have hlt := List.fst_lt_of_mem_enum hiu
      have hget : uids.getD iu.1 "" = iu.2 := by
        have hg := List.mem_enum_iff_getElem?.mp hiu
        rw [List.getD_eq_getElem?_getD, hg]
        rfl
      exact ⟨hlt, j, hj, hc.trans hget.symm⟩
    · rw [if_neg hs] at h2
      exact Option.noConfusion h2
  · rw [if_neg hc] at h
    exact absurd h (List.not_mem_nil ins)

/-- Every row emitted by the by-frame join points at a requested frame number
that matches some FrameLUT ReferencedFrameNumber. -/
theorem joinBySourceFrame_fst (rfs : List ℤ) (sns : List ℤ)
    (fns : List ℤ) (table : List (ℤ × ℤ)) (ins : ℕ × ℕ × ℤ)
    (h : ins ∈ joinBySourceFrame rfs sns fns table) :
    ins.1 < fns.length ∧
      ∃ j < sns.length, rfs.getD j 0 = fns.getD ins.1 0 := by
  rw [joinBySourceFrame] at h
  obtain ⟨ifn, hifn, h⟩ := List.mem_flatMap.mp h
  obtain ⟨j, hj, h⟩ := List.mem_flatMap.mp h
  rw [List.mem_range] at hj
  by_cases hc : rfs.getD j 0 = ifn.2
  · rw [if_pos hc] at h
    obtain ⟨row, _hrow, h2⟩ := List.mem_filterMap.mp h
    by_cases hs : sns.getD j 0 = row.2
    · rw [if_pos hs] at h2
      obtain rfl := Option.some_inj.mp h2
      have hlt := List.fst_lt_of_mem_enum hifn
      have hget : fns.getD ifn.1 0 = ifn.2 := by
        have hg := List.mem_enum_iff_getElem?.mp hifn
        rw [List.getD_eq_getElem?_getD, hg]
        rfl
      exact ⟨hlt, j, hj, hc.trans hget.symm⟩
    · rw [if_neg hs] at h2
      exact Option.noConfusion h2
  · rw [if_neg hc] at h
    exact absurd h (List.not_mem_nil ins)

theorem iterate_source_instance_ok (db : SegDB) (uids : List String)
    (segs : List ℤ) (cs rl : Bool) (ris : List String)
    (hnd : uids.Nodup)
    (htab : tempSegmentTableOk (tempSegmentTable segs cs rl) = true)
    (hri : db.referencedInstances = some ris) :
    iterateIndicesBySourceInstance db uids segs cs rl =
      Except.ok (joinBySourceInstance ris db.segmentNumbers uids
        (tempSegmentTable segs cs rl)) := by
  rw [iterateIndicesBySourceInstance, hri]
  rw [if_neg (not_not_intro hnd)]
  simp only [pure_bind]
  rw [if_neg (not_not_intro htab)]
  rfl

theorem iterate_source_frame_ok (db : SegDB) (fns : List ℤ)
    (segs : List ℤ) (cs rl : Bool) (rfs : List ℤ)
    (hnd : fns.Nodup)
    (htab : tempSegmentTableOk (tempSegmentTable segs cs rl) = true)
    (hrf : db.referencedFrames = some rfs) :
    iterateIndicesBySourceFrame db fns segs cs rl =
      Except.ok (joinBySourceFrame rfs db.segmentNumbers fns
        (tempSegmentTable segs cs rl)) := by
  rw [iterateIndicesBySourceFrame, hrf]
  rw [if_neg (not_not_intro hnd)]
  simp only [pure_bind]
  rw [if_neg (not_not_intro htab)]
  rfl


/-- On a BINARY image, the stacked branch of `_get_pixels_by_seg_frame` with
the default all-segments request always succeeds and returns the stacked
copy of the stored frames. -/
theorem getPixelsBySegFrame_stacked_binary (seg : SegImage) (nout : ℕ)
    (instructions : List (ℕ × ℕ × ℤ)) (hn : 0 < seg.numberOfSegments)
    (hbin : seg.segmentationType = .BINARY) (rl rf so : Bool) :
    getPixelsBySegFrame seg nout instructions (oneToN seg.numberOfSegments)
      false rl rf so =
      Except.ok (SegPixels.intStacked
        (stackedCopy seg.frames instructions)) := by
  rw [getPixelsBySegFrame, hbin]
  rw [if_neg (by rw [oneToN_isEmpty_eq_false _ hn]; exact Bool.false_ne_true)]
  rw [if_neg (oneToN_no_out_of_range seg.numberOfSegments)]
  simp only [pure_bind]
  rw [if_neg Bool.false_ne_true]
  rw [if_neg (show ¬(rf = true ∧ SegmentationTypeValues.BINARY =
      SegmentationTypeValues.FRACTIONAL ∧ ¬false = true) from
    fun h => SegmentationTypeValues.noConfusion h.2.1)]
  rfl

/-- C5: querying `get_pixels_by_source_instance` with
`assert_missing_frames_are_empty=False` fails with KeyError (a Python
LookupError) as soon as any requested SOP Instance UID is outside the
referenced-instance set, before any output buffer is filled; with
`assert_missing_frames_are_empty=True` the query proceeds, and the output
frame at the position of a UID matching no frame-index row is entirely
zero. -/
theorem C5_missing_instances (seg : SegImage) (uids : List String)
    (ris : List String)
    (hchk : checkIndexingWithSourceFrames seg false = Except.ok ())
    (hn : 0 < seg.numberOfSegments)
    (hz : uids ≠ [])
    (hri : seg.db.referencedInstances = some ris)
    (hlen : ris.length = seg.db.segmentNumbers.length)
    (huniq : areReferencedSopInstancesUnique seg.db = true) :
    ((∃ u ∈ uids, u ∉ seg.db.referencedUids) →
      ∀ cs rl rf so : Bool,
        getPixelsBySourceInstance seg uids none cs rl false false rf so =
          Except.error PyError.keyError) ∧
    (uids.Nodup → seg.segmentationType = .BINARY →
      ∀ i, i < uids.length → uids.getD i "" ∉ ris →
      ∀ b c d : ℕ,
        intPixel (getPixelsBySourceInstance seg uids none false false false
          true true false) i b c d = some 0) := by
  constructor
  · rintro ⟨u, hu, hmem⟩ cs rl rf so
    rw [getPixelsBySourceInstance.eq_def, hchk]
    simp only [pure_bind]
    rw [if_neg (by rw [oneToN_isEmpty_eq_false _ hn]; exact Bool.false_ne_true)]
    rw [if_neg (by rw [List.isEmpty_eq_false.mpr hz]; exact Bool.false_ne_true)]
    rw [if_neg (not_not_intro huniq)]
    rw [if_pos ⟨Bool.false_ne_true, List.any_eq_true.mpr
      ⟨u, hu, decide_eq_true hmem⟩⟩]
    rfl
  · intro hnd hbin i hi hmem b c d
    have htab := tempSegmentTableOk_stacked _ (oneToN_nodup seg.numberOfSegments)
    have hiter := iterate_source_instance_ok seg.db uids
      (oneToN seg.numberOfSegments) false false ris hnd htab hri
    rw [getPixelsBySourceInstance.eq_def, hchk]
    simp only [pure_bind]
    rw [if_neg (by rw [oneToN_isEmpty_eq_false _ hn]; exact Bool.false_ne_true)]
    rw [if_neg (by rw [List.isEmpty_eq_false.mpr hz]; exact Bool.false_ne_true)]
    rw [if_neg (not_not_intro huniq)]
    rw [if_neg (by simp)]
    rw [hiter]
    simp only [bind, Except.bind]
    rw [getPixelsBySegFrame_stacked_binary seg uids.length _ hn hbin
      false true false]
    rw [intPixel]
    have hzero : stackedCopy seg.frames
        (joinBySourceInstance ris seg.db.segmentNumbers uids
          (tempSegmentTable (oneToN seg.numberOfSegments) false false))
        i b c d = 0 := by
      refine stackedCopy_eq_zero_of_no_match _ _ _ _ _ _ ?_
      intro ins hins hieq
      obtain ⟨_, j, hj, hjeq⟩ := joinBySourceInstance_fst _ _ _ _ _ hins
      rw [← hieq] at hjeq
      have hjr : j < ris.length := by omega
      rw [List.getD_eq_getElem?_getD, List.getElem?_eq_getElem hjr] at hjeq
      exact hmem (hjeq ▸ List.getElem_mem hjr)
    rw [hzero]

/-- A single-frame single-segment BINARY object referencing source instance
"A", with both source columns present. -/
def c5Seg : SegImage :=
  { h := 1
    w := 1
    frames := [fun _ _ => 1]
    numberOfSegments := 1
    segmentationType := .BINARY
    maximumFractionalValue := 1
    db := { referencedUids := ["A"]
            segmentNumbers := [1]
            dimIndPointers := [7]
            dimIndexValues := [[1]]
            referencedInstances := some ["A"]
            referencedFrames := some [1] }
    locationsPreserved := some .YES
    singleSourceFramePerSegFrame := true }

/-- Witness for C5: requesting the unreferenced instance "B" raises KeyError
without `assert_missing_frames_are_empty`, and with it the frame at the
position of "B" is zero. -/
theorem C5_missing_instances_witness :
    getPixelsBySourceInstance c5Seg ["A", "B"] none false false false false
        true false = Except.error PyError.keyError ∧
    intPixel (getPixelsBySourceInstance c5Seg ["A", "B"] none false false
        false true true false) 1 0 0 0 = some 0 := by
  have h := C5_missing_instances c5Seg ["A", "B"] ["A"] (by decide) (by decide)
    (by decide) rfl rfl (by decide)
  exact ⟨h.1 ⟨"B", by decide, by decide⟩ false false true false,
    h.2 (by decide) rfl 1 (by decide) (by decide) 0 0 0⟩


/-- C10 (amended): `get_pixels_by_source_frame` with
`assert_missing_frames_are_empty=False` raises ValueError when any requested
frame number is non-positive, and when any requested frame number exceeds
the maximum referenced frame number; a *positive* unreferenced frame number
that does not exceed that maximum raises no error and its output frame is
entirely zero. -/
theorem C10_unreferenced_frames (seg : SegImage) (fns : List ℤ)
    (rfs : List ℤ) (m : ℤ)
    (hchk : checkIndexingWithSourceFrames seg false = Except.ok ())
    (hn : 0 < seg.numberOfSegments)
    (hz : fns ≠ [])
    (hrf : seg.db.referencedFrames = some rfs)
    (hlen : rfs.length = seg.db.segmentNumbers.length)
    (huniq : areReferencedFramesUnique seg.db = true)
    (hmax : getMaxFrameNumber seg.db = some m) :
    ((∃ f ∈ fns, f ≤ 0) → ∀ (uid : String) (cs rl rf so : Bool),
      getPixelsBySourceFrame seg uid fns none cs rl false false rf so =
        Except.error PyError.valueError) ∧
    ((∀ f ∈ fns, 0 < f) → (∃ f ∈ fns, m < f) →
      ∀ (uid : String) (cs rl rf so : Bool),
      getPixelsBySourceFrame seg uid fns none cs rl false false rf so =
        Except.error PyError.valueError) ∧
    ((∀ f ∈ fns, 0 < f) → (∀ f ∈ fns, f ≤ m) → fns.Nodup →
      seg.segmentationType = .BINARY →
      ∀ i, i < fns.length → fns.getD i 0 ∉ rfs →
      ∀ b c d : ℕ,
        intPixel (getPixelsBySourceFrame seg "" fns none false false false
          false true false) i b c d = some 0) := by
  refine ⟨?_, ?_, ?_⟩
  · rintro ⟨f, hf, hle⟩ uid cs rl rf so
    rw [getPixelsBySourceFrame.eq_def, hchk]
    simp only [pure_bind]
    rw [if_neg (by rw [oneToN_isEmpty_eq_false _ hn]; exact Bool.false_ne_true)]
    rw [if_neg (by rw [List.isEmpty_eq_false.mpr hz]; exact Bool.false_ne_true)]
    rw [if_pos (show ¬fns.all (fun fnum => fnum > 0) = true from by
      rw [List.all_eq_true]
      intro hall
      have := hall f hf
      simp only [decide_eq_true_eq] at this
      omega)]
    rfl
  · intro hpos hex uid cs rl rf so
    rw [getPixelsBySourceFrame.eq_def, hchk]
    simp only [pure_bind]
    rw [if_neg (by rw [oneToN_isEmpty_eq_false _ hn]; exact Bool.false_ne_true)]
    rw [if_neg (by rw [List.isEmpty_eq_false.mpr hz]; exact Bool.false_ne_true)]
    rw [if_neg (show ¬¬fns.all (fun fnum => fnum > 0) = true from
      not_not_intro (by
        rw [List.all_eq_true]
        intro f hf
        exact decide_eq_true (hpos f hf)))]
    rw [if_neg (not_not_intro huniq)]
    rw [if_pos (show ¬false = true from Bool.false_ne_true)]
    rw [hmax]
    dsimp only
    obtain ⟨f, hf, hgt⟩ := hex
    rw [if_pos (show fns.any (fun fnum => fnum > m) = true from
      List.any_eq_true.mpr ⟨f, hf, decide_eq_true hgt⟩)]
    rfl
  · intro hpos hle hnd hbin i hi hmem b c d
    have htab := tempSegmentTableOk_stacked _ (oneToN_nodup seg.numberOfSegments)
    have hiter := iterate_source_frame_ok seg.db fns
      (oneToN seg.numberOfSegments) false false rfs hnd htab hrf
    rw [getPixelsBySourceFrame.eq_def, hchk]
    simp only [pure_bind]
    rw [if_neg (by rw [oneToN_isEmpty_eq_false _ hn]; exact Bool.false_ne_true)]
    rw [if_neg (by rw [List.isEmpty_eq_false.mpr hz]; exact Bool.false_ne_true)]
    rw [if_neg (show ¬¬fns.all (fun fnum => fnum > 0) = true from
      not_not_intro (by
        rw [List.all_eq_true]
        intro f hf
        exact decide_eq_true (hpos f hf)))]
    rw [if_neg (not_not_intro huniq)]
    rw [if_pos (show ¬false = true from Bool.false_ne_true)]
    rw [hmax]
    dsimp only
    rw [if_neg (show ¬fns.any (fun fnum => fnum > m) = true from by
      rw [List.any_eq_true]
      rintro ⟨f, hf, hgt⟩
      simp only [decide_eq_true_eq] at hgt
      exact absurd (hle f hf) (not_le.mpr hgt))]
    rw [hiter]
    simp only [bind, Except.bind]
    rw [getPixelsBySegFrame_stacked_binary seg fns.length _ hn hbin
      false true false]
    rw [intPixel]
    have hzero : stackedCopy seg.frames
        (joinBySourceFrame rfs seg.db.segmentNumbers fns
          (tempSegmentTable (oneToN seg.numberOfSegments) false false))
        i b c d = 0 := by
      refine stackedCopy_eq_zero_of_no_match _ _ _ _ _ _ ?_
      intro ins hins hieq
      obtain ⟨_, j, hj, hjeq⟩ := joinBySourceFrame_fst _ _ _ _ _ hins
      rw [← hieq] at hjeq
      have hjr : j < rfs.length := by omega
      rw [List.getD_eq_getElem?_getD, List.getElem?_eq_getElem hjr] at hjeq
      exact hmem (hjeq ▸ List.getElem_mem hjr)
    rw [hzero]

/-- A single-frame single-segment BINARY object whose only referenced source
frame number is 5. -/
def c10Seg : SegImage :=
  { h := 1
    w := 1
    frames := [fun _ _ => 1]
    numberOfSegments := 1
    segmentationType := .BINARY
    maximumFractionalValue := 1
    db := { referencedUids := ["A"]
            segmentNumbers := [1]
            dimIndPointers := [7]
            dimIndexValues := [[1]]
            referencedInstances := some ["A"]
            referencedFrames := some [5] }
    locationsPreserved := some .YES
    singleSourceFramePerSegFrame := true }

/-- Counterexample to C10 as stated: the requested source frame number 0 is
unreferenced and does not exceed the maximum referenced frame number 5, yet
the call raises ValueError — the positivity check of
`get_pixels_by_source_frame` (sop.py lines 3665-3669) rejects it first. -/
theorem C10_unreferenced_frames_counterexample :
    getMaxFrameNumber c10Seg.db = some 5 ∧
    ((0 : ℤ) ≤ 5 ∧ (0 : ℤ) ∉ (c10Seg.db.referencedFrames.getD [])) ∧
    errOf (getPixelsBySourceFrame c10Seg "A" [0] none false false false false
      true false) = some PyError.valueError := by decide

/-- Witness for C10: on the object referencing only frame 5, requesting
frame 6 raises ValueError while requesting the unreferenced frame 3 returns
a zero frame. -/
theorem C10_unreferenced_frames_witness :
    getPixelsBySourceFrame c10Seg "A" [6] none false false false false true
        false = Except.error PyError.valueError ∧
    intPixel (getPixelsBySourceFrame c10Seg "" [3] none false false false
        false true false) 0 0 0 0 = some 0 := by
  have h6 := C10_unreferenced_frames c10Seg [6] [5] 5 (by decide) (by decide)
    (by decide) rfl rfl (by decide) (by decide)
  have h3 := C10_unreferenced_frames c10Seg [3] [5] 5 (by decide) (by decide)
    (by decide) rfl rfl (by decide) (by decide)
  exact ⟨h6.2.1 (by decide) ⟨6, by decide, by decide⟩ "A" false false true
      false,
    h3.2.2 (by decide) (by decide) (by decide) rfl 0 (by decide) (by decide)
      0 0 0⟩


def nonOverlapping (frames : List (ℕ → ℕ → ℕ)) (h w : ℕ)
    (ins ins' : ℕ × ℕ × ℤ) : Prop :=
  ins.1 = ins'.1 → ∀ b < h, ∀ c < w,
    ¬(0 < (frames.getD ins.2.1 (fun _ _ => 0)) b c ∧
      0 < (frames.getD ins'.2.1 (fun _ _ => 0)) b c)

instance (frames : List (ℕ → ℕ → ℕ)) (h w : ℕ) (ins ins' : ℕ × ℕ × ℤ) :
    Decidable (nonOverlapping frames h w ins ins') := by
  unfold nonOverlapping
  infer_instance

def competingSegs (frames : List (ℕ → ℕ → ℕ)) (instrs : List (ℕ × ℕ × ℤ))
    (a b c : ℕ) : List ℕ :=
  instrs.filterMap (fun ins =>
    if ins.1 = a ∧ 0 < (frames.getD ins.2.1 (fun _ _ => 0)) b c then
      some ins.2.2.toNat
    else none)

theorem mem_competingSegs {frames : List (ℕ → ℕ → ℕ)}
    {instrs : List (ℕ × ℕ × ℤ)} {a b c s : ℕ}
    (h : s ∈ competingSegs frames instrs a b c) :
    ∃ ins ∈ instrs, ins.1 = a ∧
      0 < (frames.getD ins.2.1 (fun _ _ => 0)) b c ∧ s = ins.2.2.toNat := by
  unfold competingSegs at h
  obtain ⟨ins, hins, heq⟩ := List.mem_filterMap.mp h
  split_ifs at heq with hcond
  exact ⟨ins, hins, hcond.1, hcond.2, (Option.some_inj.mp heq).symm⟩

theorem foldl_max_eq_base_or_mem (l : List ℕ) (base : ℕ) :
    l.foldl (fun v s => max s v) base = base ∨
      l.foldl (fun v s => max s v) base ∈ l := by
  induction l generalizing base with
  | nil => exact Or.inl rfl
  | cons x xs ih =>
    rw [List.foldl_cons]
    rcases ih (max x base) with hh | hh
    · rw [hh]
      rcases max_choice x base with hm | hm
      · exact Or.inr (by rw [hm]; exact List.mem_cons_self _ _)
      · exact Or.inl hm
    · exact Or.inr (List.mem_cons_of_mem _ hh)

theorem competing_foldl_cons (frames : List (ℕ → ℕ → ℕ))
    (ins : ℕ × ℕ × ℤ) (rest : List (ℕ × ℕ × ℤ)) (a b c : ℕ) (base : ℕ)
    (h1 : (frames.getD ins.2.1 (fun _ _ => 0)) b c = 0 ∨
          (frames.getD ins.2.1 (fun _ _ => 0)) b c = 1) :
    (competingSegs frames rest a b c).foldl (fun v s => max s v)
      (if a = ins.1 then
        max ((frames.getD ins.2.1 (fun _ _ => 0)) b c * ins.2.2.toNat) base
      else base) =
    (competingSegs frames (ins :: rest) a b c).foldl (fun v s => max s v)
      base := by
  by_cases hA : a = ins.1
  · rcases h1 with h0 | h1
    · have hcons : competingSegs frames (ins :: rest) a b c =
          competingSegs frames rest a b c := by
        unfold competingSegs
        rw [List.filterMap_cons,
          if_neg (fun hc => by rw [h0] at hc; exact lt_irrefl 0 hc.2)]
      rw [hcons, if_pos hA, h0, Nat.zero_mul, Nat.zero_max]
    · have hcons : competingSegs frames (ins :: rest) a b c =
          ins.2.2.toNat :: competingSegs frames rest a b c := by
        unfold competingSegs
        rw [List.filterMap_cons,
          if_pos ⟨hA.symm, by rw [h1]; exact Nat.zero_lt_one⟩]
      rw [hcons, List.foldl_cons, if_pos hA, h1, Nat.one_mul]
  · have hcons : competingSegs frames (ins :: rest) a b c =
        competingSegs frames rest a b c := by
      unfold competingSegs
      rw [List.filterMap_cons,
        if_neg (fun hc => hA (hc.1.symm))]
    rw [hcons, if_neg hA]

theorem combineLoop_skip_characterization (frames : List (ℕ → ℕ → ℕ))
    (h w : ℕ) (instrs : List (ℕ × ℕ × ℤ))
    (hbin : ∀ ins ∈ instrs, ∀ b < h, ∀ c < w,
      (frames.getD ins.2.1 (fun _ _ => 0)) b c = 0 ∨
      (frames.getD ins.2.1 (fun _ _ => 0)) b c = 1)
    (init : ℕ → ℕ → ℕ → ℕ) :
    ∃ out, combineLoop frames h w true init instrs = Except.ok out ∧
      ∀ a b c, b < h → c < w →
        out a b c = (competingSegs frames instrs a b c).foldl
          (fun v s => max s v) (init a b c) := by
  revert hbin
  induction instrs generalizing init with
  | nil => exact fun _ => ⟨init, rfl, fun a b c _ _ => rfl⟩
  | cons ins rest ih =>
    intro hbin
    obtain ⟨out, hout, hchar⟩ := ih
      (fun a b c =>
        if a = ins.1 then
          max ((frames.getD ins.2.1 (fun _ _ => 0)) b c * ins.2.2.toNat)
            (init a b c)
        else init a b c)
      (fun i hi => hbin i (List.mem_cons_of_mem _ hi))
    refine ⟨out, ?_, ?_⟩
    · rw [combineLoop]
      rw [if_neg (fun hc => hc.1 rfl)]
      exact hout
    · intro a b c hb hc
      rw [hchar a b c hb hc]
      exact competing_foldl_cons frames ins rest a b c (init a b c)
        (hbin ins (List.mem_cons_self _ _) b hb c hc)

theorem combineLoop_error_of_conflict (frames : List (ℕ → ℕ → ℕ)) (h w : ℕ)
    (instrs : List (ℕ × ℕ × ℤ)) (init : ℕ → ℕ → ℕ → ℕ)
    (hc : ∃ ins ∈ instrs, ∃ b < h, ∃ c < w,
      0 < (frames.getD ins.2.1 (fun _ _ => 0)) b c ∧ 0 < init ins.1 b c) :
    combineLoop frames h w false init instrs =
      Except.error PyError.runtimeError := by
  revert hc
  induction instrs generalizing init with
  | nil => rintro ⟨ins, hins, -⟩; cases hins
  | cons ins rest ih =>
    rintro ⟨ins0, hins0, b, hb, c, hcw, hplane, hinit⟩
    rw [combineLoop]
    by_cases hfire : ¬(false : Bool) = true ∧ ∃ b < h, ∃ c < w,
        0 < (frames.getD ins.2.1 (fun _ _ => 0)) b c ∧ 0 < init ins.1 b c
    · rw [if_pos hfire]
      rfl
    · rw [if_neg hfire]
      rcases List.mem_cons.mp hins0 with rfl | hrest
      · exact absurd ⟨Bool.false_ne_true, b, hb, c, hcw, hplane, hinit⟩ hfire
      · refine ih _ ⟨ins0, hrest, b, hb, c, hcw, hplane, ?_⟩
        dsimp only
        split_ifs
        · exact lt_of_lt_of_le hinit (le_max_right _ _)
        · exact hinit

theorem combineLoop_error_of_overlap (frames : List (ℕ → ℕ → ℕ)) (h w : ℕ)
    (instrs : List (ℕ × ℕ × ℤ))
    (hpos : ∀ ins ∈ instrs, (0 : ℤ) < ins.2.2)
    (hov : ¬ instrs.Pairwise (nonOverlapping frames h w))
    (init : ℕ → ℕ → ℕ → ℕ) :
    combineLoop frames h w false init instrs =
      Except.error PyError.runtimeError := by
  revert hpos hov
  induction instrs generalizing init with
  | nil => exact fun _ hov => absurd List.Pairwise.nil hov
  | cons ins rest ih =>
    intro hpos hov
    rw [List.pairwise_cons] at hov
    rw [combineLoop]
    by_cases hfire : ¬(false : Bool) = true ∧ ∃ b < h, ∃ c < w,
        0 < (frames.getD ins.2.1 (fun _ _ => 0)) b c ∧ 0 < init ins.1 b c
    · rw [if_pos hfire]
      rfl
    · rw [if_neg hfire]
      rcases not_and_or.mp hov with hA | hB
      · push_neg at hA
        obtain ⟨ins', hins', hno⟩ := hA
        unfold nonOverlapping at hno
        push_neg at hno
        obtain ⟨heq, b, hb, c, hcw, hp, hp'⟩ := hno
        refine combineLoop_error_of_conflict frames h w rest _
          ⟨ins', hins', b, hb, c, hcw, hp', ?_⟩
        dsimp only
        rw [if_pos heq.symm]
        have hseg : 0 < ins.2.2.toNat := by
          have := hpos ins (List.mem_cons_self _ _)
          omega
        exact lt_of_lt_of_le (Nat.mul_pos hp hseg) (le_max_left _ _)
      · exact ih _ (fun i hi => hpos i (List.mem_cons_of_mem _ hi)) hB

theorem combineLoop_nonoverlap_ok (frames : List (ℕ → ℕ → ℕ)) (h w : ℕ)
    (instrs : List (ℕ × ℕ × ℤ)) (init : ℕ → ℕ → ℕ → ℕ)
    (hbin : ∀ ins ∈ instrs, ∀ b < h, ∀ c < w,
      (frames.getD ins.2.1 (fun _ _ => 0)) b c = 0 ∨
      (frames.getD ins.2.1 (fun _ _ => 0)) b c = 1)
    (hov : instrs.Pairwise (nonOverlapping frames h w))
    (hinit : ∀ ins ∈ instrs, ∀ b < h, ∀ c < w,
      0 < (frames.getD ins.2.1 (fun _ _ => 0)) b c → init ins.1 b c = 0) :
    ∃ out, combineLoop frames h w false init instrs = Except.ok out ∧
      ∀ a b c, b < h → c < w →
        out a b c = (competingSegs frames instrs a b c).foldl
          (fun v s => max s v) (init a b c) := by
  revert hbin hov hinit
  induction instrs generalizing init with
  | nil => exact fun _ _ _ => ⟨init, rfl, fun a b c _ _ => rfl⟩
  | cons ins rest ih =>
    intro hbin hov hinit
    rw [List.pairwise_cons] at hov
    obtain ⟨out, hout, hchar⟩ := ih
      (fun a b c =>
        if a = ins.1 then
          max ((frames.getD ins.2.1 (fun _ _ => 0)) b c * ins.2.2.toNat)
            (init a b c)
        else init a b c)
      (fun i hi => hbin i (List.mem_cons_of_mem _ hi)) hov.2
      (by
        intro ins' hins' b hb c hcw hp'
        dsimp only
        by_cases hA : ins'.1 = ins.1
        · rw [if_pos hA]
          have hz : (frames.getD ins.2.1 (fun _ _ => 0)) b c = 0 := by
            by_contra hnz
            exact hov.1 ins' hins' hA.symm b hb c hcw
              ⟨Nat.pos_of_ne_zero hnz, hp'⟩
          rw [hz, Nat.zero_mul,
            hinit ins' (List.mem_cons_of_mem _ hins') b hb c hcw hp',
            Nat.zero_max]
        · rw [if_neg hA]
          exact hinit ins' (List.mem_cons_of_mem _ hins') b hb c hcw hp')
    refine ⟨out, ?_, ?_⟩
    · rw [combineLoop]
      rw [if_neg (by
        rintro ⟨-, b, hb, c, hcw, hp, hi⟩
        rw [hinit ins (List.mem_cons_self _ _) b hb c hcw hp] at hi
        exact lt_irrefl 0 hi)]
      exact hout
    · intro a b c hb hc
      rw [hchar a b c hb hc]
      exact competing_foldl_cons frames ins rest a b c (init a b c)
        (hbin ins (List.mem_cons_self _ _) b hb c hc)

theorem tempSegmentTable_relabel (segs : List ℤ) :
    tempSegmentTable segs true true =
      segs.enum.map (fun p => ((p.1 : ℤ) + 1, p.2)) := rfl

/-- With `combine_segments=True, relabel=True` the output segment numbers of
the temporary segment table are exactly 1..len(segment_numbers), in
requested order. -/
theorem tempSegmentTable_relabel_fst (segs : List ℤ) :
    (tempSegmentTable segs true true).map Prod.fst = oneToN segs.length := by
  rw [tempSegmentTable_relabel, List.map_map]
  have hc : (Prod.fst ∘ fun p : ℕ × ℤ => ((p.1 : ℤ) + 1, p.2)) =
      (fun i : ℕ => (i : ℤ) + 1) ∘ Prod.fst := rfl
  rw [hc, ← List.map_map, List.enum_map_fst]
  rfl

theorem getPixelsBySegFrame_combine_binary (seg : SegImage) (nout : ℕ)
    (instrs : List (ℕ × ℕ × ℤ)) (hn : 0 < seg.numberOfSegments)
    (hbin : seg.segmentationType = .BINARY) (rl rf so : Bool) :
    getPixelsBySegFrame seg nout instrs (oneToN seg.numberOfSegments)
      true rl rf so =
      (combineLoop seg.frames seg.h seg.w so (fun _ _ _ => 0) instrs).map
        SegPixels.labelMap := by
  rw [getPixelsBySegFrame, hbin]
  rw [if_neg (by rw [oneToN_isEmpty_eq_false _ hn]; exact Bool.false_ne_true)]
  rw [if_neg (oneToN_no_out_of_range seg.numberOfSegments)]
  simp only [pure_bind]
  rw [if_pos trivial]
  rw [if_neg (fun hf => SegmentationTypeValues.noConfusion hf)]
  cases hres : combineLoop seg.frames seg.h seg.w so (fun _ _ _ => 0) instrs with
  | ok out => rfl
  | error e => rfl

/-- C3: for a combined label-map reconstruction (`combine_segments=True`,
BINARY stored planes) — (i) when the instructions' stored planes are
pairwise non-overlapping within each output frame the call succeeds and
each nonzero output pixel equals the output segment number of the segment
containing it; (ii) with `relabel=True` the output segment numbers of the
temporary segment table are 1..len(segment_numbers) in requested order;
(iii) when two instructions for the same output frame both write a nonzero
value to the same pixel the call fails with RuntimeError, (iv) unless
overlap checks are skipped, in which case each pixel receives the maximum
of the competing output segment numbers. -/
theorem C3_combine_segments (seg : SegImage) (nout : ℕ)
    (instrs : List (ℕ × ℕ × ℤ)) (segs : List ℤ)
    (hn : 0 < seg.numberOfSegments)
    (hbin : seg.segmentationType = .BINARY)
    (hplanes : ∀ ins ∈ instrs, ∀ b < seg.h, ∀ c < seg.w,
      (seg.frames.getD ins.2.1 (fun _ _ => 0)) b c = 0 ∨
      (seg.frames.getD ins.2.1 (fun _ _ => 0)) b c = 1)
    (hpos : ∀ ins ∈ instrs, (0 : ℤ) < ins.2.2) :
    (instrs.Pairwise (nonOverlapping seg.frames seg.h seg.w) →
      ∀ rl rf : Bool, ∃ out,
        getPixelsBySegFrame seg nout instrs (oneToN seg.numberOfSegments)
          true rl rf false = Except.ok (SegPixels.labelMap out) ∧
        ∀ a, ∀ b < seg.h, ∀ c < seg.w,
          out a b c = 0 ∨
          ∃ ins ∈ instrs, ins.1 = a ∧
            0 < (seg.frames.getD ins.2.1 (fun _ _ => 0)) b c ∧
            out a b c = ins.2.2.toNat) ∧
    ((tempSegmentTable segs true true).map Prod.fst = oneToN segs.length) ∧
    (¬ instrs.Pairwise (nonOverlapping seg.frames seg.h seg.w) →
      ∀ rl rf : Bool,
        getPixelsBySegFrame seg nout instrs (oneToN seg.numberOfSegments)
          true rl rf false = Except.error PyError.runtimeError) ∧
    (∀ rl rf : Bool, ∃ out,
      getPixelsBySegFrame seg nout instrs (oneToN seg.numberOfSegments)
        true rl rf true = Except.ok (SegPixels.labelMap out) ∧
      ∀ a, ∀ b < seg.h, ∀ c < seg.w,
        out a b c =
          (competingSegs seg.frames instrs a b c).foldl
            (fun v s => max s v) 0) := by
  refine ⟨?_, tempSegmentTable_relabel_fst segs, ?_, ?_⟩
  · intro hov rl rf
    obtain ⟨out, hout, hchar⟩ := combineLoop_nonoverlap_ok seg.frames seg.h
      seg.w instrs (fun _ _ _ => 0) hplanes hov
      (fun _ _ _ _ _ _ _ => rfl)
    refine ⟨out, ?_, ?_⟩
    · rw [getPixelsBySegFrame_combine_binary seg nout instrs hn hbin rl rf
        false, hout]
      rfl
    · intro a b hb c hc
      have hval := hchar a b c hb hc
      rcases foldl_max_eq_base_or_mem
          (competingSegs seg.frames instrs a b c) 0 with h0 | hmem
      · exact Or.inl (hval.trans h0)
      · obtain ⟨ins, hins, hA, hP, hEq⟩ := mem_competingSegs (hval ▸ hmem)
        exact Or.inr ⟨ins, hins, hA, hP, hval ▸ hEq⟩
  · intro hov rl rf
    rw [getPixelsBySegFrame_combine_binary seg nout instrs hn hbin rl rf
      false]
    rw [combineLoop_error_of_overlap seg.frames seg.h seg.w instrs hpos hov
      (fun _ _ _ => 0)]
    rfl
  · intro rl rf
    obtain ⟨out, hout, hchar⟩ := combineLoop_skip_characterization seg.frames
      seg.h seg.w instrs hplanes (fun _ _ _ => 0)
    refine ⟨out, ?_, fun a b hb c hc => hchar a b c hb hc⟩
    rw [getPixelsBySegFrame_combine_binary seg nout instrs hn hbin rl rf
      true, hout]
    rfl

/-- A two-frame BINARY object whose two stored planes overlap everywhere. -/
def c3OvSeg : SegImage :=
  { h := 1
    w := 1
    frames := [fun _ _ => 1, fun _ _ => 1]
    numberOfSegments := 2
    segmentationType := .BINARY
    maximumFractionalValue := 1
    db := { referencedUids := ["A"]
            segmentNumbers := [1, 2]
            dimIndPointers := [7]
            dimIndexValues := [[1], [2]]
            referencedInstances := some ["A", "A"]
            referencedFrames := some [1, 2] }
    locationsPreserved := some .YES
    singleSourceFramePerSegFrame := true }

/-- Witness for C3: two instructions writing segments 1 and 2 onto the same
output frame with everywhere-positive planes raise RuntimeError, and the
relabelled temporary table for requested segments [3, 1] carries output
numbers [1, 2]. -/
theorem C3_combine_segments_witness :
    getPixelsBySegFrame c3OvSeg 1 [(0, 0, 1), (0, 1, 2)]
        (oneToN c3OvSeg.numberOfSegments) true false true false =
      Except.error PyError.runtimeError ∧
    (tempSegmentTable [3, 1] true true).map Prod.fst = oneToN 2 := by
  have h := C3_combine_segments c3OvSeg 1 [(0, 0, 1), (0, 1, 2)] [3, 1]
    (by decide) rfl (by decide) (by decide)
  exact ⟨h.2.2.1 (by decide) false true, h.2.1⟩


instance : Inhabited EmittedFrame := ⟨⟨0, 0, [], "", fun _ _ => 0⟩⟩

theorem insertSortedInt_perm (x : ℤ) (l : List ℤ) :
    (insertSortedInt x l).Perm (x :: l) := by
  induction l with
  | nil => exact List.Perm.refl _
  | cons y ys ih =>
    rw [insertSortedInt]
    split_ifs
    · exact List.Perm.refl _
    · exact (ih.cons y).trans (List.Perm.swap x y ys)

theorem insertionSortInt_perm (l : List ℤ) : (insertionSortInt l).Perm l := by
  induction l with
  | nil => exact List.Perm.refl _
  | cons x xs ih =>
    rw [insertionSortInt]
    exact (insertSortedInt_perm x _).trans (ih.cons x)

theorem npUniqueValues_perm_of_nodup {l : List ℤ} (h : l.Nodup) :
    (npUniqueValues l).Perm l := by
  rw [npUniqueValues, List.dedup_eq_self.mpr h]
  exact insertionSortInt_perm l

theorem mem_npUniqueReturnIndex_of_nodup {l : List ℤ} (h : l.Nodup) (p : ℕ) :
    p ∈ npUniqueReturnIndex l ↔ p < l.length := by
  rw [npUniqueReturnIndex]
  simp only [List.mem_map]
  constructor
  · rintro ⟨v, hv, rfl⟩
    exact List.indexOf_lt_length.mpr
      ((npUniqueValues_perm_of_nodup h).mem_iff.mp hv)
  · intro hp
    refine ⟨l.getD p 0, ?_, ?_⟩
    · refine (npUniqueValues_perm_of_nodup h).mem_iff.mpr ?_
      rw [List.getD_eq_getElem l 0 hp]
      exact List.getElem_mem hp
    · rw [List.getD_eq_getElem l 0 hp]
      exact List.indexOf_getElem h p hp

theorem npUniqueReturnIndex_nodup_of_nodup {l : List ℤ} (h : l.Nodup) :
    (npUniqueReturnIndex l).Nodup := by
  rw [npUniqueReturnIndex]
  refine List.Nodup.map_on ?_ ((npUniqueValues_perm_of_nodup h).nodup_iff.mpr h)
  intro x hx y hy hxy
  exact (List.indexOf_inj ((npUniqueValues_perm_of_nodup h).mem_iff.mp hx)
    ((npUniqueValues_perm_of_nodup h).mem_iff.mp hy)).mp hxy

theorem nodup_getD_inj {α : Type _} (l : List α) (d : α) (h : l.Nodup)
    {i j : ℕ} (hi : i < l.length) (hj : j < l.length)
    (he : l.getD i d = l.getD j d) : i = j := by
  rw [List.getD_eq_getElem l d hi, List.getD_eq_getElem l d hj] at he
  exact h.getElem_inj_iff.mp he

theorem getD_map_lt {α β : Type _} (l : List α) (f : α → β) (j : ℕ)
    (hj : j < l.length) (d : β) (d' : α) :
    (l.map f).getD j d = f (l.getD j d') := by
  rw [List.getD_eq_getElem _ d (by simpa using hj),
    List.getD_eq_getElem _ d' hj, List.getElem_map]

theorem stackedCopy_foldl_unique (frames : List (ℕ → ℕ → ℕ))
    (instrs : List (ℕ × ℕ × ℤ)) (init : ℕ → ℕ → ℕ → ℕ → ℕ) (a b c d : ℕ)
    (fi : ℕ) (hmem : (a, fi, (d : ℤ)) ∈ instrs)
    (huniq : ∀ ins ∈ instrs, a = ins.1 → (d : ℤ) = ins.2.2 →
      ins = (a, fi, (d : ℤ))) :
    instrs.foldl
      (fun out ins => fun (a b c d : ℕ) =>
        if a = ins.1 ∧ (d : ℤ) = ins.2.2 then
          (frames.getD ins.2.1 (fun _ _ => 0)) b c
        else out a b c d)
      init a b c d = (frames.getD fi (fun _ _ => 0)) b c := by
  induction instrs generalizing init with
  | nil => cases hmem
  | cons x xs ih =>
    rw [List.foldl_cons]
    by_cases hx : (a, fi, (d : ℤ)) ∈ xs
    · exact ih _ hx (fun ins hins => huniq ins (List.mem_cons_of_mem _ hins))
    · have hxeq : x = (a, fi, (d : ℤ)) := by
        rcases List.mem_cons.mp hmem with h | h
        · exact h.symm
        · exact absurd h hx
      subst hxeq
      rw [stackedCopy_foldl_apply frames xs _ a b c d ?_]
      · dsimp only
        rw [if_pos ⟨rfl, rfl⟩]
      · intro ins hins hc
        exact hx ((huniq ins (List.mem_cons_of_mem _ hins) hc.1 hc.2) ▸ hins)

theorem stackedCopy_unique_match (frames : List (ℕ → ℕ → ℕ))
    (instrs : List (ℕ × ℕ × ℤ)) (a b c d : ℕ) (fi : ℕ)
    (hmem : (a, fi, (d : ℤ)) ∈ instrs)
    (huniq : ∀ ins ∈ instrs, a = ins.1 → (d : ℤ) = ins.2.2 →
      ins = (a, fi, (d : ℤ))) :
    stackedCopy frames instrs a b c d =
      (frames.getD fi (fun _ _ => 0)) b c := by
  rw [stackedCopy]
  exact stackedCopy_foldl_unique frames instrs _ a b c d fi hmem huniq

theorem mem_joinBySourceInstance_iff (ris : List String) (sns : List ℤ)
    (uids : List String) (table : List (ℤ × ℤ)) (x : ℕ × ℕ × ℤ) :
    x ∈ joinBySourceInstance ris sns uids table ↔
      (x.1 < uids.length ∧ x.2.1 < sns.length ∧
       ris.getD x.2.1 "" = uids.getD x.1 "" ∧
       (x.2.2, sns.getD x.2.1 0) ∈ table) := by
  constructor
  · intro h
    rw [joinBySourceInstance] at h
    obtain ⟨iu, hiu, h⟩ := List.mem_flatMap.mp h
    obtain ⟨j, hj, h⟩ := List.mem_flatMap.mp h
    rw [List.mem_range] at hj
    by_cases hc : ris.getD j "" = iu.2
    · rw [if_pos hc] at h
      obtain ⟨row, hrow, h2⟩ := List.mem_filterMap.mp h
      by_cases hs : sns.getD j 0 = row.2
      · rw [if_pos hs] at h2
        obtain rfl := Option.some_inj.mp h2
        have hlt := List.fst_lt_of_mem_enum hiu
        have hget : uids.getD iu.1 "" = iu.2 := by
          have hg := List.mem_enum_iff_getElem?.mp hiu
          rw [List.getD_eq_getElem?_getD, hg]
          rfl
        refine ⟨hlt, hj, hc.trans hget.symm, ?_⟩
        have : ((iu.1, j, row.1) : ℕ × ℕ × ℤ).2.2 = row.1 := rfl
        rw [this, hs]
        exact hrow
      · rw [if_neg hs] at h2
        exact Option.noConfusion h2
    · rw [if_neg hc] at h
      exact absurd h (List.not_mem_nil x)
  · rintro ⟨h1, h2, h3, h4⟩
    rw [joinBySourceInstance]
    refine List.mem_flatMap.mpr ⟨(x.1, uids.getD x.1 ""), ?_, ?_⟩
    · refine List.mem_enum_iff_getElem?.mpr ?_
      rw [List.getElem?_eq_getElem h1]
      exact congrArg some (List.getD_eq_getElem _ _ h1).symm
    · refine List.mem_flatMap.mpr ⟨x.2.1, List.mem_range.mpr h2, ?_⟩
      rw [if_pos h3]
      refine List.mem_filterMap.mpr ⟨(x.2.2, sns.getD x.2.1 0), h4, ?_⟩
      rw [if_pos rfl]

theorem mem_tempSegmentTable_stacked_oneToN (s : ℕ) (p : ℤ × ℤ) :
    p ∈ tempSegmentTable (oneToN s) false false ↔
      ∃ k < s, p = ((k : ℤ), (k : ℤ) + 1) := by
  rw [tempSegmentTable_stacked]
  constructor
  · intro h
    obtain ⟨q, hq, rfl⟩ := List.mem_map.mp h
    have hg := List.mem_enum_iff_getElem?.mp hq
    have hlt : q.1 < (oneToN s).length := by
      by_contra hge
      rw [List.getElem?_eq_none (by omega)] at hg
      exact Option.noConfusion hg
    rw [List.getElem?_eq_getElem hlt] at hg
    obtain hq2 := Option.some_inj.mp hg
    refine ⟨q.1, by simpa [oneToN_length] using hlt, ?_⟩
    have hval : (oneToN s)[q.1] = (q.1 : ℤ) + 1 := by
      simp [oneToN]
    rw [← hq2, hval]
  · rintro ⟨k, hk, rfl⟩
    refine List.mem_map.mpr ⟨(k, (k : ℤ) + 1), ?_, rfl⟩
    refine List.mem_enum_iff_getElem?.mpr ?_
    have hlt : k < (oneToN s).length := by rw [oneToN_length]; exact hk
    rw [List.getElem?_eq_getElem hlt]
    simp [oneToN]


theorem buildLutsStep_toPffg (sops : List String) (acc : LutsAcc)
    (e : EmittedFrame) (hlen : e.dimensionIndexValues.length = 2)
    (hu : e.refUid ∈ sops) :
    buildLutsStep sops 1 acc (EmittedFrame.toPffg e) = Except.ok
      ⟨acc.segmentNumbers ++ [e.segmentNumber],
       acc.dimRows ++ [[e.dimensionIndexValues.getD 1 0]],
       acc.locations ++ [some SpatialLocationsPreservedValues.YES],
       acc.single,
       acc.refInstances ++ [e.refUid],
       acc.refFrames ++ [(-1 : ℤ)]⟩ := by
  rw [buildLutsStep]
  rw [EmittedFrame.toPffg]
  simp only [pure_bind, List.flatten_cons, List.flatten_nil, List.append_nil,
    List.map_cons, List.map_nil, List.flatMap_cons, List.flatMap_nil,
    List.headD_cons, List.isEmpty_nil, if_true]
  rw [if_neg (by rw [hlen]; decide)]
  rw [if_neg (by simp)]
  rw [if_neg (not_not_intro hu)]
  rfl

theorem foldlM_buildLuts_toPffg (sops : List String) (E0 : List EmittedFrame)
    (hlen : ∀ e ∈ E0, e.dimensionIndexValues.length = 2)
    (hu : ∀ e ∈ E0, e.refUid ∈ sops) (acc : LutsAcc) :
    (E0.map EmittedFrame.toPffg).foldlM (buildLutsStep sops 1) acc = Except.ok
      ⟨acc.segmentNumbers ++ E0.map (fun e => e.segmentNumber),
       acc.dimRows ++ E0.map (fun e => [e.dimensionIndexValues.getD 1 0]),
       acc.locations ++
         E0.map (fun _ => some SpatialLocationsPreservedValues.YES),
       acc.single,
       acc.refInstances ++ E0.map (fun e => e.refUid),
       acc.refFrames ++ E0.map (fun _ => (-1 : ℤ))⟩ := by
  revert hlen hu
  induction E0 generalizing acc with
  | nil =>
    intro _ _
    simp only [List.map_nil, List.foldlM_nil, List.append_nil]
    rfl
  | cons e es ih =>
    intro hlen hu
    rw [List.map_cons, List.foldlM_cons]
    rw [buildLutsStep_toPffg sops acc e (hlen e (List.mem_cons_self _ _))
      (hu e (List.mem_cons_self _ _))]
    simp only [bind, Except.bind]
    rw [ih _ (fun x hx => hlen x (List.mem_cons_of_mem _ hx))
      (fun x hx => hu x (List.mem_cons_of_mem _ hx))]
    simp only [List.map_cons, List.append_assoc, List.singleton_append]

theorem buildLuts_good (encoded : EncodedSeg) (E0 : List EmittedFrame)
    (hpffg : encoded.pffg = E0.map EmittedFrame.toPffg)
    (hptr : encoded.dimIndPointers.length = 1)
    (hnodup : encoded.sourceUids.Nodup)
    (hlen : ∀ e ∈ E0, e.dimensionIndexValues.length = 2)
    (hu : ∀ e ∈ E0, e.refUid ∈ encoded.sourceUids) :
    buildLuts encoded = Except.ok
      { h := encoded.h
        w := encoded.w
        frames := encoded.frames
        numberOfSegments := encoded.numberOfSegments
        segmentationType := encoded.segmentationType
        maximumFractionalValue := encoded.maximumFractionalValue
        db := { referencedUids := encoded.sourceUids
                segmentNumbers := E0.map (fun e => e.segmentNumber)
                dimIndPointers := encoded.dimIndPointers
                dimIndexValues :=
                  E0.map (fun e => [e.dimensionIndexValues.getD 1 0])
                referencedInstances := some (E0.map (fun e => e.refUid))
                referencedFrames := some (E0.map (fun _ => (-1 : ℤ))) }
        locationsPreserved := some SpatialLocationsPreservedValues.YES
        singleSourceFramePerSegFrame := true } := by
  rw [buildLuts, hpffg, hptr]
  rw [foldlM_buildLuts_toPffg encoded.sourceUids E0 hlen hu
    ⟨[], [], [], true, [], []⟩]
  simp only [List.nil_append, bind, Except.bind]
  simp [mkSegDBManager, hnodup]
  rfl


theorem checkIndexing_ok (seg : SegImage)
    (hloc : seg.locationsPreserved = some SpatialLocationsPreservedValues.YES)
    (hsingle : seg.singleSourceFramePerSegFrame = true)
    (ignoreSpatialLocations : Bool) :
    checkIndexingWithSourceFrames seg ignoreSpatialLocations =
      Except.ok () := by
  rw [checkIndexingWithSourceFrames, hloc]
  simp only [pure_bind]
  rw [if_neg (by rw [hsingle]; exact not_not_intro rfl)]
  rfl

theorem areRefUnique_of_keys (db : SegDB) (E0 : List EmittedFrame)
    (hri : db.referencedInstances = some (E0.map (fun e => e.refUid)))
    (hsn : db.segmentNumbers = E0.map (fun e => e.segmentNumber))
    (hkey : (E0.map (fun e => (e.refUid, e.segmentNumber))).Nodup) :
    areReferencedSopInstancesUnique db = true := by
  rw [areReferencedSopInstancesUnique, hri, hsn]
  dsimp only
  refine decide_eq_true ?_
  rw [List.zip_map']
  conv_rhs => rw [List.length_map]
  rw [← List.length_map E0 (fun e => (e.refUid, e.segmentNumber))]
  exact (dedup_length_eq_iff _).mpr hkey

theorem getPixelsBySourceInstance_reduce (seg : SegImage)
    (uids : List String) (ris : List String)
    (hchk : checkIndexingWithSourceFrames seg false = Except.ok ())
    (hn : 0 < seg.numberOfSegments)
    (hz : uids ≠ [])
    (huniq : areReferencedSopInstancesUnique seg.db = true)
    (hnomiss : ∀ u ∈ uids, u ∈ seg.db.referencedUids)
    (hnd : uids.Nodup)
    (htab : tempSegmentTableOk
      (tempSegmentTable (oneToN seg.numberOfSegments) false false) = true)
    (hri : seg.db.referencedInstances = some ris)
    (rf so : Bool) :
    getPixelsBySourceInstance seg uids none false false false false rf so =
      getPixelsBySegFrame seg uids.length
        (joinBySourceInstance ris seg.db.segmentNumbers uids
          (tempSegmentTable (oneToN seg.numberOfSegments) false false))
        (oneToN seg.numberOfSegments) false false rf so := by
  rw [getPixelsBySourceInstance.eq_def, hchk]
  simp only [pure_bind]
  rw [if_neg (by rw [oneToN_isEmpty_eq_false _ hn]; exact Bool.false_ne_true)]
  rw [if_neg (by rw [List.isEmpty_eq_false.mpr hz]; exact Bool.false_ne_true)]
  rw [if_neg (not_not_intro huniq)]
  rw [if_neg (by
    rintro ⟨-, hany⟩
    rw [List.any_eq_true] at hany
    obtain ⟨u, hu, hdec⟩ := hany
    simp only [decide_eq_true_eq] at hdec
    exact hdec (hnomiss u hu))]
  rw [iterate_source_instance_ok seg.db uids
    (oneToN seg.numberOfSegments) false false ris hnd htab hri]
  simp only [bind, Except.bind]

theorem stacked_join_absent (E0 : List EmittedFrame) (uids : List String)
    (s : ℕ) (i b c d : ℕ)
    (habs : ∀ e ∈ E0, ¬(e.refUid = uids.getD i "" ∧
      e.segmentNumber = (d : ℤ) + 1)) :
    stackedCopy (E0.map EmittedFrame.plane)
      (joinBySourceInstance (E0.map (fun e => e.refUid))
        (E0.map (fun e => e.segmentNumber)) uids
        (tempSegmentTable (oneToN s) false false)) i b c d = 0 := by
  rw [stackedCopy]
  refine stackedCopy_foldl_apply _ _ _ _ _ _ _ ?_
  rintro ins hins ⟨hieq, hdeq⟩
  rw [mem_joinBySourceInstance_iff] at hins
  obtain ⟨hi, hj, heq, htab⟩ := hins
  rw [List.length_map] at hj
  rw [mem_tempSegmentTable_stacked_oneToN] at htab
  obtain ⟨k, hk, hpair⟩ := htab
  have h1 : ins.2.2 = (k : ℤ) := congrArg Prod.fst hpair
  have h2 : (E0.map (fun e => e.segmentNumber)).getD ins.2.1 0 =
      (k : ℤ) + 1 := congrArg Prod.snd hpair
  rw [getD_map_lt E0 _ ins.2.1 hj 0 default] at h2
  rw [getD_map_lt E0 _ ins.2.1 hj "" default] at heq
  have hmem : E0.getD ins.2.1 default ∈ E0 := by
    rw [List.getD_eq_getElem E0 default hj]
    exact List.getElem_mem hj
  refine habs (E0.getD ins.2.1 default) hmem ⟨?_, ?_⟩
  · rw [heq, ← hieq]
  · rw [h2]
    have : (k : ℤ) = (d : ℤ) := by rw [← h1, ← hdeq]
    rw [this]

theorem stacked_join_present (E0 : List EmittedFrame) (uids : List String)
    (s : ℕ)
    (hkey : (E0.map (fun e => (e.refUid, e.segmentNumber))).Nodup)
    (i b c d : ℕ) (hi : i < uids.length) (hd : d < s)
    (e0 : EmittedFrame) (he0 : e0 ∈ E0)
    (hu0 : e0.refUid = uids.getD i "")
    (hs0 : e0.segmentNumber = (d : ℤ) + 1) :
    stackedCopy (E0.map EmittedFrame.plane)
      (joinBySourceInstance (E0.map (fun e => e.refUid))
        (E0.map (fun e => e.segmentNumber)) uids
        (tempSegmentTable (oneToN s) false false)) i b c d =
      e0.plane b c := by
  obtain ⟨j0, hj0, hE⟩ := List.getElem_of_mem he0
  have hgd : E0.getD j0 default = e0 := by
    rw [List.getD_eq_getElem E0 default hj0, hE]
  have hval : (E0.map EmittedFrame.plane).getD j0 (fun _ _ => 0) =
      e0.plane := by
    rw [getD_map_lt E0 _ j0 hj0 _ default, hgd]
  have hj0k : j0 < (E0.map (fun e => (e.refUid, e.segmentNumber))).length := by
    rw [List.length_map]
    exact hj0
  rw [stackedCopy_unique_match (E0.map EmittedFrame.plane) _ i b c d j0
    ?hmem ?huniq]
  · rw [hval]
  case hmem =>
    rw [mem_joinBySourceInstance_iff]
    refine ⟨hi, ?_, ?_, ?_⟩
    · rw [List.length_map]
      exact hj0
    · rw [getD_map_lt E0 _ j0 hj0 "" default, hgd, hu0]
    · rw [getD_map_lt E0 _ j0 hj0 0 default, hgd, hs0]
      rw [mem_tempSegmentTable_stacked_oneToN]
      exact ⟨d, hd, rfl⟩
  case huniq =>
    rintro ins hins hieq hdeq
    rw [mem_joinBySourceInstance_iff] at hins
    obtain ⟨hi2, hj2, heq, htab⟩ := hins
    rw [List.length_map] at hj2
    rw [mem_tempSegmentTable_stacked_oneToN] at htab
    obtain ⟨k, hk, hpair⟩ := htab
    have h1 : ins.2.2 = (k : ℤ) := congrArg Prod.fst hpair
    have h2 : (E0.map (fun e => e.segmentNumber)).getD ins.2.1 0 =
        (k : ℤ) + 1 := congrArg Prod.snd hpair
    rw [getD_map_lt E0 _ ins.2.1 hj2 0 default,
      List.getD_eq_getElem E0 default hj2] at h2
    rw [getD_map_lt E0 _ ins.2.1 hj2 "" default,
      List.getD_eq_getElem E0 default hj2] at heq
    have hkd : (k : ℤ) = (d : ℤ) := by rw [← h1, ← hdeq]
    have hlen1 : ins.2.1 <
        (E0.map (fun e => (e.refUid, e.segmentNumber))).length := by
      rw [List.length_map]
      exact hj2
    have hkeyeq :
        (E0.map (fun e => (e.refUid, e.segmentNumber))).get ⟨ins.2.1, hlen1⟩ =
        (E0.map (fun e => (e.refUid, e.segmentNumber))).get ⟨j0, hj0k⟩ := by
      rw [List.get_eq_getElem, List.get_eq_getElem, List.getElem_map,
        List.getElem_map, hE]
      refine Prod.ext ?_ ?_
      · rw [heq, ← hieq, hu0]
      · rw [h2, hkd, hs0]
    have hfin : (⟨ins.2.1, hlen1⟩ : Fin _) = ⟨j0, hj0k⟩ :=
      (hkey.get_inj_iff).mp hkeyeq
    have hjeq : ins.2.1 = j0 := congrArg Fin.val hfin
    exact Prod.ext hieq.symm (Prod.ext hjeq hdeq.symm)

theorem getPixelsBySegFrame_stacked_norescale (seg : SegImage) (nout : ℕ)
    (instructions : List (ℕ × ℕ × ℤ)) (hn : 0 < seg.numberOfSegments)
    (rl so : Bool) :
    getPixelsBySegFrame seg nout instructions (oneToN seg.numberOfSegments)
      false rl false so =
      Except.ok (SegPixels.intStacked
        (stackedCopy seg.frames instructions)) := by
  rw [getPixelsBySegFrame]
  rw [if_neg (by rw [oneToN_isEmpty_eq_false _ hn]; exact Bool.false_ne_true)]
  rw [if_neg (oneToN_no_out_of_range seg.numberOfSegments)]
  simp only [pure_bind]
  rw [if_neg Bool.false_ne_true]
  rw [if_neg (show ¬((false : Bool) = true ∧ seg.segmentationType =
      SegmentationTypeValues.FRACTIONAL ∧ ¬(false : Bool) = true) from
    fun h => Bool.false_ne_true h.1)]
  rfl

theorem getPixelsBySegFrame_stacked_rescale (seg : SegImage) (nout : ℕ)
    (instructions : List (ℕ × ℕ × ℤ)) (hn : 0 < seg.numberOfSegments)
    (hfrac : seg.segmentationType = SegmentationTypeValues.FRACTIONAL)
    (hbound : ¬∃ a < nout, ∃ b < seg.h, ∃ c < seg.w,
      ∃ d < (oneToN seg.numberOfSegments).length,
      ((stackedCopy seg.frames instructions a b c d : ℤ) >
        seg.maximumFractionalValue))
    (rl so : Bool) :
    getPixelsBySegFrame seg nout instructions (oneToN seg.numberOfSegments)
      false rl true so =
      Except.ok (SegPixels.floatStacked (fun a b c d =>
        Rat.divInt (stackedCopy seg.frames instructions a b c d)
          seg.maximumFractionalValue)) := by
  rw [getPixelsBySegFrame, hfrac]
  rw [if_neg (by rw [oneToN_isEmpty_eq_false _ hn]; exact Bool.false_ne_true)]
  rw [if_neg (oneToN_no_out_of_range seg.numberOfSegments)]
  simp only [pure_bind]
  rw [if_neg Bool.false_ne_true]
  rw [if_pos ⟨trivial, trivial, Bool.false_ne_true⟩]
  rw [if_neg hbound]
  rfl


theorem filterMap_if_none {α β : Type _} (l : List α) (cond : α → Prop)
    [DecidablePred cond] (f : α → β) :
    l.filterMap (fun x => if cond x then none else some (f x)) =
      (l.filter (fun x => decide ¬(cond x))).map f := by
  induction l with
  | nil => rfl
  | cons x xs ih =>
    rw [List.filterMap_cons, List.filter_cons]
    by_cases hc : cond x
    · rw [if_pos hc, if_neg (by simp [hc])]
      exact ih
    · rw [if_neg hc, if_pos (by simp [hc])]
      rw [List.map_cons, ih]

/-- The frame emitted by the encode loop for segment `t` and sorted plane
index `p` (the body of `encodePlaneLoop` with the skip test removed). -/
def emitFrame (sources : List SourceImage) (pa : PixelArray) (segs : List ℤ)
    (segTy : SegmentationTypeValues) (mf : ℤ) (sii : List ℕ) (dpv : List ℤ)
    (t : ℤ) (p : ℕ) : EmittedFrame :=
  { segmentNumber := t
    sourceImageIndex := sii.getD p 0
    dimensionIndexValues := [t,
      (dpv.indexOf ((sources.getD (sii.getD p 0) default).pos) : ℤ) + 1]
    refUid := (sources.getD (sii.getD p 0) default).uid
    plane := fun b c =>
      getSegmentArray pa t.toNat segs.length segTy mf (sii.getD p 0) b c }

/-- The encode loop as a filter of the sorted plane indices followed by the
frame constructor. -/
theorem encodePlaneLoop_eq (sources : List SourceImage) (pa : PixelArray)
    (segs : List ℤ) (segTy : SegmentationTypeValues) (mf : ℤ)
    (sii : List ℕ) (psi : List ℕ) (dpv : List ℤ) (oa : Bool) :
    encodePlaneLoop sources pa segs segTy mf sii psi dpv oa =
      segs.flatMap (fun t =>
        (psi.filter (fun p => decide ¬(oa = true ∧
          ¬ segArrayNonEmpty (getSegmentArray pa t.toNat segs.length segTy mf)
            pa.numRows pa.numCols (sii.getD p 0) = true))).map
          (emitFrame sources pa segs segTy mf sii dpv t)) := by
  rw [encodePlaneLoop]
  refine congrArg _ (funext fun t => ?_)
  rw [← filterMap_if_none psi _ (emitFrame sources pa segs segTy mf sii dpv t)]
  rfl

theorem mem_encodePlaneLoop {sources : List SourceImage} {pa : PixelArray}
    {segs : List ℤ} {segTy : SegmentationTypeValues} {mf : ℤ}
    {sii : List ℕ} {psi : List ℕ} {dpv : List ℤ} {oa : Bool}
    {e : EmittedFrame}
    (h : e ∈ encodePlaneLoop sources pa segs segTy mf sii psi dpv oa) :
    ∃ t ∈ segs, ∃ p ∈ psi,
      ¬(oa = true ∧
        ¬ segArrayNonEmpty (getSegmentArray pa t.toNat segs.length segTy mf)
          pa.numRows pa.numCols (sii.getD p 0) = true) ∧
      e = emitFrame sources pa segs segTy mf sii dpv t p := by
  rw [encodePlaneLoop_eq] at h
  obtain ⟨t, ht, h⟩ := List.mem_flatMap.mp h
  obtain ⟨p, hp, rfl⟩ := List.mem_map.mp h
  rw [List.mem_filter] at hp
  exact ⟨t, ht, p, hp.1, of_decide_eq_true hp.2, rfl⟩

theorem emitFrame_mem_encodePlaneLoop {sources : List SourceImage}
    {pa : PixelArray} {segs : List ℤ} {segTy : SegmentationTypeValues}
    {mf : ℤ} {sii : List ℕ} {psi : List ℕ} {dpv : List ℤ} {oa : Bool}
    {t : ℤ} (ht : t ∈ segs) {p : ℕ} (hp : p ∈ psi)
    (hkeep : ¬(oa = true ∧
      ¬ segArrayNonEmpty (getSegmentArray pa t.toNat segs.length segTy mf)
        pa.numRows pa.numCols (sii.getD p 0) = true)) :
    emitFrame sources pa segs segTy mf sii dpv t p ∈
      encodePlaneLoop sources pa segs segTy mf sii psi dpv oa := by
  rw [encodePlaneLoop_eq]
  refine List.mem_flatMap.mpr ⟨t, ht, ?_⟩
  refine List.mem_map.mpr ⟨p, ?_, rfl⟩
  rw [List.mem_filter]
  exact ⟨hp, decide_eq_true hkeep⟩

theorem uid_getD_inj {sources : List SourceImage} {n : ℕ}
    (hn : sources.length = n)
    (huid : (sources.map SourceImage.uid).Nodup)
    {i j : ℕ} (hi : i < n) (hj : j < n)
    (h : (sources.getD i default).uid = (sources.getD j default).uid) :
    i = j := by
  rw [← getD_map_lt sources SourceImage.uid i (by omega) "" default,
    ← getD_map_lt sources SourceImage.uid j (by omega) "" default] at h
  exact nodup_getD_inj _ "" huid (by rw [List.length_map]; omega)
    (by rw [List.length_map]; omega) h

theorem encodePlaneLoop_keys_nodup (sources : List SourceImage)
    (pa : PixelArray) (s : ℕ) (segTy : SegmentationTypeValues) (mf : ℤ)
    (sii : List ℕ) (psi : List ℕ) (dpv : List ℤ) (oa : Bool) (n : ℕ)
    (hn : sources.length = n)
    (huid : (sources.map SourceImage.uid).Nodup)
    (hpsi : psi.Nodup)
    (hpmem : ∀ p ∈ psi, p < sii.length)
    (hsub : ∀ j < sii.length, sii.getD j 0 < n)
    (hsii : sii.Nodup) :
    ((encodePlaneLoop sources pa (oneToN s) segTy mf sii psi dpv oa).map
      (fun e => (e.refUid, e.segmentNumber))).Nodup := by
  rw [encodePlaneLoop_eq, List.map_flatMap]
  rw [List.nodup_flatMap]
  constructor
  · intro t _
    rw [List.map_map]
    refine List.Nodup.map_on ?_ (hpsi.filter _)
    intro p hp q hq hpq
    have hp' : p ∈ psi := (List.mem_filter.mp hp).1
    have hq' : q ∈ psi := (List.mem_filter.mp hq).1
    have huideq : (sources.getD (sii.getD p 0) default).uid =
        (sources.getD (sii.getD q 0) default).uid :=
      congrArg Prod.fst hpq
    have hieq : sii.getD p 0 = sii.getD q 0 :=
      uid_getD_inj hn huid (hsub p (hpmem p hp')) (hsub q (hpmem q hq'))
        huideq
    exact nodup_getD_inj sii 0 hsii (hpmem p hp') (hpmem q hq') hieq
  · refine List.Pairwise.imp ?_ (oneToN_nodup s)
    intro t t' hne
    simp only [Function.onFun]
    intro x hx hx'
    obtain ⟨e, he, hxe⟩ := List.mem_map.mp hx
    obtain ⟨e', he', hxe'⟩ := List.mem_map.mp hx'
    obtain ⟨p, hp, rfl⟩ := List.mem_map.mp he
    obtain ⟨p', hp', rfl⟩ := List.mem_map.mp he'
    have h2 : x.2 = t := by rw [← hxe]; rfl
    have h2' : x.2 = t' := by rw [← hxe']; rfl
    exact hne (h2 ▸ h2')

theorem encodePlaneLoop_pixel (sources : List SourceImage) (pa : PixelArray)
    (s : ℕ) (segTy : SegmentationTypeValues) (mf : ℤ)
    (kept : List ℕ) (oa : Bool) (n : ℕ) (dpv : List ℤ)
    (hn : sources.length = n)
    (huid : (sources.map SourceImage.uid).Nodup)
    (hposn : (sources.map SourceImage.pos).Nodup)
    (hkn : kept.Nodup)
    (hkb : ∀ j ∈ kept, j < n)
    (i b k d : ℕ) (hi : i < n) (hd : d < s) :
    (∀ (_hik : i ∈ kept)
      (_hseg : oa = true → segArrayNonEmpty
        (getSegmentArray pa (d + 1) s segTy mf) pa.numRows pa.numCols i =
          true),
      stackedCopy
        ((encodePlaneLoop sources pa (oneToN s) segTy mf kept
          (npUniqueReturnIndex
            (kept.map (fun j => (sources.map SourceImage.pos).getD j 0)))
          dpv oa).map EmittedFrame.plane)
        (joinBySourceInstance
          ((encodePlaneLoop sources pa (oneToN s) segTy mf kept
            (npUniqueReturnIndex
              (kept.map (fun j => (sources.map SourceImage.pos).getD j 0)))
            dpv oa).map (fun e => e.refUid))
          ((encodePlaneLoop sources pa (oneToN s) segTy mf kept
            (npUniqueReturnIndex
              (kept.map (fun j => (sources.map SourceImage.pos).getD j 0)))
            dpv oa).map (fun e => e.segmentNumber))
          (sources.map SourceImage.uid)
          (tempSegmentTable (oneToN s) false false)) i b k d =
        getSegmentArray pa (d + 1) s segTy mf i b k) ∧
    (∀ (_hmiss : i ∉ kept ∨ (oa = true ∧ segArrayNonEmpty
        (getSegmentArray pa (d + 1) s segTy mf) pa.numRows pa.numCols i =
          false)),
      stackedCopy
        ((encodePlaneLoop sources pa (oneToN s) segTy mf kept
          (npUniqueReturnIndex
            (kept.map (fun j => (sources.map SourceImage.pos).getD j 0)))
          dpv oa).map EmittedFrame.plane)
        (joinBySourceInstance
          ((encodePlaneLoop sources pa (oneToN s) segTy mf kept
            (npUniqueReturnIndex
              (kept.map (fun j => (sources.map SourceImage.pos).getD j 0)))
            dpv oa).map (fun e => e.refUid))
          ((encodePlaneLoop sources pa (oneToN s) segTy mf kept
            (npUniqueReturnIndex
              (kept.map (fun j => (sources.map SourceImage.pos).getD j 0)))
            dpv oa).map (fun e => e.segmentNumber))
          (sources.map SourceImage.uid)
          (tempSegmentTable (oneToN s) false false)) i b k d = 0) := by
  have hfp : (kept.map
      (fun j => (sources.map SourceImage.pos).getD j 0)).Nodup := by
    refine List.Nodup.map_on ?_ hkn
    intro x hx y hy hxy
    exact nodup_getD_inj (sources.map SourceImage.pos) 0 hposn
      (by rw [List.length_map, hn]; exact hkb x hx)
      (by rw [List.length_map, hn]; exact hkb y hy) hxy
  have hfpl : (kept.map
      (fun j => (sources.map SourceImage.pos).getD j 0)).length =
      kept.length := List.length_map _ _
  have hpmem : ∀ p ∈ npUniqueReturnIndex
      (kept.map (fun j => (sources.map SourceImage.pos).getD j 0)),
      p < kept.length := by
    intro p hp
    rw [← hfpl]
    exact (mem_npUniqueReturnIndex_of_nodup hfp p).mp hp
  have hsub : ∀ j < kept.length, kept.getD j 0 < n := by
    intro j hj
    have hm : kept.getD j 0 ∈ kept := by
      rw [List.getD_eq_getElem _ _ hj]
      exact List.getElem_mem hj
    exact hkb _ hm
  have hkey := encodePlaneLoop_keys_nodup sources pa s segTy mf kept
    (npUniqueReturnIndex
      (kept.map (fun j => (sources.map SourceImage.pos).getD j 0)))
    dpv oa n hn huid (npUniqueReturnIndex_nodup_of_nodup hfp) hpmem hsub hkn
  have htn : ((d : ℤ) + 1).toNat = d + 1 := by omega
  have hiu : i < (sources.map SourceImage.uid).length := by
    rw [List.length_map, hn]
    exact hi
  constructor
  · intro hik hseg
    have hpl : kept.indexOf i < kept.length := List.indexOf_lt_length.mpr hik
    have hgetd : kept.getD (kept.indexOf i) 0 = i := by
      rw [List.getD_eq_getElem _ _ hpl]
      exact List.getElem_indexOf hpl
    have hpm : kept.indexOf i ∈ npUniqueReturnIndex
        (kept.map (fun j => (sources.map SourceImage.pos).getD j 0)) := by
      refine (mem_npUniqueReturnIndex_of_nodup hfp _).mpr ?_
      rw [hfpl]
      exact hpl
    have ht : ((d : ℤ) + 1) ∈ oneToN s := mem_oneToN.mpr ⟨by omega, by omega⟩
    have hkeep : ¬(oa = true ∧
        ¬ segArrayNonEmpty (getSegmentArray pa ((d : ℤ) + 1).toNat
          (oneToN s).length segTy mf) pa.numRows pa.numCols
          (kept.getD (kept.indexOf i) 0) = true) := by
      rintro ⟨hoa, hno⟩
      rw [hgetd, htn, oneToN_length] at hno
      exact hno (hseg hoa)
    have hmem := @emitFrame_mem_encodePlaneLoop sources pa (oneToN s) segTy
      mf kept (npUniqueReturnIndex
        (kept.map (fun j => (sources.map SourceImage.pos).getD j 0)))
      dpv oa _ ht _ hpm hkeep
    rw [stacked_join_present _ (sources.map SourceImage.uid) s hkey i b k d
      hiu hd _ hmem ?hu ?hs]
    · show getSegmentArray pa ((d : ℤ) + 1).toNat (oneToN s).length segTy mf
        (kept.getD (kept.indexOf i) 0) b k = _
      rw [htn, oneToN_length, hgetd]
    case hu =>
      show (sources.getD (kept.getD (kept.indexOf i) 0) default).uid =
        (sources.map SourceImage.uid).getD i ""
      rw [hgetd, getD_map_lt sources SourceImage.uid i (by omega) "" default]
    case hs => rfl
  · intro hmiss
    refine stacked_join_absent _ _ s i b k d ?_
    rintro e he ⟨heu, hes⟩
    obtain ⟨t, ht, p, hp, hkeep, rfl⟩ := mem_encodePlaneLoop he
    have hp' : p < kept.length := hpmem p hp
    have hi'k : kept.getD p 0 ∈ kept := by
      rw [List.getD_eq_getElem _ _ hp']
      exact List.getElem_mem hp'
    have hi'n : kept.getD p 0 < n := hkb _ hi'k
    have heu2 : (sources.getD (kept.getD p 0) default).uid =
        (sources.getD i default).uid := by
      have hx : (sources.map SourceImage.uid).getD i "" =
          (sources.getD i default).uid :=
        getD_map_lt sources SourceImage.uid i (by omega) "" default
      rw [← hx]
      exact heu
    have hieq : kept.getD p 0 = i := uid_getD_inj hn huid hi'n hi heu2
    rcases hmiss with hni | ⟨hoa, hempty⟩
    · exact hni (hieq ▸ hi'k)
    · refine hkeep ⟨hoa, ?_⟩
      have hts : t = (d : ℤ) + 1 := hes
      rw [hieq, hts, htn, oneToN_length, hempty]
      simp

theorem castPixelArrayUint8_int4 (f r c s : ℕ) (a : ℕ → ℕ → ℕ → ℕ → ℕ) :
    castPixelArrayUint8 (PixelArray.int4 f r c s a) =
      PixelArray.int4 f r c s a := rfl

theorem checkSegmentNumbers_oneToN (s : ℕ) (hs : 0 < s) :
    checkSegmentNumbers (oneToN s) = Except.ok () := by
  refine (checkSegmentNumbers_ok_iff (oneToN s)).mpr ⟨?_, ?_⟩
  · intro hc
    have := oneToN_length s
    rw [hc] at this
    simp only [List.length_nil] at this
    omega
  · rw [oneToN_length]

theorem encodeSegmentation_shape_int4 (sources : List SourceImage)
    (n r c s : ℕ) (a : ℕ → ℕ → ℕ → ℕ → ℕ) (maxFrac : ℤ) (om : Bool)
    (ov : SegmentsOverlapValues)
    (hne : sources ≠ [])
    (hs : 0 < s)
    (hn : sources.length = n)
    (hchk : checkAndCastPixelArray (PixelArray.int4 n r c s a) s
      SegmentationTypeValues.BINARY = Except.ok ov)
    (kept : List ℕ) (isEmpty : Bool)
    (hkept : (if om then omitEmptyFrames (PixelArray.int4 n r c s a)
      else (List.range n, false)) = (kept, isEmpty)) :
    encodeSegmentation sources (PixelArray.int4 n r c s a)
      SegmentationTypeValues.BINARY (oneToN s) maxFrac om = Except.ok
      { h := r
        w := c
        frames := (encodePlaneLoop sources (PixelArray.int4 n r c s a)
            (oneToN s) SegmentationTypeValues.BINARY maxFrac kept
            (npUniqueReturnIndex
              (kept.map (fun i => (sources.map SourceImage.pos).getD i 0)))
            (npUniqueValues
              (kept.map (fun i => (sources.map SourceImage.pos).getD i 0)))
            (om && !isEmpty)).map EmittedFrame.plane
        pffg := (encodePlaneLoop sources (PixelArray.int4 n r c s a)
            (oneToN s) SegmentationTypeValues.BINARY maxFrac kept
            (npUniqueReturnIndex
              (kept.map (fun i => (sources.map SourceImage.pos).getD i 0)))
            (npUniqueValues
              (kept.map (fun i => (sources.map SourceImage.pos).getD i 0)))
            (om && !isEmpty)).map EmittedFrame.toPffg
        sourceUids := sources.map SourceImage.uid
        segmentationType := SegmentationTypeValues.BINARY
        maximumFractionalValue := maxFrac
        numberOfSegments := s
        dimIndPointers := [imagePositionPatientTag] } := by
  rw [encodeSegmentation]
  rw [if_neg (by rw [List.isEmpty_eq_false.mpr hne]; exact Bool.false_ne_true)]
  rw [checkSegmentNumbers_oneToN s hs]
  simp only [pure_bind]
  rw [oneToN_length]
  rw [hchk]
  simp only [bind, Except.bind]
  rw [if_pos (show True ∨ SegmentationTypeValues.BINARY =
    SegmentationTypeValues.LABELMAP from Or.inl trivial)]
  rw [castPixelArrayUint8_int4]
  dsimp only
  rw [if_neg (fun h => SegmentationTypeValues.noConfusion h)]
  simp only [pure_bind, PixelArray.numFrames, PixelArray.numRows,
    PixelArray.numCols, List.length_map, hn]
  rw [if_neg (not_not_intro rfl)]
  rw [hkept]
  rfl

theorem encodeSegmentation_shape_float4 (sources : List SourceImage)
    (n r c s : ℕ) (a : ℕ → ℕ → ℕ → ℕ → ℚ) (maxFrac : ℤ) (om : Bool)
    (ov : SegmentsOverlapValues)
    (hne : sources ≠ [])
    (hs : 0 < s)
    (hn : sources.length = n)
    (hchk : checkAndCastPixelArray (PixelArray.float4 n r c s a) s
      SegmentationTypeValues.FRACTIONAL = Except.ok ov)
    (kept : List ℕ) (isEmpty : Bool)
    (hkept : (if om then omitEmptyFrames (PixelArray.float4 n r c s a)
      else (List.range n, false)) = (kept, isEmpty)) :
    encodeSegmentation sources (PixelArray.float4 n r c s a)
      SegmentationTypeValues.FRACTIONAL (oneToN s) maxFrac om = Except.ok
      { h := r
        w := c
        frames := (encodePlaneLoop sources (PixelArray.float4 n r c s a)
            (oneToN s) SegmentationTypeValues.FRACTIONAL maxFrac kept
            (npUniqueReturnIndex
              (kept.map (fun i => (sources.map SourceImage.pos).getD i 0)))
            (npUniqueValues
              (kept.map (fun i => (sources.map SourceImage.pos).getD i 0)))
            (om && !isEmpty)).map EmittedFrame.plane
        pffg := (encodePlaneLoop sources (PixelArray.float4 n r c s a)
            (oneToN s) SegmentationTypeValues.FRACTIONAL maxFrac kept
            (npUniqueReturnIndex
              (kept.map (fun i => (sources.map SourceImage.pos).getD i 0)))
            (npUniqueValues
              (kept.map (fun i => (sources.map SourceImage.pos).getD i 0)))
            (om && !isEmpty)).map EmittedFrame.toPffg
        sourceUids := sources.map SourceImage.uid
        segmentationType := SegmentationTypeValues.FRACTIONAL
        maximumFractionalValue := maxFrac
        numberOfSegments := s
        dimIndPointers := [imagePositionPatientTag] } := by
  rw [encodeSegmentation]
  rw [if_neg (by rw [List.isEmpty_eq_false.mpr hne]; exact Bool.false_ne_true)]
  rw [checkSegmentNumbers_oneToN s hs]
  simp only [pure_bind]
  rw [oneToN_length]
  rw [hchk]
  simp only [bind, Except.bind]
  rw [if_neg (show ¬(SegmentationTypeValues.FRACTIONAL =
      SegmentationTypeValues.BINARY ∨ SegmentationTypeValues.FRACTIONAL =
      SegmentationTypeValues.LABELMAP) from by
    rintro (h | h) <;> exact SegmentationTypeValues.noConfusion h)]
  dsimp only
  rw [if_neg (fun h => SegmentationTypeValues.noConfusion h)]
  simp only [pure_bind, PixelArray.numFrames, PixelArray.numRows,
    PixelArray.numCols, List.length_map, hn]
  rw [if_neg (not_not_intro rfl)]
  rw [hkept]
  rfl


/-- `buildLuts_good` restated over a literal encoded record, for direct
rewriting. -/
theorem buildLuts_good2 (hh ww : ℕ) (frames : List (ℕ → ℕ → ℕ))
    (E0 : List EmittedFrame) (uids : List String)
    (segTy : SegmentationTypeValues) (mfv : ℤ) (ns : ℕ) (ptr : ℕ)
    (hnodup : uids.Nodup)
    (hlen : ∀ e ∈ E0, e.dimensionIndexValues.length = 2)
    (hu : ∀ e ∈ E0, e.refUid ∈ uids) :
    buildLuts ⟨hh, ww, frames, E0.map EmittedFrame.toPffg, uids, segTy, mfv,
      ns, [ptr]⟩ = Except.ok ⟨hh, ww, frames, ns, segTy, mfv,
      ⟨uids, E0.map (fun e => e.segmentNumber), [ptr],
       E0.map (fun e => [e.dimensionIndexValues.getD 1 0]),
       some (E0.map (fun e => e.refUid)), some (E0.map (fun _ => (-1 : ℤ)))⟩,
      some SpatialLocationsPreservedValues.YES, true⟩ :=
  buildLuts_good _ E0 rfl rfl hnodup hlen hu

/-- C1 (amended): encoding a 4D binary stack accepted by the constructor
and reconstructing with `get_pixels_by_source_instance` in stacked mode over
all referenced source instances is the identity on every in-bounds pixel,
for both values of omit-empty-frames and any rescale/skip flags — PROVIDED
the source images' SOP Instance UIDs and plane positions are pairwise
distinct.  (With duplicated plane positions `np.unique` silently drops
planes and the round trip fails; see the counterexample.) -/
theorem C1_binary_roundtrip (sources : List SourceImage) (n r c s : ℕ)
    (a : ℕ → ℕ → ℕ → ℕ → ℕ) (maxFrac : ℤ) (om rf so : Bool)
    (ov : SegmentsOverlapValues)
    (hne : sources ≠ [])
    (hn : sources.length = n)
    (hs : 0 < s)
    (huid : (sources.map SourceImage.uid).Nodup)
    (hposn : (sources.map SourceImage.pos).Nodup)
    (hacc : checkAndCastPixelArray (PixelArray.int4 n r c s a) s
      SegmentationTypeValues.BINARY = Except.ok ov) :
    ∀ i < n, ∀ b < r, ∀ k < c, ∀ d < s,
      intPixel
        (encodeAndBuild sources (PixelArray.int4 n r c s a)
            SegmentationTypeValues.BINARY (oneToN s) maxFrac om >>=
          fun seg => getPixelsBySourceInstance seg
            (sources.map SourceImage.uid) none false false false false rf so)
        i b k d = some (a i b k d) := by
  intro i hi b hb k hk d hd
  rcases hkept : (if om then omitEmptyFrames (PixelArray.int4 n r c s a)
    else (List.range n, false)) with ⟨kept, isEmpty⟩
  have hkfacts : kept.Nodup ∧ (∀ j ∈ kept, j < n) ∧
      ((om && !isEmpty) = true →
        kept = (List.range n).filter
          (fun j => frameNonEmpty (PixelArray.int4 n r c s a) j)) ∧
      ((om && !isEmpty) = false → kept = List.range n) := by
    cases om with
    | false =>
      simp only [Bool.false_eq_true, if_false] at hkept
      obtain ⟨rfl, rfl⟩ := Prod.mk.injEq _ _ _ _ |>.mp hkept
      exact ⟨List.nodup_range n, fun j hj => List.mem_range.mp hj,
        fun hc => absurd hc (by simp), fun _ => rfl⟩
    | true =>
      rw [if_pos rfl, omitEmptyFrames] at hkept
      simp only [PixelArray.numFrames] at hkept
      by_cases hfe : ((List.range n).filter
          (fun j => frameNonEmpty (PixelArray.int4 n r c s a) j)).isEmpty
      · rw [if_pos hfe] at hkept
        obtain ⟨rfl, rfl⟩ := Prod.mk.injEq _ _ _ _ |>.mp hkept
        exact ⟨List.nodup_range n, fun j hj => List.mem_range.mp hj,
          fun hc => absurd hc (by simp), fun _ => rfl⟩
      · rw [if_neg hfe] at hkept
        obtain ⟨rfl, rfl⟩ := Prod.mk.injEq _ _ _ _ |>.mp hkept
        refine ⟨(List.nodup_range n).filter _,
          fun j hj => List.mem_range.mp (List.mem_filter.mp hj).1,
          fun _ => rfl, fun hc => absurd hc (by simp)⟩
  obtain ⟨hkN, hkB, hk3, hk4⟩ := hkfacts
  have hfp : (kept.map
      (fun j => (sources.map SourceImage.pos).getD j 0)).Nodup := by
    refine List.Nodup.map_on ?_ hkN
    intro x hx y hy hxy
    exact nodup_getD_inj (sources.map SourceImage.pos) 0 hposn
      (by rw [List.length_map, hn]; exact hkB x hx)
      (by rw [List.length_map, hn]; exact hkB y hy) hxy
  have hpmem : ∀ p ∈ npUniqueReturnIndex
      (kept.map (fun j => (sources.map SourceImage.pos).getD j 0)),
      p < kept.length := by
    intro p hp
    rw [← List.length_map kept
      (fun j => (sources.map SourceImage.pos).getD j 0)]
    exact (mem_npUniqueReturnIndex_of_nodup hfp p).mp hp
  rw [encodeAndBuild]
  rw [encodeSegmentation_shape_int4 sources n r c s a maxFrac om ov hne hs hn
    hacc kept isEmpty hkept]
  simp only [bind, Except.bind]
  have hlenE : ∀ e ∈ encodePlaneLoop sources (PixelArray.int4 n r c s a)
      (oneToN s) SegmentationTypeValues.BINARY maxFrac kept
      (npUniqueReturnIndex
        (kept.map (fun j => (sources.map SourceImage.pos).getD j 0)))
      (npUniqueValues
        (kept.map (fun j => (sources.map SourceImage.pos).getD j 0)))
      (om && !isEmpty), e.dimensionIndexValues.length = 2 := by
    intro e he
    obtain ⟨t, -, p, -, -, rfl⟩ := mem_encodePlaneLoop he
    rfl
  have huE : ∀ e ∈ encodePlaneLoop sources (PixelArray.int4 n r c s a)
      (oneToN s) SegmentationTypeValues.BINARY maxFrac kept
      (npUniqueReturnIndex
        (kept.map (fun j => (sources.map SourceImage.pos).getD j 0)))
      (npUniqueValues
        (kept.map (fun j => (sources.map SourceImage.pos).getD j 0)))
      (om && !isEmpty), e.refUid ∈ sources.map SourceImage.uid := by
    intro e he
    obtain ⟨t, -, p, hp, -, rfl⟩ := mem_encodePlaneLoop he
    refine List.mem_map.mpr ⟨sources.getD (kept.getD p 0) default, ?_, rfl⟩
    have hp' := hpmem p hp
    have hjm : kept.getD p 0 ∈ kept := by
      rw [List.getD_eq_getElem _ _ hp']
      exact List.getElem_mem hp'
    have hjn : kept.getD p 0 < sources.length := by
      rw [hn]
      exact hkB _ hjm
    rw [List.getD_eq_getElem _ _ hjn]
    exact List.getElem_mem hjn
  rw [buildLuts_good2 _ _ _ _ _ _ _ _ _ huid hlenE huE]
  simp only [bind, Except.bind]
  rw [getPixelsBySourceInstance_reduce _ _ _
    (checkIndexing_ok _ rfl rfl false) hs (by simpa using hne)
    (areRefUnique_of_keys _ _ rfl rfl
      (encodePlaneLoop_keys_nodup sources (PixelArray.int4 n r c s a) s
        SegmentationTypeValues.BINARY maxFrac kept _ _ (om && !isEmpty) n hn
        huid (npUniqueReturnIndex_nodup_of_nodup hfp) hpmem
        (fun j hj => by rw [hn] at *; exact hkB _ (by
          rw [List.getD_eq_getElem _ _ hj]; exact List.getElem_mem hj))
        hkN))
    (fun u hu => hu) huid
    (tempSegmentTableOk_stacked _ (oneToN_nodup s)) rfl rf so]
  rw [getPixelsBySegFrame_stacked_binary _ _ _ hs rfl false rf so]
  rw [intPixel]
  refine congrArg some ?_
  have hpix := encodePlaneLoop_pixel sources (PixelArray.int4 n r c s a) s
    SegmentationTypeValues.BINARY maxFrac kept (om && !isEmpty) n
    (npUniqueValues
      (kept.map (fun j => (sources.map SourceImage.pos).getD j 0)))
    hn huid hposn hkN hkB i b k d hi hd
  have hseg_eq : getSegmentArray (PixelArray.int4 n r c s a) (d + 1) s
      SegmentationTypeValues.BINARY maxFrac =
      fun i0 b0 c0 => a i0 b0 c0 d := by
    rw [getSegmentArray]
    rw [if_neg (fun h => SegmentationTypeValues.noConfusion h.1)]
    rfl
  by_cases hik : i ∈ kept
  · by_cases hempty : (om && !isEmpty) = true ∧ segArrayNonEmpty
        (getSegmentArray (PixelArray.int4 n r c s a) (d + 1) s
          SegmentationTypeValues.BINARY maxFrac)
        (PixelArray.int4 n r c s a).numRows
        (PixelArray.int4 n r c s a).numCols i = false
    · rw [hpix.2 (Or.inr hempty)]
      have hz := hempty.2
      rw [hseg_eq, segArrayNonEmpty] at hz
      simp only [decide_eq_false_iff_not] at hz
      push_neg at hz
      exact (hz b hb k hk).symm
    · rw [hpix.1 hik ?_, hseg_eq]
      intro hoa
      rcases Bool.eq_false_or_eq_true (segArrayNonEmpty
        (getSegmentArray (PixelArray.int4 n r c s a) (d + 1) s
          SegmentationTypeValues.BINARY maxFrac)
        (PixelArray.int4 n r c s a).numRows
        (PixelArray.int4 n r c s a).numCols i) with ht | hf
      · exact ht
      · exact absurd ⟨hoa, hf⟩ hempty
  · have hoa : (om && !isEmpty) = true := by
      rcases Bool.eq_false_or_eq_true (om && !isEmpty) with ht | hf
      · exact ht
      · rw [hk4 hf] at hik
        exact absurd (List.mem_range.mpr hi) hik
    rw [hpix.2 (Or.inl hik)]
    rw [hk3 hoa] at hik
    have hfne : frameNonEmpty (PixelArray.int4 n r c s a) i = false := by
      rcases Bool.eq_false_or_eq_true
          (frameNonEmpty (PixelArray.int4 n r c s a) i) with ht | hf
      · exact absurd (List.mem_filter.mpr ⟨List.mem_range.mpr hi, ht⟩) hik
      · exact hf
    rw [frameNonEmpty] at hfne
    simp only [decide_eq_false_iff_not] at hfne
    push_neg at hfne
    exact (hfne b hb k hk d hd).symm


/-- Two source images sharing the same plane position. -/
def c1DupSources : List SourceImage := [⟨"A", 0⟩, ⟨"B", 0⟩]

/-- Counterexample to C1 as stated: an all-ones two-frame binary mask whose
two source images share one plane position round-trips to 0 in output frame
1 (np.unique with return_index keeps a single representative per position,
sop.py lines 1441-1445), although frame 0 still reads back 1 and the
original pixel value was 1. -/
theorem C1_binary_roundtrip_counterexample :
    intPixel
      (encodeAndBuild c1DupSources (PixelArray.int3 2 1 1 (fun _ _ _ => 1))
          SegmentationTypeValues.BINARY [1] 255 false >>=
        fun seg => getPixelsBySourceInstance seg
          (c1DupSources.map SourceImage.uid) none false false false false
          true false) 1 0 0 0 = some 0 ∧
    intPixel
      (encodeAndBuild c1DupSources (PixelArray.int3 2 1 1 (fun _ _ _ => 1))
          SegmentationTypeValues.BINARY [1] 255 false >>=
        fun seg => getPixelsBySourceInstance seg
          (c1DupSources.map SourceImage.uid) none false false false false
          true false) 0 0 0 0 = some 1 ∧
    (1 : ℕ) ≠ 0 := by decide

/-- Witness for C1: a two-frame single-segment mask with distinct plane
positions, encoded with empty-frame omission (frame 1 is empty), reads back
its original values 1 and 0. -/
theorem C1_binary_roundtrip_witness :
    intPixel
      (encodeAndBuild [⟨"A", 0⟩, ⟨"B", 7⟩]
          (PixelArray.int4 2 1 1 1 (fun i _ _ _ => if i = 0 then 1 else 0))
          SegmentationTypeValues.BINARY (oneToN 1) 255 true >>=
        fun seg => getPixelsBySourceInstance seg
          ([(⟨"A", 0⟩ : SourceImage), ⟨"B", 7⟩].map SourceImage.uid) none
          false false false false true false) 0 0 0 0 = some 1 ∧
    intPixel
      (encodeAndBuild [⟨"A", 0⟩, ⟨"B", 7⟩]
          (PixelArray.int4 2 1 1 1 (fun i _ _ _ => if i = 0 then 1 else 0))
          SegmentationTypeValues.BINARY (oneToN 1) 255 true >>=
        fun seg => getPixelsBySourceInstance seg
          ([(⟨"A", 0⟩ : SourceImage), ⟨"B", 7⟩].map SourceImage.uid) none
          false false false false true false) 1 0 0 0 = some 0 := by
  have h := C1_binary_roundtrip [⟨"A", 0⟩, ⟨"B", 7⟩] 2 1 1 1
    (fun i _ _ _ => if i = 0 then 1 else 0) 255 true true false
    SegmentsOverlapValues.NO (by decide) rfl (by decide) (by decide)
    (by decide) (by decide)
  have h0 := h 0 (by decide) 0 (by decide) 0 (by decide) 0 (by decide)
  have h1 := h 1 (by decide) 0 (by decide) 0 (by decide) 0 (by decide)
  exact ⟨by simpa using h0, by simpa using h1⟩


theorem getD_frames_le (frames : List (ℕ → ℕ → ℕ)) (M : ℕ)
    (hf : ∀ fr ∈ frames, ∀ b c, fr b c ≤ M) (j b c : ℕ) :
    (frames.getD j (fun _ _ => 0)) b c ≤ M := by
  by_cases hj : j < frames.length
  · rw [List.getD_eq_getElem _ _ hj]
    exact hf _ (List.getElem_mem hj) b c
  · rw [List.getD_eq_default _ _ (by omega)]
    exact Nat.zero_le M

theorem stackedCopy_foldl_le (frames : List (ℕ → ℕ → ℕ))
    (instrs : List (ℕ × ℕ × ℤ)) (M : ℕ)
    (hf : ∀ fr ∈ frames, ∀ b c, fr b c ≤ M)
    (init : ℕ → ℕ → ℕ → ℕ → ℕ)
    (hinit : ∀ a b c d, init a b c d ≤ M) (a b c d : ℕ) :
    instrs.foldl
      (fun out ins => fun (a b c d : ℕ) =>
        if a = ins.1 ∧ (d : ℤ) = ins.2.2 then
          (frames.getD ins.2.1 (fun _ _ => 0)) b c
        else out a b c d)
      init a b c d ≤ M := by
  induction instrs generalizing init with
  | nil => exact hinit a b c d
  | cons x xs ih =>
    rw [List.foldl_cons]
    refine ih _ ?_ 
    intro a0 b0 c0 d0
    dsimp only
    split_ifs
    · exact getD_frames_le frames M hf _ b0 c0
    · exact hinit a0 b0 c0 d0

theorem stackedCopy_le (frames : List (ℕ → ℕ → ℕ))
    (instrs : List (ℕ × ℕ × ℤ)) (M : ℕ)
    (hf : ∀ fr ∈ frames, ∀ b c, fr b c ≤ M) (a b c d : ℕ) :
    stackedCopy frames instrs a b c d ≤ M := by
  rw [stackedCopy]
  exact stackedCopy_foldl_le frames instrs M hf _
    (fun _ _ _ _ => Nat.zero_le M) a b c d

theorem storedByte_of_zero :
    Int.toNat (npAround (ratScaleInt 0 255)) % 256 = 0 := by decide

theorem storedByte_of_one :
    Int.toNat (npAround (ratScaleInt 1 255)) % 256 = 255 := by decide

theorem divInt_zero_255 : Rat.divInt ((0 : ℕ) : ℤ) 255 = 0 := by decide

theorem divInt_255_255 : Rat.divInt ((255 : ℕ) : ℤ) 255 = 1 := by decide

/-- C8 (amended): a float array with values exactly 0.0/1.0, encoded as
FRACTIONAL with max_fractional_value=255, reads back exactly: with
`rescale_fractional=True` the original 0.0/1.0 values, with
`rescale_fractional=False` the raw stored bytes 0/255 — PROVIDED the source
images' SOP Instance UIDs and plane positions are pairwise distinct (with a
duplicated plane position `np.unique` drops planes and the round trip
fails; see the counterexample). -/
theorem C8_fractional_roundtrip (sources : List SourceImage) (n r c s : ℕ)
    (a : ℕ → ℕ → ℕ → ℕ → ℚ) (om so : Bool)
    (ov : SegmentsOverlapValues)
    (hne : sources ≠ [])
    (hn : sources.length = n)
    (hs : 0 < s)
    (huid : (sources.map SourceImage.uid).Nodup)
    (hposn : (sources.map SourceImage.pos).Nodup)
    (hacc : checkAndCastPixelArray (PixelArray.float4 n r c s a) s
      SegmentationTypeValues.FRACTIONAL = Except.ok ov)
    (hbin : ∀ i < n, ∀ b < r, ∀ k < c, ∀ d < s,
      a i b k d = 0 ∨ a i b k d = 1) :
    ∀ i < n, ∀ b < r, ∀ k < c, ∀ d < s,
      ratPixel
        (encodeAndBuild sources (PixelArray.float4 n r c s a)
            SegmentationTypeValues.FRACTIONAL (oneToN s) 255 om >>=
          fun seg => getPixelsBySourceInstance seg
            (sources.map SourceImage.uid) none false false false false true
            so) i b k d = some (a i b k d) ∧
      intPixel
        (encodeAndBuild sources (PixelArray.float4 n r c s a)
            SegmentationTypeValues.FRACTIONAL (oneToN s) 255 om >>=
          fun seg => getPixelsBySourceInstance seg
            (sources.map SourceImage.uid) none false false false false false
            so) i b k d = some (if a i b k d = 0 then 0 else 255) := by
  intro i hi b hb k hk d hd
  rcases hkept : (if om then omitEmptyFrames (PixelArray.float4 n r c s a)
    else (List.range n, false)) with ⟨kept, isEmpty⟩
  have hkfacts : kept.Nodup ∧ (∀ j ∈ kept, j < n) ∧
      ((om && !isEmpty) = true →
        kept = (List.range n).filter
          (fun j => frameNonEmpty (PixelArray.float4 n r c s a) j)) ∧
      ((om && !isEmpty) = false → kept = List.range n) := by
    cases om with
    | false =>
      simp only [Bool.false_eq_true, if_false] at hkept
      obtain ⟨rfl, rfl⟩ := Prod.mk.injEq _ _ _ _ |>.mp hkept
      exact ⟨List.nodup_range n, fun j hj => List.mem_range.mp hj,
        fun hc => absurd hc (by simp), fun _ => rfl⟩
    | true =>
      rw [if_pos rfl, omitEmptyFrames] at hkept
      simp only [PixelArray.numFrames] at hkept
      by_cases hfe : ((List.range n).filter
          (fun j => frameNonEmpty (PixelArray.float4 n r c s a) j)).isEmpty
      · rw [if_pos hfe] at hkept
        obtain ⟨rfl, rfl⟩ := Prod.mk.injEq _ _ _ _ |>.mp hkept
        exact ⟨List.nodup_range n, fun j hj => List.mem_range.mp hj,
          fun hc => absurd hc (by simp), fun _ => rfl⟩
      · rw [if_neg hfe] at hkept
        obtain ⟨rfl, rfl⟩ := Prod.mk.injEq _ _ _ _ |>.mp hkept
        refine ⟨(List.nodup_range n).filter _,
          fun j hj => List.mem_range.mp (List.mem_filter.mp hj).1,
          fun _ => rfl, fun hc => absurd hc (by simp)⟩
  obtain ⟨hkN, hkB, hk3, hk4⟩ := hkfacts
  have hfp : (kept.map
      (fun j => (sources.map SourceImage.pos).getD j 0)).Nodup := by
    refine List.Nodup.map_on ?_ hkN
    intro x hx y hy hxy
    exact nodup_getD_inj (sources.map SourceImage.pos) 0 hposn
      (by rw [List.length_map, hn]; exact hkB x hx)
      (by rw [List.length_map, hn]; exact hkB y hy) hxy
  have hpmem : ∀ p ∈ npUniqueReturnIndex
      (kept.map (fun j => (sources.map SourceImage.pos).getD j 0)),
      p < kept.length := by
    intro p hp
    rw [← List.length_map kept
      (fun j => (sources.map SourceImage.pos).getD j 0)]
    exact (mem_npUniqueReturnIndex_of_nodup hfp p).mp hp
  have hlenE : ∀ e ∈ encodePlaneLoop sources (PixelArray.float4 n r c s a)
      (oneToN s) SegmentationTypeValues.FRACTIONAL 255 kept
      (npUniqueReturnIndex
        (kept.map (fun j => (sources.map SourceImage.pos).getD j 0)))
      (npUniqueValues
        (kept.map (fun j => (sources.map SourceImage.pos).getD j 0)))
      (om && !isEmpty), e.dimensionIndexValues.length = 2 := by
    intro e he
    obtain ⟨t, -, p, -, -, rfl⟩ := mem_encodePlaneLoop he
    rfl
  have huE : ∀ e ∈ encodePlaneLoop sources (PixelArray.float4 n r c s a)
      (oneToN s) SegmentationTypeValues.FRACTIONAL 255 kept
      (npUniqueReturnIndex
        (kept.map (fun j => (sources.map SourceImage.pos).getD j 0)))
      (npUniqueValues
        (kept.map (fun j => (sources.map SourceImage.pos).getD j 0)))
      (om && !isEmpty), e.refUid ∈ sources.map SourceImage.uid := by
    intro e he
    obtain ⟨t, -, p, hp, -, rfl⟩ := mem_encodePlaneLoop he
    refine List.mem_map.mpr ⟨sources.getD (kept.getD p 0) default, ?_, rfl⟩
    have hp' := hpmem p hp
    have hjm : kept.getD p 0 ∈ kept := by
      rw [List.getD_eq_getElem _ _ hp']
      exact List.getElem_mem hp'
    have hjn : kept.getD p 0 < sources.length := by
      rw [hn]
      exact hkB _ hjm
    rw [List.getD_eq_getElem _ _ hjn]
    exact List.getElem_mem hjn
  have hplane_le : ∀ fr ∈ (encodePlaneLoop sources
      (PixelArray.float4 n r c s a) (oneToN s)
      SegmentationTypeValues.FRACTIONAL 255 kept
      (npUniqueReturnIndex
        (kept.map (fun j => (sources.map SourceImage.pos).getD j 0)))
      (npUniqueValues
        (kept.map (fun j => (sources.map SourceImage.pos).getD j 0)))
      (om && !isEmpty)).map EmittedFrame.plane,
      ∀ b0 k0, fr b0 k0 ≤ 255 := by
    intro fr hfr b0 k0
    obtain ⟨e, he, rfl⟩ := List.mem_map.mp hfr
    obtain ⟨t, -, p, -, -, rfl⟩ := mem_encodePlaneLoop he
    show Int.toNat (npAround (ratScaleInt _ 255)) % 256 ≤ 255
    exact Nat.le_of_lt_succ (Nat.mod_lt _ (by norm_num))
  have hkey := encodePlaneLoop_keys_nodup sources
    (PixelArray.float4 n r c s a) s SegmentationTypeValues.FRACTIONAL 255
    kept
    (npUniqueReturnIndex
      (kept.map (fun j => (sources.map SourceImage.pos).getD j 0)))
    (npUniqueValues
      (kept.map (fun j => (sources.map SourceImage.pos).getD j 0)))
    (om && !isEmpty) n hn huid (npUniqueReturnIndex_nodup_of_nodup hfp)
    hpmem
    (fun j hj => by
      rw [hn] at *
      exact hkB _ (by
        rw [List.getD_eq_getElem _ _ hj]
        exact List.getElem_mem hj))
    hkN
  have hpix := encodePlaneLoop_pixel sources (PixelArray.float4 n r c s a) s
    SegmentationTypeValues.FRACTIONAL 255 kept (om && !isEmpty) n
    (npUniqueValues
      (kept.map (fun j => (sources.map SourceImage.pos).getD j 0)))
    hn huid hposn hkN hkB i b k d hi hd
  have hseg_eq : getSegmentArray (PixelArray.float4 n r c s a) (d + 1) s
      SegmentationTypeValues.FRACTIONAL 255 =
      fun i0 b0 k0 =>
        Int.toNat (npAround (ratScaleInt (a i0 b0 k0 d) 255)) % 256 := rfl
  have hvalue : stackedCopy
      ((encodePlaneLoop sources (PixelArray.float4 n r c s a) (oneToN s)
        SegmentationTypeValues.FRACTIONAL 255 kept
        (npUniqueReturnIndex
          (kept.map (fun j => (sources.map SourceImage.pos).getD j 0)))
        (npUniqueValues
          (kept.map (fun j => (sources.map SourceImage.pos).getD j 0)))
        (om && !isEmpty)).map EmittedFrame.plane)
      (joinBySourceInstance
        ((encodePlaneLoop sources (PixelArray.float4 n r c s a) (oneToN s)
          SegmentationTypeValues.FRACTIONAL 255 kept
          (npUniqueReturnIndex
            (kept.map (fun j => (sources.map SourceImage.pos).getD j 0)))
          (npUniqueValues
            (kept.map (fun j => (sources.map SourceImage.pos).getD j 0)))
          (om && !isEmpty)).map (fun e => e.refUid))
        ((encodePlaneLoop sources (PixelArray.float4 n r c s a) (oneToN s)
          SegmentationTypeValues.FRACTIONAL 255 kept
          (npUniqueReturnIndex
            (kept.map (fun j => (sources.map SourceImage.pos).getD j 0)))
          (npUniqueValues
            (kept.map (fun j => (sources.map SourceImage.pos).getD j 0)))
          (om && !isEmpty)).map (fun e => e.segmentNumber))
        (sources.map SourceImage.uid)
        (tempSegmentTable (oneToN s) false false)) i b k d =
      Int.toNat (npAround (ratScaleInt (a i b k d) 255)) % 256 := by
    by_cases hik : i ∈ kept
    · by_cases hempty : (om && !isEmpty) = true ∧ segArrayNonEmpty
          (getSegmentArray (PixelArray.float4 n r c s a) (d + 1) s
            SegmentationTypeValues.FRACTIONAL 255)
          (PixelArray.float4 n r c s a).numRows
          (PixelArray.float4 n r c s a).numCols i = false
      · rw [hpix.2 (Or.inr hempty)]
        have hz := hempty.2
        rw [hseg_eq, segArrayNonEmpty] at hz
        simp only [decide_eq_false_iff_not] at hz
        push_neg at hz
        exact (hz b hb k hk).symm
      · rw [hpix.1 hik ?_, hseg_eq]
        intro hoa
        rcases Bool.eq_false_or_eq_true (segArrayNonEmpty
          (getSegmentArray (PixelArray.float4 n r c s a) (d + 1) s
            SegmentationTypeValues.FRACTIONAL 255)
          (PixelArray.float4 n r c s a).numRows
          (PixelArray.float4 n r c s a).numCols i) with ht | hf
        · exact ht
        · exact absurd ⟨hoa, hf⟩ hempty
    · have hoa : (om && !isEmpty) = true := by
        rcases Bool.eq_false_or_eq_true (om && !isEmpty) with ht | hf
        · exact ht
        · rw [hk4 hf] at hik
          exact absurd (List.mem_range.mpr hi) hik
      rw [hpix.2 (Or.inl hik)]
      rw [hk3 hoa] at hik
      have hfne : frameNonEmpty (PixelArray.float4 n r c s a) i = false := by
        rcases Bool.eq_false_or_eq_true
            (frameNonEmpty (PixelArray.float4 n r c s a) i) with ht | hf
        · exact absurd (List.mem_filter.mpr ⟨List.mem_range.mpr hi, ht⟩) hik
        · exact hf
      rw [frameNonEmpty] at hfne
      simp only [decide_eq_false_iff_not] at hfne
      push_neg at hfne
      have hz : a i b k d = 0 := hfne b hb k hk d hd
      rw [hz]
      exact storedByte_of_zero.symm
  have hboundall : ∀ (instrs : List (ℕ × ℕ × ℤ)) (a0 b0 k0 d0 : ℕ),
      stackedCopy ((encodePlaneLoop sources (PixelArray.float4 n r c s a)
        (oneToN s) SegmentationTypeValues.FRACTIONAL 255 kept
        (npUniqueReturnIndex
          (kept.map (fun j => (sources.map SourceImage.pos).getD j 0)))
        (npUniqueValues
          (kept.map (fun j => (sources.map SourceImage.pos).getD j 0)))
        (om && !isEmpty)).map EmittedFrame.plane) instrs a0 b0 k0 d0 ≤
        255 :=
    fun instrs a0 b0 k0 d0 =>
      stackedCopy_le _ instrs 255 hplane_le a0 b0 k0 d0
  constructor
  · rw [encodeAndBuild]
    rw [encodeSegmentation_shape_float4 sources n r c s a 255 om ov hne hs hn
      hacc kept isEmpty hkept]
    simp only [bind, Except.bind]
    rw [buildLuts_good2 _ _ _ _ _ _ _ _ _ huid hlenE huE]
    simp only [bind, Except.bind]
    rw [getPixelsBySourceInstance_reduce _ _ _
      (checkIndexing_ok _ rfl rfl false) hs (by simpa using hne)
      (areRefUnique_of_keys _ _ rfl rfl hkey)
      (fun u hu => hu) huid
      (tempSegmentTableOk_stacked _ (oneToN_nodup s)) rfl true so]
    rw [getPixelsBySegFrame_stacked_rescale _ _ _ hs rfl ?_ false so]
    · rw [ratPixel]
      refine congrArg some ?_
      rw [hvalue]
      rcases hbin i hi b hb k hk d hd with hz | ho
      · rw [hz, storedByte_of_zero, divInt_zero_255]
      · rw [ho, storedByte_of_one, divInt_255_255]
    · rintro ⟨a0, -, b0, -, k0, -, d0, -, hgt⟩
      dsimp only at hgt
      have hle := hboundall (joinBySourceInstance
        ((encodePlaneLoop sources (PixelArray.float4 n r c s a) (oneToN s)
          SegmentationTypeValues.FRACTIONAL 255 kept
          (npUniqueReturnIndex
            (kept.map (fun j => (sources.map SourceImage.pos).getD j 0)))
          (npUniqueValues
            (kept.map (fun j => (sources.map SourceImage.pos).getD j 0)))
          (om && !isEmpty)).map (fun e => e.refUid))
        ((encodePlaneLoop sources (PixelArray.float4 n r c s a) (oneToN s)
          SegmentationTypeValues.FRACTIONAL 255 kept
          (npUniqueReturnIndex
            (kept.map (fun j => (sources.map SourceImage.pos).getD j 0)))
          (npUniqueValues
            (kept.map (fun j => (sources.map SourceImage.pos).getD j 0)))
          (om && !isEmpty)).map (fun e => e.segmentNumber))
        (sources.map SourceImage.uid)
        (tempSegmentTable (oneToN s) false false)) a0 b0 k0 d0
      omega
  · rw [encodeAndBuild]
    rw [encodeSegmentation_shape_float4 sources n r c s a 255 om ov hne hs hn
      hacc kept isEmpty hkept]
    simp only [bind, Except.bind]
    rw [buildLuts_good2 _ _ _ _ _ _ _ _ _ huid hlenE huE]
    simp only [bind, Except.bind]
    rw [getPixelsBySourceInstance_reduce _ _ _
      (checkIndexing_ok _ rfl rfl false) hs (by simpa using hne)
      (areRefUnique_of_keys _ _ rfl rfl hkey)
      (fun u hu => hu) huid
      (tempSegmentTableOk_stacked _ (oneToN_nodup s)) rfl false so]
    rw [getPixelsBySegFrame_stacked_norescale _ _ _ hs false so]
    rw [intPixel]
    refine congrArg some ?_
    rw [hvalue]
    rcases hbin i hi b hb k hk d hd with hz | ho
    · rw [hz, storedByte_of_zero, if_pos rfl]
    · rw [ho, storedByte_of_one, if_neg (by norm_num)]

/-- Two source images sharing one plane position, for the float pipeline. -/
def c8DupSources : List SourceImage := [⟨"A", 0⟩, ⟨"B", 0⟩]

/-- Counterexample to C8 as stated: an all-ones two-frame 0.0/1.0 float
array whose two source images share a plane position reads back 0.0 in
output frame 1 after the FRACTIONAL round trip with rescaling (np.unique
keeps one plane per position, sop.py lines 1441-1445), while frame 0 still
reads 1.0. -/
theorem C8_fractional_roundtrip_counterexample :
    ratPixel
      (encodeAndBuild c8DupSources (PixelArray.float3 2 1 1 (fun _ _ _ => 1))
          SegmentationTypeValues.FRACTIONAL [1] 255 false >>=
        fun seg => getPixelsBySourceInstance seg
          (c8DupSources.map SourceImage.uid) none false false false false
          true false) 1 0 0 0 = some 0 ∧
    ratPixel
      (encodeAndBuild c8DupSources (PixelArray.float3 2 1 1 (fun _ _ _ => 1))
          SegmentationTypeValues.FRACTIONAL [1] 255 false >>=
        fun seg => getPixelsBySourceInstance seg
          (c8DupSources.map SourceImage.uid) none false false false false
          true false) 0 0 0 0 = some 1 ∧
    (0 : ℚ) ≠ 1 := by decide

/-- Witness for C8: a two-frame 0.0/1.0 float stack with distinct plane
positions reads back 1.0 (rescaled) and 255 (raw) at frame 0, and 0.0 at
the empty frame 1, with empty-frame omission enabled. -/
theorem C8_fractional_roundtrip_witness :
    ratPixel
      (encodeAndBuild [⟨"A", 0⟩, ⟨"B", 7⟩]
          (PixelArray.float4 2 1 1 1 (fun i _ _ _ => if i = 0 then 1 else 0))
          SegmentationTypeValues.FRACTIONAL (oneToN 1) 255 true >>=
        fun seg => getPixelsBySourceInstance seg
          ([(⟨"A", 0⟩ : SourceImage), ⟨"B", 7⟩].map SourceImage.uid) none
          false false false false true false) 0 0 0 0 = some 1 ∧
    intPixel
      (encodeAndBuild [⟨"A", 0⟩, ⟨"B", 7⟩]
          (PixelArray.float4 2 1 1 1 (fun i _ _ _ => if i = 0 then 1 else 0))
          SegmentationTypeValues.FRACTIONAL (oneToN 1) 255 true >>=
        fun seg => getPixelsBySourceInstance seg
          ([(⟨"A", 0⟩ : SourceImage), ⟨"B", 7⟩].map SourceImage.uid) none
          false false false false false false) 0 0 0 0 = some 255 ∧
    ratPixel
      (encodeAndBuild [⟨"A", 0⟩, ⟨"B", 7⟩]
          (PixelArray.float4 2 1 1 1 (fun i _ _ _ => if i = 0 then 1 else 0))
          SegmentationTypeValues.FRACTIONAL (oneToN 1) 255 true >>=
        fun seg => getPixelsBySourceInstance seg
          ([(⟨"A", 0⟩ : SourceImage), ⟨"B", 7⟩].map SourceImage.uid) none
          false false false false true false) 1 0 0 0 = some 0 := by
  have h := C8_fractional_roundtrip [⟨"A", 0⟩, ⟨"B", 7⟩] 2 1 1 1
    (fun i _ _ _ => if i = 0 then 1 else 0) true false
    SegmentsOverlapValues.NO (by decide) rfl (by decide) (by decide)
    (by decide) (by decide) (by decide)
  have h0 := h 0 (by decide) 0 (by decide) 0 (by decide) 0 (by decide)
  have h1 := h 1 (by decide) 0 (by decide) 0 (by decide) 0 (by decide)
  refine ⟨by simpa using h0.1, by simpa using h0.2, by simpa using h1.1⟩
